import Mathlib

/-!
Shallow embedding of the sumtree-orderbook contract core
(`src/contracts/sumtree-orderbook/src/sumtree/node.rs`,
`src/contracts/sumtree-orderbook/src/sumtree/tree.rs`,
`src/contracts/sumtree-orderbook/src/sudo.rs`).

All sum-tree operations act on a single `(book_id, tick_id)` pair, so the
persistent maps `NODES`, `TREE` and `NODE_ID_COUNTER` are embedded as a
`Store` holding the node map for that pair, the root pointer and the id
counter.  `Uint128` values are embedded as `Nat` together with explicit
`2^128` bounds at the checked operations; `Decimal256` quantities are
embedded as `ℚ`.  Fallible code returns `CResult`, which distinguishes a
contract error from an unwrap on `None` (a Rust panic) and from running
out of recursion fuel.
-/

namespace Orderbook

/-- Largest value of `Uint128`. -/
def U128_MAX : Nat := 2 ^ 128 - 1

/-- Embedding of `Uint128::checked_add`: `None` models the overflow case. -/
def checked_add_u128 (a b : Nat) : Option Nat :=
  if a + b ≤ U128_MAX then some (a + b) else none

/-- Errors of the contract that the embedded code paths can surface
(`ContractError` in the source). -/
inductive ContractError where
  | invalidNodeType
  | childlessInternalNode
  | overflow
  | std
  | invalidSwap (error : String)
  | invalidPair (token_in_denom token_out_denom : String)
  | invalidBookId (book_id : Nat)
  deriving DecidableEq, Repr

/-- Outcome of running an embedded fallible operation: a value, a
`ContractError`, a Rust panic (an `unwrap` of `None`), or fuel
exhaustion of the embedding's bounded recursion. -/
inductive CResult (α : Type) where
  | ok (a : α)
  | err (e : ContractError)
  | panicked
  | outOfFuel
  deriving DecidableEq, Repr

namespace CResult

/-- Monadic bind on `CResult`: errors, panics and fuel exhaustion propagate. -/
def bind {α β : Type} : CResult α → (α → CResult β) → CResult β
  | ok a, f => f a
  | err e, _ => err e
  | panicked, _ => panicked
  | outOfFuel, _ => outOfFuel

instance : Monad CResult where
  pure := ok
  bind := bind

/-- Decidable test for the `ok` constructor. -/
def isOk {α : Type} : CResult α → Bool
  | ok _ => true
  | _ => false

end CResult

/-- Embedding of Rust `Option::unwrap` into `CResult`: `None` panics. -/
def unwrapCR {α : Type} : Option α → CResult α
  | some a => CResult.ok a
  | none => CResult.panicked

/-- Embedding of `Decimal256::checked_sub` on the natural values reached by
the prefix-sum walk: subtraction underflow is a contract error. -/
def checked_sub_walk (a b : Nat) : CResult Nat :=
  if b ≤ a then CResult.ok (a - b) else CResult.err ContractError.overflow

/-- Node payload (`NodeType` in `node.rs`): a leaf records a cancelled
`value` at position `etas`; an internal node carries the subtree
`accumulator`, its ETAS `range` and its `weight`. -/
inductive NodeType where
  | leaf (value etas : Nat)
  | internal (accumulator : Nat) (range : Nat × Nat) (weight : Nat)
  deriving DecidableEq, Repr

/-- Smart constructor mirroring `NodeType::internal`, which zeroes the weight. -/
def NodeType.internalNew (accumulator : Nat) (range : Nat × Nat) : NodeType :=
  NodeType.internal accumulator range 0

/-- Embedding of `TreeNode`: tree links are stored as node keys. -/
structure TreeNode where
  key : Nat
  book_id : Nat
  tick_id : Int
  left : Option Nat
  right : Option Nat
  parent : Option Nat
  node_type : NodeType
  deriving DecidableEq, Repr

/-- Embedding of `TreeNode::new`. -/
def TreeNode.new (book_id : Nat) (tick_id : Int) (key : Nat) (node_type : NodeType) :
    TreeNode :=
  { key := key, book_id := book_id, tick_id := tick_id,
    left := none, right := none, parent := none, node_type := node_type }

/-- Persistent state for one `(book_id, tick_id)` pair: the `NODES` map as an
association list keyed by node key, the `TREE` root pointer, and the
`NODE_ID_COUNTER` value. -/
structure Store where
  nodes : List (Nat × TreeNode)
  root : Option Nat
  counter : Nat
  deriving DecidableEq, Repr

/-- Key-preserving update of an association list, mirroring `Map::save`. -/
def upsertNode (key : Nat) (n : TreeNode) : List (Nat × TreeNode) → List (Nat × TreeNode)
  | [] => [(key, n)]
  | (k, m) :: rest =>
      if k = key then (key, n) :: rest else (k, m) :: upsertNode key n rest

/-- Embedding of `NODES.may_load`. -/
def Store.load (s : Store) (key : Nat) : Option TreeNode :=
  (s.nodes.find? (fun p => p.1 == key)).map Prod.snd

/-- Embedding of `TreeNode::save` / `NODES.save`. -/
def Store.save (s : Store) (n : TreeNode) : Store :=
  { s with nodes := upsertNode n.key n s.nodes }

/-- Embedding of `NODES.remove`. -/
def Store.remove (s : Store) (key : Nat) : Store :=
  { s with nodes := s.nodes.filter (fun p => p.1 ≠ key) }

/-- Embedding of `generate_node_id`: bumps the counter and returns the new id. -/
def generate_node_id (s : Store) : Store × Nat :=
  ({ s with counter := s.counter + 1 }, s.counter + 1)

/-- Embedding of `TreeNode::is_internal`. -/
def TreeNode.is_internal (n : TreeNode) : Bool :=
  match n.node_type with
  | NodeType.internal _ _ _ => true
  | NodeType.leaf _ _ => false

/-- Embedding of `TreeNode::get_left`. -/
def TreeNode.get_left (n : TreeNode) (s : Store) : Option TreeNode :=
  match n.left with
  | some l => s.load l
  | none => none

/-- Embedding of `TreeNode::get_right`. -/
def TreeNode.get_right (n : TreeNode) (s : Store) : Option TreeNode :=
  match n.right with
  | some r => s.load r
  | none => none

/-- Embedding of `TreeNode::get_parent`. -/
def TreeNode.get_parent (n : TreeNode) (s : Store) : Option TreeNode :=
  match n.parent with
  | some p => s.load p
  | none => none

/-- Embedding of `TreeNode::has_child`. -/
def TreeNode.has_child (n : TreeNode) : Bool :=
  n.left.isSome || n.right.isSome

/-- Embedding of `TreeNode::sync`: reload this node from storage. -/
def TreeNode.syncNode (n : TreeNode) (s : Store) : CResult TreeNode :=
  match s.load n.key with
  | some m => CResult.ok m
  | none => CResult.err ContractError.std

/-- Embedding of `TreeNode::get_max_range`: for a leaf this is
`value.checked_add(etas).unwrap()`, so a leaf with `etas + value`
above `Uint128::MAX` panics. -/
def TreeNode.get_max_range (n : TreeNode) : CResult Nat :=
  match n.node_type with
  | NodeType.internal _ range _ => CResult.ok range.2
  | NodeType.leaf value etas => unwrapCR (checked_add_u128 value etas)

/-- Embedding of `TreeNode::set_max_range`. -/
def TreeNode.set_max_range (n : TreeNode) (new_max : Nat) : CResult TreeNode :=
  match n.node_type with
  | NodeType.leaf _ _ => CResult.err ContractError.invalidNodeType
  | NodeType.internal acc range w =>
      CResult.ok { n with node_type := NodeType.internal acc (range.1, new_max) w }

/-- Embedding of `TreeNode::get_min_range`. -/
def TreeNode.get_min_range (n : TreeNode) : Nat :=
  match n.node_type with
  | NodeType.internal _ range _ => range.1
  | NodeType.leaf _ etas => etas

/-- Embedding of `TreeNode::set_min_range`. -/
def TreeNode.set_min_range (n : TreeNode) (new_min : Nat) : CResult TreeNode :=
  match n.node_type with
  | NodeType.leaf _ _ => CResult.err ContractError.invalidNodeType
  | NodeType.internal acc range w =>
      CResult.ok { n with node_type := NodeType.internal acc (new_min, range.2) w }

/-- Embedding of `TreeNode::set_value`. -/
def TreeNode.set_value (n : TreeNode) (value : Nat) : CResult TreeNode :=
  match n.node_type with
  | NodeType.internal _ range w =>
      CResult.ok { n with node_type := NodeType.internal value range w }
  | NodeType.leaf _ _ => CResult.err ContractError.invalidNodeType

/-- Embedding of `TreeNode::get_weight`: leaves weigh `1`. -/
def TreeNode.get_weight (n : TreeNode) : Nat :=
  match n.node_type with
  | NodeType.internal _ _ w => w
  | NodeType.leaf _ _ => 1

/-- Embedding of `TreeNode::set_weight`. -/
def TreeNode.set_weight (n : TreeNode) (new_weight : Nat) : CResult TreeNode :=
  match n.node_type with
  | NodeType.internal acc range _ =>
      CResult.ok { n with node_type := NodeType.internal acc range new_weight }
  | NodeType.leaf _ _ => CResult.err ContractError.invalidNodeType

/-- Embedding of `TreeNode::get_value`: leaf value, or internal accumulator. -/
def TreeNode.get_value (n : TreeNode) : Nat :=
  match n.node_type with
  | NodeType.leaf value _ => value
  | NodeType.internal acc _ _ => acc

/-- Embedding of `TreeNode::add_value`: checked accumulator increment,
an overflow is a contract error. -/
def TreeNode.add_value (n : TreeNode) (value : Nat) : CResult TreeNode :=
  match checked_add_u128 n.get_value value with
  | some v => n.set_value v
  | none => CResult.err ContractError.overflow

end Orderbook

namespace Orderbook

/-- Embedding of `get_root_node` (`tree.rs`): load the root id from `TREE`,
then the node itself; a missing entry is a storage error. -/
def get_root_node (s : Store) : CResult TreeNode :=
  match s.root with
  | some root_id =>
      match s.load root_id with
      | some n => CResult.ok n
      | none => CResult.err ContractError.std
  | none => CResult.err ContractError.std

/-- Embedding of `prefix_sum_walk` (`tree.rs`).  The target ETAS is a
`Decimal256`, embedded as `ℚ`; the running sum only ever holds whole
`Uint128` amounts and is embedded as `Nat`.  Recursion through storage is
bounded by `fuel`. -/
def prefix_sum_walk : Nat → Store → TreeNode → Nat → ℚ → CResult Nat
  | 0, _, _, _, _ => CResult.outOfFuel
  | fuel + 1, s, node, current_sum, target_etas =>
    if target_etas < (node.get_min_range : ℚ) then
      CResult.ok 0
    else
      CResult.bind node.get_max_range (fun node_max =>
      if (node_max : ℚ) ≤ target_etas then
        CResult.ok current_sum
      else if !node.is_internal then
        CResult.ok current_sum
      else
        let left_child := node.get_left s
        let right_child := node.get_right s
        match left_child with
        | some lc =>
          if target_etas < (lc.get_min_range : ℚ) then
            CResult.ok 0
          else
            CResult.bind lc.get_max_range (fun lc_max =>
            if target_etas ≤ (lc_max : ℚ) then
              let right_sum := match right_child with
                | some r => r.get_value
                | none => 0
              CResult.bind (checked_sub_walk current_sum right_sum) (fun cur =>
                prefix_sum_walk fuel s lc cur target_etas)
            else
              match right_child with
              | none => CResult.ok current_sum
              | some rc =>
                if target_etas < (rc.get_min_range : ℚ) then
                  checked_sub_walk current_sum rc.get_value
                else
                  CResult.bind rc.get_max_range (fun rc_max =>
                  if target_etas ≤ (rc_max : ℚ) then
                    prefix_sum_walk fuel s rc current_sum target_etas
                  else
                    CResult.ok current_sum))
        | none =>
          match right_child with
          | none => CResult.ok current_sum
          | some rc =>
            if target_etas < (rc.get_min_range : ℚ) then
              checked_sub_walk current_sum rc.get_value
            else
              CResult.bind rc.get_max_range (fun rc_max =>
              if target_etas ≤ (rc_max : ℚ) then
                prefix_sum_walk fuel s rc current_sum target_etas
              else
                CResult.ok current_sum))

/-- Embedding of `get_prefix_sum` (`tree.rs`): start the walk at the root
with the root's full value as the running sum. -/
def get_prefix_sum (fuel : Nat) (s : Store) (root_node : TreeNode) (target_etas : ℚ) :
    CResult Nat :=
  prefix_sum_walk fuel s root_node root_node.get_value target_etas

/-- Embedding of `Coin`. -/
structure Coin where
  denom : String
  amount : Nat
  deriving DecidableEq, Repr

/-- Embedding of `EXPECTED_SWAP_FEE` (`sudo.rs`): `Decimal::zero()`. -/
def EXPECTED_SWAP_FEE : ℚ := 0

/-- Embedding of `ensure_swap_fee` (`sudo.rs`). -/
def ensure_swap_fee (fee : ℚ) : CResult Unit :=
  if fee = EXPECTED_SWAP_FEE then CResult.ok ()
  else
    CResult.err (ContractError.invalidSwap
      "Provided swap fee does not match: expected zero received nonzero")

/-- Embedding of `ensure_fullfilment_amount` (`sudo.rs`): checks the optional
maximum, then the optional minimum, then the denom. -/
def ensure_fullfilment_amount (max_amount min_amount : Option Nat)
    (expected_denom : String) (fulfilled : Coin) : CResult Unit := do
  (match max_amount with
   | some m =>
       if fulfilled.amount ≤ m then CResult.ok ()
       else
         CResult.err (ContractError.invalidSwap
           ("Exceeded max swap amount: expected " ++ toString m ++
             " received " ++ toString fulfilled.amount))
   | none => CResult.ok ())
  (match min_amount with
   | some m =>
       if m ≤ fulfilled.amount then CResult.ok ()
       else
         CResult.err (ContractError.invalidSwap
           ("Did not meet minimum swap amount: expected " ++ toString m ++
             " received " ++ toString fulfilled.amount))
   | none => CResult.ok ())
  if fulfilled.denom = expected_denom then CResult.ok ()
  else
    CResult.err (ContractError.invalidSwap
      ("Incorrect denom: expected " ++ expected_denom ++
        " received " ++ fulfilled.denom))

/-- Embedding of `OrderDirection`. -/
inductive OrderDirection where
  | bid
  | ask
  deriving DecidableEq, Repr

/-- Embedding of the orderbook header fields used by the swap dispatchers. -/
structure OrderbookHeader where
  book_id : Nat
  quote_denom : String
  base_denom : String
  deriving DecidableEq, Repr

/-- Embedding of `MarketOrder`. -/
structure MarketOrder where
  book_id : Nat
  quantity : Nat
  direction : OrderDirection
  owner : String
  deriving DecidableEq, Repr

/-- Embedding of `BankMsg::Send`. -/
structure BankMsgSend where
  to_address : String
  amount : List Coin
  deriving DecidableEq, Repr

/-- Collaborators of the swap dispatchers that live outside the given source
files (`DENOM_PAIR_BOOK_ID`, `ORDERBOOKS`, `direction_from_pair`,
`addr_validate`, `run_market_order`, and the `MIN_TICK`/`MAX_TICK`
constants).  The dispatcher theorems quantify over an arbitrary
environment, so they hold whatever these collaborators do. -/
structure SwapEnv where
  denom_pair_book_id : String → String → Option Nat
  orderbooks : Nat → Option OrderbookHeader
  direction_from_pair : OrderbookHeader → String → String → CResult OrderDirection
  addr_validate : String → CResult String
  run_market_order : MarketOrder → Int → CResult (Nat × BankMsgSend)
  max_tick : Int
  min_tick : Int

/-- Embedding of `dispatch_swap_exact_amount_in` (`sudo.rs`): fee check,
book lookup, market order, then fulfillment validation against the
minimum output. -/
def dispatch_swap_exact_amount_in (env : SwapEnv) (sender : String) (token_in : Coin)
    (token_out_denom : String) (token_out_min_amount : Nat) (swap_fee : ℚ) :
    CResult (Nat × BankMsgSend) := do
  ensure_swap_fee swap_fee
  let token_in_denom := token_in.denom
  let book_id ← match env.denom_pair_book_id token_in_denom token_out_denom with
    | some b => CResult.ok b
    | none => CResult.err (ContractError.invalidPair token_in_denom token_out_denom)
  let orderbook ← match env.orderbooks book_id with
    | some ob => CResult.ok ob
    | none => CResult.err (ContractError.invalidBookId book_id)
  let order_direction ← env.direction_from_pair orderbook token_in_denom token_out_denom
  let owner ← env.addr_validate sender
  let order : MarketOrder :=
    { book_id := book_id, quantity := token_in.amount,
      direction := order_direction, owner := owner }
  let tick_bound := match order_direction with
    | OrderDirection.bid => env.max_tick
    | OrderDirection.ask => env.min_tick
  let (output, bank_msg) ← env.run_market_order order tick_bound
  let fullfilment_amt ← match bank_msg.amount.head? with
    | some c => CResult.ok c
    | none =>
        CResult.err (ContractError.invalidSwap
          "Order did not generate a fulfillment message")
  ensure_fullfilment_amount none (some token_out_min_amount) token_out_denom fullfilment_amt
  return (output, bank_msg)

/-- Embedding of `dispatch_swap_exact_amount_out` (`sudo.rs`): fee check,
book lookup, market order, then fulfillment validation against the
maximum input. -/
def dispatch_swap_exact_amount_out (env : SwapEnv) (sender : String)
    (token_in_denom : String) (token_in_max_amount : Nat) (token_out : Coin)
    (swap_fee : ℚ) : CResult (Nat × BankMsgSend) := do
  ensure_swap_fee swap_fee
  let token_out_denom := token_out.denom
  let book_id ← match env.denom_pair_book_id token_in_denom token_out_denom with
    | some b => CResult.ok b
    | none => CResult.err (ContractError.invalidPair token_in_denom token_out_denom)
  let orderbook ← match env.orderbooks book_id with
    | some ob => CResult.ok ob
    | none => CResult.err (ContractError.invalidBookId book_id)
  let order_direction ← env.direction_from_pair orderbook token_out_denom token_in_denom
  let owner ← env.addr_validate sender
  let order : MarketOrder :=
    { book_id := book_id, quantity := token_out.amount,
      direction := order_direction, owner := owner }
  let tick_bound := match order_direction with
    | OrderDirection.bid => env.max_tick
    | OrderDirection.ask => env.min_tick
  let (output, bank_msg) ← env.run_market_order order tick_bound
  let fullfilment_amt ← match bank_msg.amount.head? with
    | some c => CResult.ok c
    | none =>
        CResult.err (ContractError.invalidSwap
          "Order did not generate a fulfillment message")
  ensure_fullfilment_amount (some token_in_max_amount) none token_in_denom fullfilment_amt
  return (output, bank_msg)

/-- Decidable test for an `InvalidSwap` error outcome. -/
def CResult.isInvalidSwap {α : Type} : CResult α → Bool
  | CResult.err (ContractError.invalidSwap _) => true
  | _ => false

end Orderbook

namespace Orderbook

/-- Embedding of the `?` conversion applied to `Uint128::checked_add`:
an overflow surfaces as a contract error. -/
def checked_add_cr (a b : Nat) : CResult Nat :=
  match checked_add_u128 a b with
  | some v => CResult.ok v
  | none => CResult.err ContractError.overflow

/-- Embedding of `TreeNode::sync_range_and_value` (`node.rs`): recompute an
internal node's range, accumulator and weight from its children, save it,
and propagate to the parent.  Returns the updated store and node. -/
def sync_range_and_value : Nat → Store → TreeNode → CResult (Store × TreeNode)
  | 0, _, _ => CResult.outOfFuel
  | fuel + 1, s, self0 => do
    if !self0.is_internal then CResult.err ContractError.invalidNodeType else do
    let maybe_left := self0.get_left s
    let maybe_right := self0.get_right s
    if !self0.has_child then
      return (s, self0)
    else do
      let minmax ← match maybe_left, maybe_right with
        | some l, none => do
            let lmax ← l.get_max_range
            pure (l.get_min_range, lmax)
        | none, some r => do
            let rmax ← r.get_max_range
            pure (r.get_min_range, rmax)
        | some l, some r => do
            let lmax ← l.get_max_range
            let rmax ← r.get_max_range
            pure (min l.get_min_range r.get_min_range, max lmax rmax)
        | none, none =>
            -- `has_child` saw a dangling child key: the source's `unwrap` panics
            CResult.panicked
      let self1 ← self0.set_min_range minmax.1
      let self2 ← self1.set_max_range minmax.2
      let lval := match maybe_left with
        | some l => l.get_value
        | none => 0
      let rval := match maybe_right with
        | some r => r.get_value
        | none => 0
      let value ← checked_add_cr lval rval
      let self3 ← self2.set_value value
      let w := (match maybe_left with
          | some l => l.get_weight
          | none => 0) +
        (match maybe_right with
          | some r => r.get_weight
          | none => 0)
      let self4 ← self3.set_weight w
      let s := s.save self4
      match self4.get_parent s with
      | some parent => do
          let (s, _) ← sync_range_and_value fuel s parent
          return (s, self4)
      | none => return (s, self4)

/-- Embedding of `TreeNode::get_balance_factor`: right weight minus left
weight, with missing children weighing `0`. -/
def TreeNode.get_balance_factor (n : TreeNode) (s : Store) : Int :=
  let left_weight := match n.get_left s with
    | some l => l.get_weight
    | none => 0
  let right_weight := match n.get_right s with
    | some r => r.get_weight
    | none => 0
  (right_weight : Int) - (left_weight : Int)

/-- Embedding of `TreeNode::rotate_right` (`node.rs`): errors when the left
child is missing, otherwise promotes the left child, re-parents its former
right subtree, syncs the demoted node, updates the stored root pointer when
the promoted node has no parent, and rewrites the parent's child pointer. -/
def rotate_right (fuel : Nat) (s : Store) (self0 : TreeNode) :
    CResult (Store × TreeNode) := do
  let maybe_parent := self0.get_parent s
  let is_left_child := match maybe_parent with
    | some p => p.left == some self0.key
    | none => false
  let is_right_child := match maybe_parent with
    | some p => p.right == some self0.key
    | none => false
  match self0.get_left s with
  | none => CResult.err ContractError.invalidNodeType
  | some left0 => do
    let left1 := { left0 with parent := self0.parent }
    let self1 := { self0 with parent := some left1.key, left := left1.right }
    let s ← match self1.get_left s with
      | some new_left => CResult.ok (s.save { new_left with parent := some self1.key })
      | none => CResult.ok s
    let left2 := { left1 with right := some self1.key }
    let s := s.save left2
    let s := s.save self1
    let (s, self2) ← sync_range_and_value fuel s self1
    let s := if left2.parent = none then { s with root := some left2.key } else s
    let s := if is_left_child then
        match maybe_parent with
        | some p => s.save { p with left := some left2.key }
        | none => s
      else s
    let s := if is_right_child then
        match maybe_parent with
        | some p => s.save { p with right := some left2.key }
        | none => s
      else s
    return (s, self2)

/-- Embedding of `TreeNode::rotate_left` (`node.rs`).  The re-parenting step
reads `self.get_left` exactly as the source does at `node.rs:676`, even
though the node that was just transplanted is the new *right* child. -/
def rotate_left (fuel : Nat) (s : Store) (self0 : TreeNode) :
    CResult (Store × TreeNode) := do
  let maybe_parent := self0.get_parent s
  let is_left_child := match maybe_parent with
    | some p => p.left == some self0.key
    | none => false
  let is_right_child := match maybe_parent with
    | some p => p.right == some self0.key
    | none => false
  match self0.get_right s with
  | none => CResult.err ContractError.invalidNodeType
  | some right0 => do
    let right1 := { right0 with parent := self0.parent }
    let self1 := { self0 with parent := some right1.key, right := right1.left }
    let s ← match self1.get_left s with
      | some new_right => CResult.ok (s.save { new_right with parent := some self1.key })
      | none => CResult.ok s
    let right2 := { right1 with left := some self1.key }
    let s := s.save right2
    let s := s.save self1
    let (s, self2) ← sync_range_and_value fuel s self1
    let s := if right2.parent = none then { s with root := some right2.key } else s
    let s := if is_left_child then
        match maybe_parent with
        | some p => s.save { p with left := some right2.key }
        | none => s
      else s
    let s := if is_right_child then
        match maybe_parent with
        | some p => s.save { p with right := some right2.key }
        | none => s
      else s
    return (s, self2)

/-- Embedding of `TreeNode::rebalance` (`node.rs`): resync from storage,
return `Ok` for leaves and childless nodes, and otherwise rotate according
to the weight balance factors. -/
def rebalance (fuel : Nat) (s : Store) (self0 : TreeNode) :
    CResult (Store × TreeNode) := do
  let self ← self0.syncNode s
  if !self.has_child || !self.is_internal then
    return (s, self)
  else do
  let balance_factor := self.get_balance_factor s
  if balance_factor.natAbs ≤ 1 then
    return (s, self)
  else do
  let maybe_left := self.get_left s
  let maybe_right := self.get_right s
  let is_right_leaning := decide (0 < balance_factor)
  let is_left_leaning := decide (balance_factor < 0)
  let right_balance_factor : Int := match maybe_right with
    | some n => n.get_balance_factor s
    | none => 0
  let left_balance_factor : Int := match maybe_left with
    | some n => n.get_balance_factor s
    | none => 0
  if is_right_leaning && decide (0 ≤ right_balance_factor) then
    rotate_left fuel s self
  else if is_left_leaning && decide (left_balance_factor ≤ 0) then
    rotate_right fuel s self
  else if is_right_leaning && decide (right_balance_factor < 0) then do
    let r ← unwrapCR maybe_right
    let (s, _) ← rotate_right fuel s r
    let self ← self.syncNode s
    rotate_left fuel s self
  else if is_left_leaning && decide (0 < left_balance_factor) then do
    let l ← unwrapCR maybe_left
    let (s, _) ← rotate_left fuel s l
    let self ← self.syncNode s
    rotate_right fuel s self
  else
    return (s, self)

/-- Embedding of `TreeNode::split` (`node.rs`): create a new internal parent
over an existing leaf and a new leaf, ordered by minimum range, and return
its id together with the re-parented nodes. -/
def split (s : Store) (self0 new_node0 : TreeNode) :
    CResult (Store × TreeNode × TreeNode × Nat) := do
  if self0.is_internal then CResult.err ContractError.invalidNodeType else do
  let sid := generate_node_id s
  let s := sid.1
  let id := sid.2
  let accumulator ← checked_add_cr self0.get_value new_node0.get_value
  let lr := if self0.get_min_range < new_node0.get_min_range
    then (self0.key, new_node0.key)
    else (new_node0.key, self0.key)
  let new_min := min new_node0.get_min_range self0.get_min_range
  let nmax ← new_node0.get_max_range
  let smax ← self0.get_max_range
  let new_max := max nmax smax
  let new_parent0 := TreeNode.new self0.book_id self0.tick_id id
    (NodeType.internalNew accumulator (new_min, new_max))
  let new_parent1 ← new_parent0.set_weight 2
  let new_parent := { new_parent1 with
    parent := self0.parent, left := some lr.1, right := some lr.2 }
  let self1 := { self0 with parent := some id }
  let new_node1 := { new_node0 with parent := some id }
  let s := s.save new_parent
  let s := s.save self1
  let s := s.save new_node1
  return (s, self1, new_node1, id)

/-- Embedding of `TreeNode::insert` (`node.rs`): update this internal node's
accumulator, range and weight, then place the new leaf by the source's
case order, rebalancing afterwards.  Returns the updated store, the
mutated receiver and the mutated new node. -/
def insert : Nat → Store → TreeNode → TreeNode → CResult (Store × TreeNode × TreeNode)
  | 0, _, _, _ => CResult.outOfFuel
  | fuel + 1, s, self0, new_node0 => do
    if !self0.is_internal then CResult.err ContractError.invalidNodeType else do
    if new_node0.is_internal then CResult.err ContractError.invalidNodeType else do
    let selfA ← self0.add_value new_node0.get_value
    let selfB ← if new_node0.get_min_range < selfA.get_min_range
      then selfA.set_min_range new_node0.get_min_range
      else CResult.ok selfA
    let smax ← selfB.get_max_range
    let nmax ← new_node0.get_max_range
    let selfC ← if smax < nmax then selfB.set_max_range nmax else CResult.ok selfB
    let self ← selfC.set_weight (selfC.get_weight + 1)
    let maybe_left := self.get_left s
    let maybe_right := self.get_right s
    let is_left_internal := match maybe_left with
      | some l => l.is_internal
      | none => false
    let is_right_internal := match maybe_right with
      | some r => r.is_internal
      | none => false
    let is_in_left_range ← match maybe_left with
      | some l => do
          let lmax ← l.get_max_range
          pure (decide (new_node0.get_min_range ≤ lmax))
      | none => pure false
    let is_in_right_range := match maybe_right with
      | some r => decide (r.get_min_range ≤ new_node0.get_min_range)
      | none => false
    -- Case 1 Left
    if is_left_internal && is_in_left_range then do
      let s := s.save self
      let left ← unwrapCR maybe_left
      let (s, _, new_node) ← insert fuel s left new_node0
      let (s, self) ← rebalance fuel s self
      return (s, self, new_node)
    -- Case 1 Right
    else if is_right_internal && is_in_right_range then do
      let s := s.save self
      let right ← unwrapCR maybe_right
      let (s, _, new_node) ← insert fuel s right new_node0
      let (s, self) ← rebalance fuel s self
      return (s, self, new_node)
    else if is_right_internal && is_left_internal then do
      let s := s.save self
      let left ← unwrapCR maybe_left
      let (s, _, new_node) ← insert fuel s left new_node0
      let (s, self) ← rebalance fuel s self
      return (s, self, new_node)
    -- Case 2
    else if maybe_left.isNone then do
      let self := { self with left := some new_node0.key }
      let new_node := { new_node0 with parent := some self.key }
      let s := s.save new_node
      let s := s.save self
      let (s, self) ← rebalance fuel s self
      return (s, self, new_node)
    else do
    -- Case 3: reordering
    let is_lower_than_left_leaf := match maybe_left with
      | some l => !l.is_internal && decide (nmax ≤ l.get_min_range)
      | none => false
    if is_lower_than_left_leaf && maybe_right.isNone then do
      let self := { self with right := self.left, left := some new_node0.key }
      let new_node := { new_node0 with parent := some self.key }
      let s := s.save new_node
      let s := s.save self
      let (s, self) ← rebalance fuel s self
      return (s, self, new_node)
    -- Case 3
    else if !is_in_left_range && maybe_right.isNone then do
      let self := { self with right := some new_node0.key }
      let new_node := { new_node0 with parent := some self.key }
      let s := s.save new_node
      let s := s.save self
      let (s, self) ← rebalance fuel s self
      return (s, self, new_node)
    else do
    let left_is_leaf := match maybe_left with
      | some l => !l.is_internal
      | none => false
    let right_is_leaf := match maybe_right with
      | some r => !r.is_internal
      | none => false
    let is_higher_than_right_leaf ← match maybe_right with
      | some r =>
          if !r.is_internal then do
            let rmax ← r.get_max_range
            pure (decide (rmax ≤ new_node0.get_min_range))
          else pure false
      | none => pure false
    -- Case 4
    if left_is_leaf && !is_higher_than_right_leaf then do
      let left ← unwrapCR maybe_left
      let (s, _, new_node, new_left) ← split s left new_node0
      let self := { self with left := some new_left }
      let s := s.save self
      let (s, self) ← rebalance fuel s self
      return (s, self, new_node)
    -- Case 5: reordering
    else if is_higher_than_right_leaf && maybe_left.isNone then do
      let self := { self with left := self.right, right := some new_node0.key }
      let new_node := { new_node0 with parent := some self.key }
      let s := s.save new_node
      let s := s.save self
      let (s, self) ← rebalance fuel s self
      return (s, self, new_node)
    -- Case 5
    else if !is_in_left_range && right_is_leaf then do
      let right ← unwrapCR maybe_right
      let (s, _, new_node, new_right) ← split s right new_node0
      let self := { self with right := some new_right }
      let s := s.save self
      let (s, self) ← rebalance fuel s self
      return (s, self, new_node)
    else
      return (s, self, new_node0)

/-- Embedding of `TreeNode::delete` (`node.rs`): detach the node from its
parent, prune now-childless ancestors recursively, sync surviving
ancestors, and remove the node from storage. -/
def delete : Nat → Store → TreeNode → CResult Store
  | 0, _, _ => CResult.outOfFuel
  | fuel + 1, s, self => do
    let s ← match self.get_parent s with
      | some parent0 => do
          let parent :=
            if parent0.left = some self.key then { parent0 with left := none }
            else if parent0.right = some self.key then { parent0 with right := none }
            else parent0
          if !parent.has_child then
            delete fuel s parent
          else do
            let sp ← sync_range_and_value fuel s parent
            CResult.ok sp.1
      | none => CResult.ok s
    return s.remove self.key

/-- Embedding of `TreeNode::traverse` (`node.rs`): depth-first node list,
`none` when the fuel bound is hit. -/
def traverse : Nat → Store → TreeNode → Option (List TreeNode)
  | 0, _, _ => none
  | fuel + 1, s, n =>
    if !n.is_internal then some [n]
    else do
      let ls ← match n.get_left s with
        | some l => traverse fuel s l
        | none => some []
      let rs ← match n.get_right s with
        | some r => traverse fuel s r
        | none => some []
      some (n :: (ls ++ rs))

end Orderbook

namespace Orderbook

/-- Tree construction driver mirroring the repository's insert driver
(`test_node.rs:247-278`): a fresh tree is an internal root with the default
range `(Uint128::MAX, Uint128::MIN)` and a bumped id counter; the root id
is recorded in `TREE`. -/
def init_tree_store : Store :=
  let sid := generate_node_id { nodes := [], root := none, counter := 0 }
  let root := TreeNode.new 1 1 sid.2 (NodeType.internalNew 0 (U128_MAX, 0))
  let s := sid.1.save root
  { s with root := some root.key }

/-- Single driver step mirroring the repository's insert driver: generate an
id for the new leaf, save it, and insert it into the stored root node. -/
def insert_leaf (fuel : Nat) (s : Store) (etas value : Nat) : CResult Store := do
  let sid := generate_node_id s
  let s := sid.1
  let leaf := TreeNode.new 1 1 sid.2 (NodeType.leaf value etas)
  let s := s.save leaf
  let root ← get_root_node s
  let (s, _, _) ← insert fuel s root leaf
  return s

/-- Run a sequence of `insert` calls against an initially empty tree. -/
def run_inserts (fuel : Nat) : Store → List (Nat × Nat) → CResult Store
  | s, [] => CResult.ok s
  | s, (etas, value) :: rest => do
      let s ← insert_leaf fuel s etas value
      run_inserts fuel s rest

/-- Depth-first traversal from the stored root. -/
def root_traverse (fuel : Nat) (s : Store) : Option (List TreeNode) :=
  match get_root_node s with
  | CResult.ok root => traverse fuel s root
  | _ => none

/-- Balance-factor check for one node: internal nodes must have a weight
balance factor in `{-1, 0, 1}`. -/
def node_balanced (s : Store) (n : TreeNode) : Bool :=
  !n.is_internal || (n.get_balance_factor s).natAbs ≤ 1

/-- Accumulator/range/weight consistency of one internal node with its
children, as stated by the spec's sum-tree invariants. -/
def node_consistent (s : Store) (n : TreeNode) : Bool :=
  if !n.is_internal then true
  else
    let lval := match n.get_left s with
      | some l => l.get_value
      | none => 0
    let rval := match n.get_right s with
      | some r => r.get_value
      | none => 0
    let lw := match n.get_left s with
      | some l => l.get_weight
      | none => 0
    let rw := match n.get_right s with
      | some r => r.get_weight
      | none => 0
    n.get_value == lval + rval && n.get_weight == lw + rw

/-- Leaves of a depth-first node list, in order, as `(etas, value)` pairs. -/
def leaf_list (ns : List TreeNode) : List (Nat × Nat) :=
  ns.filterMap (fun n => match n.node_type with
    | NodeType.leaf v e => some (e, v)
    | NodeType.internal _ _ _ => none)

/-- Decidable check that the in-order leaves are strictly ascending in etas. -/
def etas_sorted : List (Nat × Nat) → Bool
  | [] => true
  | [_] => true
  | a :: b :: rest => decide (a.1 < b.1) && etas_sorted (b :: rest)

end Orderbook

namespace Orderbook

/-- Sum of the values of the leaves whose `etas` lies strictly below the
target, the quantity the specification ascribes to `get_prefix_sum`. -/
def sum_lt_target (L : List (Nat × Nat)) (t : ℚ) : Nat :=
  ((L.filter (fun p => decide ((p.1 : ℚ) < t))).map Prod.snd).sum

/-- Rotation scenario for the left-rotation audit: root `1` has the leaf `5`
as left child and the internal node `2` (children `3`, `4`) as right child. -/
def c1_store : Store :=
  { nodes := [
      (1, { key := 1, book_id := 1, tick_id := 1, left := some 5, right := some 2,
            parent := none, node_type := NodeType.internal 4 (1, 4) 3 }),
      (5, { key := 5, book_id := 1, tick_id := 1, left := none, right := none,
            parent := some 1, node_type := NodeType.leaf 1 3 }),
      (2, { key := 2, book_id := 1, tick_id := 1, left := some 3, right := some 4,
            parent := some 1, node_type := NodeType.internal 2 (1, 3) 2 }),
      (3, { key := 3, book_id := 1, tick_id := 1, left := none, right := none,
            parent := some 2, node_type := NodeType.leaf 1 1 }),
      (4, { key := 4, book_id := 1, tick_id := 1, left := none, right := none,
            parent := some 2, node_type := NodeType.leaf 1 2 })],
    root := some 1, counter := 5 }

/-- Root node of `c1_store`. -/
def c1_root : TreeNode :=
  { key := 1, book_id := 1, tick_id := 1, left := some 5, right := some 2,
    parent := none, node_type := NodeType.internal 4 (1, 4) 3 }

/-- Store left by rotating `c1_root` left (the rotation succeeds). -/
def c1_after : Store :=
  match rotate_left 100 c1_store c1_root with
  | CResult.ok (s, _) => s
  | _ => c1_store

/-- C1: `rotate_left` on node `1` (right child `2`, whose left subtree is the
leaf `3`) does make `3` the new right child of `1`, makes `1` the left child
of `2`, and stores `2` as the new root — but it does **not** set the
transplanted subtree's parent pointer to `1`: node `3` keeps `2` as its
parent, because `node.rs:676` reads `self.get_left` where the new right
child was intended.  This refutes the claim's re-parenting conjunct. -/
theorem rotate_left_reparent_bug_c1 :
    (rotate_left 100 c1_store c1_root).isOk = true ∧
    (c1_after.load 1).map TreeNode.right = some (some 3) ∧
    (c1_after.load 1).map TreeNode.parent = some (some 2) ∧
    (c1_after.load 2).map TreeNode.left = some (some 1) ∧
    c1_after.root = some 2 ∧
    (c1_after.load 3).map TreeNode.parent = some (some 2) ∧
    ¬ (c1_after.load 3).map TreeNode.parent = some (some 1) := by
  decide

/-- Store holding a single leaf node as the stored root. -/
def c4_leaf_store : Store :=
  { nodes := [
      (1, { key := 1, book_id := 1, tick_id := 1, left := none, right := none,
            parent := none, node_type := NodeType.leaf 1 1 })],
    root := some 1, counter := 1 }

/-- The leaf node stored in `c4_leaf_store`. -/
def c4_leaf : TreeNode :=
  { key := 1, book_id := 1, tick_id := 1, left := none, right := none,
    parent := none, node_type := NodeType.leaf 1 1 }

/-- Childless internal node. -/
def c4_childless : TreeNode :=
  { key := 1, book_id := 1, tick_id := 1, left := none, right := none,
    parent := none, node_type := NodeType.internal 1 (1, 2) 0 }

/-- Store holding only the childless internal node. -/
def c4_childless_store : Store :=
  { nodes := [(1, c4_childless)], root := some 1, counter := 1 }

/-- C4: rotations on a node lacking the required child do return the
`InvalidNodeType` error, but `rebalance` on a leaf node and on a childless
internal node returns `Ok(())` (`node.rs:537`), not an error — contradicting
the claim and the repository's own tests
(`test_node.rs:1801-1820`, which expect `Err(InvalidNodeType)` and
`Err(ChildlessInternalNode)` for exactly these inputs). -/
theorem rebalance_leaf_ok_rotate_err_c4 :
    rotate_right 100 c4_childless_store c4_childless =
      CResult.err ContractError.invalidNodeType ∧
    rotate_left 100 c4_childless_store c4_childless =
      CResult.err ContractError.invalidNodeType ∧
    rebalance 100 c4_leaf_store c4_leaf = CResult.ok (c4_leaf_store, c4_leaf) ∧
    rebalance 100 c4_childless_store c4_childless =
      CResult.ok (c4_childless_store, c4_childless) := by
  decide

/-- Insert scenario for the fall-through audit: an internal root whose left
child is the leaf `(etas 10, value 5)` and whose right child is the leaf
`(etas 0, value 5)`, so that a new leaf `(etas 6, value 2)` is in the left
child's range while also at or above the right child's max range. -/
def c10_root : TreeNode :=
  { key := 1, book_id := 1, tick_id := 1, left := some 2, right := some 3,
    parent := none, node_type := NodeType.internal 10 (7, 7) 2 }

/-- Store for the insert fall-through scenario. -/
def c10_store : Store :=
  { nodes := [(1, c10_root),
      (2, { key := 2, book_id := 1, tick_id := 1, left := none, right := none,
            parent := some 1, node_type := NodeType.leaf 5 10 }),
      (3, { key := 3, book_id := 1, tick_id := 1, left := none, right := none,
            parent := some 1, node_type := NodeType.leaf 5 0 })],
    root := some 1, counter := 3 }

/-- New leaf `(etas 6, value 2)` for the fall-through scenario. -/
def c10_leaf : TreeNode := TreeNode.new 1 1 4 (NodeType.leaf 2 6)

/-- C10: on the fall-through tree state, `insert` returns `Ok` with the
store completely unchanged — the new leaf is saved nowhere and its parent
pointer is still `none` — while the traversed internal node (as mutated in
memory and returned to the caller) already had its accumulator increased by
the leaf's value `2`, its range expanded to cover `[6, 8)`, and its weight
increased by `1`. -/
theorem insert_fall_through_c10 :
    insert 100 c10_store c10_root c10_leaf =
      CResult.ok (c10_store,
        { c10_root with node_type := NodeType.internal 12 (6, 8) 3 },
        c10_leaf) ∧
    c10_leaf.parent = none := by
  decide

/-- Leaves with pairwise non-overlapping ranges `[2i, 2i+1)`, inserted in
ascending order. -/
def c3_sequence : List (Nat × Nat) :=
  [(0, 1), (2, 1), (4, 1), (6, 1), (8, 1), (10, 1)]

/-- C3: after inserting the six non-overlapping leaves of `c3_sequence` into
an initially empty tree, the stored root (node `9`) has weight balance
factor `-2`, outside `{-1, 0, 1}`: the rotation performed while inserting
the sixth leaf promotes a new root that nothing rebalances.  This refutes
the claim's balance-factor conjunct (the spec's universal invariant and the
repository's own test assertion `should_be_balanced`). -/
theorem insert_sequence_unbalanced_c3 :
    CResult.bind (run_inserts 100 init_tree_store c3_sequence) (fun s =>
      CResult.bind (get_root_node s) (fun root =>
        CResult.ok (root.get_balance_factor s))) = CResult.ok (-2) := by
  decide

end Orderbook

namespace Orderbook

/-- Sum tree built by inserting the leaves `(etas 5, value 10)` and
`(etas 20, value 5)` into an initially empty tree. -/
def c2_build : CResult Store := run_inserts 100 init_tree_store [(5, 10), (20, 5)]

/-- C2 (counterexample): on the sum-tree with leaves `(5,10)` and `(20,5)`
the prefix sum at target `T = 5` is `10` — the walk counts the full value of
the leaf whose range merely *contains* the target — whereas the sum over
leaves with `etas` strictly below `5` is `0`.  So `get_prefix_sum` does not
compute the strict-threshold sum the claim states. -/
theorem prefix_sum_not_strict_c2 :
    CResult.bind c2_build (fun s =>
      CResult.bind (get_root_node s) (fun root =>
        get_prefix_sum 100 s root (5 : ℚ))) = CResult.ok 10 ∧
    (CResult.bind c2_build (fun s =>
      CResult.bind (get_root_node s) (fun root =>
        unwrapCR ((traverse 100 s root).map leaf_list)))) =
      CResult.ok [(5, 10), (20, 5)] ∧
    sum_lt_target [(5, 10), (20, 5)] (5 : ℚ) = 0 := by
  decide

/-- C7: a swap (exact-in or exact-out) whose fee differs from the configured
constant `EXPECTED_SWAP_FEE = 0` fails with an `InvalidSwap` error, for
*every* environment — in particular whatever `run_market_order` does, so the
failure happens before any market order runs — while a zero fee passes the
fee check. -/
theorem swap_fee_gate_c7 (env : SwapEnv) (sender : String) (token_in : Coin)
    (token_out_denom : String) (token_out_min_amount : Nat)
    (token_in_denom : String) (token_in_max_amount : Nat) (token_out : Coin)
    (swap_fee : ℚ) (hfee : swap_fee ≠ 0) :
    (dispatch_swap_exact_amount_in env sender token_in token_out_denom
        token_out_min_amount swap_fee).isInvalidSwap = true ∧
    (dispatch_swap_exact_amount_out env sender token_in_denom token_in_max_amount
        token_out swap_fee).isInvalidSwap = true ∧
    ensure_swap_fee 0 = CResult.ok () := by
  have h : ensure_swap_fee swap_fee =
      CResult.err (ContractError.invalidSwap
        "Provided swap fee does not match: expected zero received nonzero") := by
    simp [ensure_swap_fee, EXPECTED_SWAP_FEE, hfee]
  refine ⟨?_, ?_, by simp [ensure_swap_fee, EXPECTED_SWAP_FEE]⟩
  · simp [dispatch_swap_exact_amount_in, h, Bind.bind, CResult.bind, CResult.isInvalidSwap]
  · simp [dispatch_swap_exact_amount_out, h, Bind.bind, CResult.bind, CResult.isInvalidSwap]

/-- C7 witness: the fee gate fires at the concrete fee `1` in a concrete
environment. -/
theorem swap_fee_gate_c7_witness :
    (fun env : SwapEnv =>
      (dispatch_swap_exact_amount_in env "s" ⟨"base", 1⟩ "quote" 0 1).isInvalidSwap = true ∧
      (dispatch_swap_exact_amount_out env "s" "base" 1 ⟨"quote", 1⟩ 1).isInvalidSwap = true ∧
      ensure_swap_fee 0 = CResult.ok ())
      { denom_pair_book_id := fun _ _ => none, orderbooks := fun _ => none,
        direction_from_pair := fun _ _ _ => CResult.ok OrderDirection.bid,
        addr_validate := fun a => CResult.ok a,
        run_market_order := fun _ _ => CResult.ok (0, ⟨"s", []⟩),
        max_tick := 0, min_tick := 0 } :=
  swap_fee_gate_c7
    { denom_pair_book_id := fun _ _ => none, orderbooks := fun _ => none,
      direction_from_pair := fun _ _ _ => CResult.ok OrderDirection.bid,
      addr_validate := fun a => CResult.ok a,
      run_market_order := fun _ _ => CResult.ok (0, ⟨"s", []⟩),
      max_tick := 0, min_tick := 0 }
    "s" ⟨"base", 1⟩ "quote" 0 "base" 1 ⟨"quote", 1⟩ 1 (by norm_num)

/-- C8: `ensure_fullfilment_amount` succeeds exactly when the fulfilled
amount is within the optional maximum and minimum bounds and the denom
matches; any failure is an `InvalidSwap` error.  Under the argument
patterns used by the dispatchers, swap-exact-in therefore rejects outputs
below `token_out_min_amount` and swap-exact-out rejects inputs above
`token_in_max_amount`. -/
theorem ensure_fullfilment_amount_spec_c8 (max_amount min_amount : Option Nat)
    (expected_denom : String) (fulfilled : Coin) :
    (ensure_fullfilment_amount max_amount min_amount expected_denom fulfilled =
        CResult.ok () ↔
      (∀ m, max_amount = some m → fulfilled.amount ≤ m) ∧
      (∀ m, min_amount = some m → m ≤ fulfilled.amount) ∧
      fulfilled.denom = expected_denom) ∧
    ((ensure_fullfilment_amount max_amount min_amount expected_denom
        fulfilled).isOk = false →
      (ensure_fullfilment_amount max_amount min_amount expected_denom
        fulfilled).isInvalidSwap = true) ∧
    (∀ m, fulfilled.amount < m →
      ensure_fullfilment_amount none (some m) expected_denom fulfilled ≠
        CResult.ok ()) ∧
    (∀ m, m < fulfilled.amount →
      ensure_fullfilment_amount (some m) none expected_denom fulfilled ≠
        CResult.ok ()) := by
  have h3 : ∀ m, fulfilled.amount < m →
      ensure_fullfilment_amount none (some m) expected_denom fulfilled ≠
        CResult.ok () := by
    intro m hm
    have hle : ¬ (m ≤ fulfilled.amount) := by omega
    simp [ensure_fullfilment_amount, hle, Bind.bind, CResult.bind]
  have h4 : ∀ m, m < fulfilled.amount →
      ensure_fullfilment_amount (some m) none expected_denom fulfilled ≠
        CResult.ok () := by
    intro m hm
    have hle : ¬ (fulfilled.amount ≤ m) := by omega
    simp [ensure_fullfilment_amount, hle, Bind.bind, CResult.bind]
  refine ⟨?_, ?_, h3, h4⟩ <;>
  · unfold ensure_fullfilment_amount
    cases max_amount with
    | none =>
      cases min_amount with
      | none =>
        by_cases hd : fulfilled.denom = expected_denom <;>
          simp [hd, Bind.bind, CResult.bind, CResult.isOk, CResult.isInvalidSwap]
      | some mn =>
        by_cases hmn : mn ≤ fulfilled.amount <;>
          by_cases hd : fulfilled.denom = expected_denom <;>
          simp [hmn, hd, Bind.bind, CResult.bind, CResult.isOk, CResult.isInvalidSwap]
    | some mx =>
      cases min_amount with
      | none =>
        by_cases hmx : fulfilled.amount ≤ mx <;>
          by_cases hd : fulfilled.denom = expected_denom <;>
          simp [hmx, hd, Bind.bind, CResult.bind, CResult.isOk, CResult.isInvalidSwap]
      | some mn =>
        by_cases hmx : fulfilled.amount ≤ mx <;>
          by_cases hmn : mn ≤ fulfilled.amount <;>
          by_cases hd : fulfilled.denom = expected_denom <;>
          simp [hmx, hmn, hd, Bind.bind, CResult.bind, CResult.isOk,
            CResult.isInvalidSwap]

/-- C8 witness: the characterization applied at concrete bounds and coin. -/
theorem ensure_fullfilment_amount_spec_c8_witness :
    ((ensure_fullfilment_amount (some 10) (some 2) "quote" ⟨"quote", 5⟩ =
        CResult.ok () ↔
      (∀ m, (some 10 : Option Nat) = some m → (5 : Nat) ≤ m) ∧
      (∀ m, (some 2 : Option Nat) = some m → m ≤ (5 : Nat)) ∧
      ("quote" : String) = "quote") ∧
    ((ensure_fullfilment_amount (some 10) (some 2) "quote" ⟨"quote", 5⟩).isOk = false →
      (ensure_fullfilment_amount (some 10) (some 2) "quote"
        ⟨"quote", 5⟩).isInvalidSwap = true) ∧
    (∀ m, (5 : Nat) < m →
      ensure_fullfilment_amount none (some m) "quote" ⟨"quote", 5⟩ ≠
        CResult.ok ()) ∧
    (∀ m, m < (5 : Nat) →
      ensure_fullfilment_amount (some m) none "quote" ⟨"quote", 5⟩ ≠
        CResult.ok ())) :=
  ensure_fullfilment_amount_spec_c8 (some 10) (some 2) "quote" ⟨"quote", 5⟩

end Orderbook

namespace Orderbook

/-- Store with a single stored leaf `(etas 10, value 5)`, used to witness the
prefix-sum walk case analysis. -/
def c5_leaf : TreeNode := TreeNode.new 1 1 1 (NodeType.leaf 5 10)

/-- Store holding `c5_leaf` as the root. -/
def c5_store : Store := { nodes := [(1, c5_leaf)], root := some 1, counter := 1 }

/-- C5: the prefix-sum walk's boundary behaviour on any visited node: a
target strictly below the node's min range yields `0`; a target at or above
the node's max range makes the walk started by `get_prefix_sum` return the
node's full accumulator (its `get_value`); and a leaf whose range contains
the target returns the running sum unchanged, so its full value stays
counted. -/
theorem prefix_sum_walk_cases_c5 (fuel : Nat) (s : Store) (n : TreeNode)
    (current_sum : Nat) (t : ℚ) (mx : Nat) :
    (t < (n.get_min_range : ℚ) →
      prefix_sum_walk (fuel + 1) s n current_sum t = CResult.ok 0) ∧
    (¬ t < (n.get_min_range : ℚ) → n.get_max_range = CResult.ok mx →
      (mx : ℚ) ≤ t →
      get_prefix_sum (fuel + 1) s n t = CResult.ok n.get_value) ∧
    (n.is_internal = false → n.get_max_range = CResult.ok mx →
      ¬ t < (n.get_min_range : ℚ) → t < (mx : ℚ) →
      prefix_sum_walk (fuel + 1) s n current_sum t = CResult.ok current_sum) := by
  refine ⟨?_, ?_, ?_⟩
  · intro h
    simp [prefix_sum_walk, h]
  · intro h1 h2 h3
    simp [get_prefix_sum, prefix_sum_walk, h1, h2, CResult.bind, h3]
  · intro hleaf h2 h1 h4
    simp [prefix_sum_walk, h1, h2, CResult.bind, hleaf, not_le.mpr h4]

/-- C5 witness: the three walk cases on the single-leaf store, at targets
`3` (below the range), `20` (above it), and `12` (inside it). -/
theorem prefix_sum_walk_cases_c5_witness :
    prefix_sum_walk 1 c5_store c5_leaf 5 (3 : ℚ) = CResult.ok 0 ∧
    get_prefix_sum 1 c5_store c5_leaf (20 : ℚ) = CResult.ok 5 ∧
    prefix_sum_walk 1 c5_store c5_leaf 7 (12 : ℚ) = CResult.ok 7 :=
  ⟨(prefix_sum_walk_cases_c5 0 c5_store c5_leaf 5 3 15).1 (by decide),
   (prefix_sum_walk_cases_c5 0 c5_store c5_leaf 5 20 15).2.1
     (by decide) (by decide) (by decide),
   (prefix_sum_walk_cases_c5 0 c5_store c5_leaf 7 12 15).2.2
     (by decide) (by decide) (by decide) (by decide)⟩

end Orderbook

namespace Orderbook

/-- Total value of a leaf list. -/
def sum_vals (L : List (Nat × Nat)) : Nat := (L.map Prod.snd).sum

/-- Well-formed sum-tree rooted at a node, as the spec's AVL invariants
describe it: `WfT s n h L mn mx` says the node `n` heads, inside store `s`,
a tree of height at most `h` whose in-order leaves are `L` (as
`(etas, value)` pairs, positive values, `etas + value` within `Uint128`),
whose recorded range is `(mn, mx)` bounding all leaf ranges, whose
accumulators are consistent, and whose left leaves end before right
leaves begin. -/
inductive WfT (s : Store) : TreeNode → Nat → List (Nat × Nat) → Nat → Nat → Prop where
  | leaf (n : TreeNode) (v e : Nat) :
      n.node_type = NodeType.leaf v e →
      0 < v → e + v ≤ U128_MAX →
      WfT s n 1 [(e, v)] e (e + v)
  | both (n l r : TreeNode) (hl hr : Nat) (Ll Lr : List (Nat × Nat))
      (w mnl mxl mnr mxr : Nat) :
      n.node_type = NodeType.internal (sum_vals Ll + sum_vals Lr) (mnl, mxr) w →
      n.get_left s = some l →
      n.get_right s = some r →
      WfT s l hl Ll mnl mxl →
      WfT s r hr Lr mnr mxr →
      mxl ≤ mnr →
      WfT s n (max hl hr + 1) (Ll ++ Lr) mnl mxr
  | leftOnly (n l : TreeNode) (hl : Nat) (Ll : List (Nat × Nat)) (w mnl mxl : Nat) :
      n.node_type = NodeType.internal (sum_vals Ll) (mnl, mxl) w →
      n.get_left s = some l →
      n.get_right s = none →
      WfT s l hl Ll mnl mxl →
      WfT s n (hl + 1) Ll mnl mxl
  | rightOnly (n r : TreeNode) (hr : Nat) (Lr : List (Nat × Nat)) (w mnr mxr : Nat) :
      n.node_type = NodeType.internal (sum_vals Lr) (mnr, mxr) w →
      n.get_left s = none →
      n.get_right s = some r →
      WfT s r hr Lr mnr mxr →
      WfT s n (hr + 1) Lr mnr mxr

/-- In a well-formed tree, the node's recorded min range is `mn`. -/
theorem WfT.min_eq {s : Store} {n : TreeNode} {h : Nat} {L : List (Nat × Nat)}
    {mn mx : Nat} (hw : WfT s n h L mn mx) : n.get_min_range = mn := by
  cases hw <;> simp [TreeNode.get_min_range, *]

/-- In a well-formed tree, reading the node's max range succeeds and gives `mx`. -/
theorem WfT.max_eq {s : Store} {n : TreeNode} {h : Nat} {L : List (Nat × Nat)}
    {mn mx : Nat} (hw : WfT s n h L mn mx) : n.get_max_range = CResult.ok mx := by
  cases hw with
  | leaf n v e hnt hv hbound =>
      simp [TreeNode.get_max_range, hnt, checked_add_u128, unwrapCR,
        Nat.add_comm v mn, hbound]
  | both n l r hl hr Ll Lr w mnl mxl mnr mxr hnt =>
      simp [TreeNode.get_max_range, hnt]
  | leftOnly n l hl Ll w mnl mxl hnt => simp [TreeNode.get_max_range, hnt]
  | rightOnly n r hr Lr w mnr mxr hnt => simp [TreeNode.get_max_range, hnt]

/-- In a well-formed tree, the node's value is the sum of its leaf values. -/
theorem WfT.value_eq {s : Store} {n : TreeNode} {h : Nat} {L : List (Nat × Nat)}
    {mn mx : Nat} (hw : WfT s n h L mn mx) : n.get_value = sum_vals L := by
  cases hw with
  | leaf n v e hnt => simp [TreeNode.get_value, hnt, sum_vals]
  | both n l r hl hr Ll Lr w mnl mxl mnr mxr hnt =>
      simp [TreeNode.get_value, hnt, sum_vals]
  | leftOnly n l hl Ll w mnl mxl hnt => simp [TreeNode.get_value, hnt]
  | rightOnly n r hr Lr w mnr mxr hnt => simp [TreeNode.get_value, hnt]

/-- In a well-formed tree, the node is a leaf or internal according to its
node type, and its height bound is positive. -/
theorem WfT.height_pos {s : Store} {n : TreeNode} {h : Nat} {L : List (Nat × Nat)}
    {mn mx : Nat} (hw : WfT s n h L mn mx) : 0 < h := by
  cases hw <;> omega

/-- A well-formed tree has a strictly nonempty range. -/
theorem WfT.min_lt_max {s : Store} {n : TreeNode} {h : Nat} {L : List (Nat × Nat)}
    {mn mx : Nat} (hw : WfT s n h L mn mx) : mn < mx := by
  induction hw with
  | leaf n v e hnt hv hbound => omega
  | both n l r hl hr Ll Lr w mnl mxl mnr mxr hnt hgl hgr hwl hwr hord ihl ihr => omega
  | leftOnly n l hl Ll w mnl mxl hnt hgl hgr hwl ihl => omega
  | rightOnly n r hr Lr w mnr mxr hnt hgl hgr hwr ihr => omega

/-- Every leaf of a well-formed tree has positive value and lies inside the
node's recorded range. -/
theorem WfT.bounds {s : Store} {n : TreeNode} {h : Nat} {L : List (Nat × Nat)}
    {mn mx : Nat} (hw : WfT s n h L mn mx) :
    ∀ p ∈ L, mn ≤ p.1 ∧ p.1 + p.2 ≤ mx ∧ 0 < p.2 := by
  induction hw with
  | leaf n v e hnt hv hbound =>
      intro p hp
      simp only [List.mem_singleton] at hp
      subst hp
      exact ⟨Nat.le_refl _, Nat.le_refl _, hv⟩
  | both n l r hl hr Ll Lr w mnl mxl mnr mxr hnt hgl hgr hwl hwr hord ihl ihr =>
      intro p hp
      have hlm := hwl.min_lt_max
      have hrm := hwr.min_lt_max
      rcases List.mem_append.mp hp with hpl | hpr
      · obtain ⟨h1, h2, h3⟩ := ihl p hpl
        exact ⟨h1, by omega, h3⟩
      · obtain ⟨h1, h2, h3⟩ := ihr p hpr
        exact ⟨by omega, h2, h3⟩
  | leftOnly n l hl Ll w mnl mxl hnt hgl hgr hwl ihl => exact ihl
  | rightOnly n r hr Lr w mnr mxr hnt hgl hgr hwr ihr => exact ihr

/-- Splitting the strict-threshold sum across an append. -/
theorem sum_lt_target_append (L1 L2 : List (Nat × Nat)) (t : ℚ) :
    sum_lt_target (L1 ++ L2) t = sum_lt_target L1 t + sum_lt_target L2 t := by
  simp [sum_lt_target, List.filter_append]

/-- The strict-threshold sum of a list entirely at or above the target is `0`. -/
theorem sum_lt_target_zero {L : List (Nat × Nat)} {t : ℚ}
    (h : ∀ p ∈ L, ¬ (p.1 : ℚ) < t) : sum_lt_target L t = 0 := by
  have : L.filter (fun p => decide ((p.1 : ℚ) < t)) = [] := by
    apply List.filter_eq_nil_iff.mpr
    intro p hp
    simpa using h p hp
  simp [sum_lt_target, this]

/-- The strict-threshold sum of a list entirely below the target is the
whole sum. -/
theorem sum_lt_target_all {L : List (Nat × Nat)} {t : ℚ}
    (h : ∀ p ∈ L, (p.1 : ℚ) < t) : sum_lt_target L t = sum_vals L := by
  have : L.filter (fun p => decide ((p.1 : ℚ) < t)) = L := by
    apply List.filter_eq_self.mpr
    intro p hp
    simpa using h p hp
  simp [sum_lt_target, sum_vals, this]

end Orderbook

namespace Orderbook

/-- Core correctness of `prefix_sum_walk` on well-formed subtrees: when the
running sum covers the subtree's total, the target is at or above the
subtree's min range, and the target differs from every leaf's etas, the
walk returns the running sum minus the values of the leaves at or above
the target. -/
theorem prefix_sum_walk_wf (s : Store) :
    ∀ fuel n h L mn mx cs t, WfT s n h L mn mx → h ≤ fuel →
      sum_vals L ≤ cs → (mn : ℚ) ≤ t → (∀ p ∈ L, (p.1 : ℚ) ≠ t) →
      prefix_sum_walk fuel s n cs t =
        CResult.ok (cs - sum_vals L + sum_lt_target L t) := by
  intro fuel
  induction fuel with
  | zero =>
      intro n h L mn mx cs t hw hfuel hcs hmn hne
      exact absurd hfuel (by have := hw.height_pos; omega)
  | succ f ih =>
      intro n h L mn mx cs t hw hfuel hcs hmn hne
      have hminr : n.get_min_range = mn := hw.min_eq
      have hmaxr : n.get_max_range = CResult.ok mx := hw.max_eq
      have hnotlt : ¬ t < (n.get_min_range : ℚ) := by
        rw [hminr]; exact not_lt.mpr hmn
      cases hw with
      | leaf nn v e hnt hv hbound =>
          have hne1 : (mn : ℚ) ≠ t := hne (mn, v) (by simp)
          have hlt : (mn : ℚ) < t := lt_of_le_of_ne hmn hne1
          have hslt : sum_lt_target [(mn, v)] t = v := by
            simp [sum_lt_target, hlt]
          have hsv : sum_vals [(mn, v)] = v := by simp [sum_vals]
          rw [hsv] at hcs ⊢
          rw [hslt]
          simp only [prefix_sum_walk]
          rw [if_neg hnotlt, hmaxr]
          simp only [CResult.bind]
          by_cases hup : ((mn + v : Nat) : ℚ) ≤ t
          · rw [if_pos hup]
            exact congrArg CResult.ok (by omega)
          · rw [if_neg hup]
            have hleafb : n.is_internal = false := by
              simp [TreeNode.is_internal, hnt]
            simp only [hleafb, Bool.not_false, if_true]
            exact congrArg CResult.ok (by omega)
      | both nn l r hl hr Ll Lr w mnl mxl mnr mxr hnt hgl hgr hwl hwr hord =>
          have hlf : hl ≤ f := by
            have h1 := Nat.le_max_left hl hr
            omega
          have hrf : hr ≤ f := by
            have h1 := Nat.le_max_right hl hr
            omega
          have hsum : sum_vals (Ll ++ Lr) = sum_vals Ll + sum_vals Lr := by
            simp [sum_vals]
          have hrmm : mnr < mx := hwr.min_lt_max
          have hlmm : mn < mxl := hwl.min_lt_max
          have hintb : n.is_internal = true := by simp [TreeNode.is_internal, hnt]
          simp only [prefix_sum_walk]
          rw [if_neg hnotlt, hmaxr]
          simp only [CResult.bind]
          by_cases hA : ((mx : Nat) : ℚ) ≤ t
          · rw [if_pos hA]
            have hall : ∀ p ∈ Ll ++ Lr, (p.1 : ℚ) < t := by
              intro p hp
              have hplt : p.1 < mx := by
                rcases List.mem_append.mp hp with hpl | hpr
                · have := hwl.bounds p hpl
                  omega
                · have := hwr.bounds p hpr
                  omega
              calc (p.1 : ℚ) < (mx : ℚ) := by exact_mod_cast hplt
                _ ≤ t := hA
            rw [sum_lt_target_all hall, hsum]
            exact congrArg CResult.ok (by omega)
          · rw [if_neg hA]
            simp only [hintb, Bool.not_true, Bool.false_eq_true, if_false, hgl, hgr]
            have hlmin : l.get_min_range = mn := hwl.min_eq
            have hlmax : l.get_max_range = CResult.ok mxl := hwl.max_eq
            rw [hlmin, if_neg (not_lt.mpr hmn), hlmax]
            simp only [CResult.bind]
            by_cases hB : t ≤ ((mxl : Nat) : ℚ)
            · rw [if_pos hB]
              rw [hwr.value_eq]
              have hsub : sum_vals Lr ≤ cs := by
                rw [hsum] at hcs; omega
              simp only [checked_sub_walk, if_pos hsub, CResult.bind]
              rw [ih l hl Ll mn mxl (cs - sum_vals Lr) t hwl hlf
                (by rw [hsum] at hcs; omega) hmn
                (fun p hp => hne p (List.mem_append.mpr (Or.inl hp)))]
              have hzero : sum_lt_target Lr t = 0 := by
                apply sum_lt_target_zero
                intro p hp
                have hp1 : mnr ≤ p.1 := (hwr.bounds p hp).1
                have : t ≤ (p.1 : ℚ) := by
                  calc t ≤ (mxl : ℚ) := hB
                    _ ≤ (mnr : ℚ) := by exact_mod_cast hord
                    _ ≤ (p.1 : ℚ) := by exact_mod_cast hp1
                exact not_lt.mpr this
              rw [sum_lt_target_append, hzero, hsum]
              exact congrArg CResult.ok (by omega)
            · rw [if_neg hB]
              have hmxlt : (mxl : ℚ) < t := not_le.mp hB
              have hallL : ∀ p ∈ Ll, (p.1 : ℚ) < t := by
                intro p hp
                have hb := hwl.bounds p hp
                have : p.1 < mxl := by omega
                calc (p.1 : ℚ) < (mxl : ℚ) := by exact_mod_cast this
                  _ < t := hmxlt
              have hrmin : r.get_min_range = mnr := hwr.min_eq
              have hrmax : r.get_max_range = CResult.ok mx := hwr.max_eq
              rw [hrmin]
              by_cases hC : t < ((mnr : Nat) : ℚ)
              · rw [if_pos hC]
                rw [hwr.value_eq]
                have hsub : sum_vals Lr ≤ cs := by
                  rw [hsum] at hcs; omega
                simp only [checked_sub_walk, if_pos hsub]
                have hzero : sum_lt_target Lr t = 0 := by
                  apply sum_lt_target_zero
                  intro p hp
                  have hp1 : mnr ≤ p.1 := (hwr.bounds p hp).1
                  have : t < (p.1 : ℚ) :=
                    lt_of_lt_of_le hC (by exact_mod_cast hp1)
                  exact not_lt.mpr (le_of_lt this)
                rw [sum_lt_target_append, hzero, sum_lt_target_all hallL, hsum]
                exact congrArg CResult.ok (by omega)
              · rw [if_neg hC, hrmax]
                simp only [CResult.bind]
                have htmx : t ≤ ((mx : Nat) : ℚ) := le_of_lt (not_le.mp hA)
                rw [if_pos htmx]
                rw [ih r hr Lr mnr mx cs t hwr hrf
                  (by rw [hsum] at hcs; omega) (not_lt.mp hC)
                  (fun p hp => hne p (List.mem_append.mpr (Or.inr hp)))]
                rw [sum_lt_target_append, sum_lt_target_all hallL, hsum]
                exact congrArg CResult.ok (by omega)
      | leftOnly nn l hl Ll w mnl mxl hnt hgl hgr hwl =>
          have hlf : hl ≤ f := by omega
          have hintb : n.is_internal = true := by simp [TreeNode.is_internal, hnt]
          simp only [prefix_sum_walk]
          rw [if_neg hnotlt, hmaxr]
          simp only [CResult.bind]
          by_cases hA : ((mx : Nat) : ℚ) ≤ t
          · rw [if_pos hA]
            have hall : ∀ p ∈ L, (p.1 : ℚ) < t := by
              intro p hp
              have hb := hwl.bounds p hp
              have : p.1 < mx := by omega
              calc (p.1 : ℚ) < (mx : ℚ) := by exact_mod_cast this
                _ ≤ t := hA
            rw [sum_lt_target_all hall]
            exact congrArg CResult.ok (by omega)
          · rw [if_neg hA]
            simp only [hintb, Bool.not_true, Bool.false_eq_true, if_false, hgl, hgr]
            have hlmin : l.get_min_range = mn := hwl.min_eq
            have hlmax : l.get_max_range = CResult.ok mx := hwl.max_eq
            rw [hlmin, if_neg (not_lt.mpr hmn), hlmax]
            simp only [CResult.bind]
            rw [if_pos (le_of_lt (not_le.mp hA))]
            have hsub : (0 : Nat) ≤ cs := Nat.zero_le cs
            simp only [checked_sub_walk, if_pos hsub, Nat.sub_zero, CResult.bind]
            exact ih l hl L mn mx cs t hwl hlf hcs hmn hne
      | rightOnly nn r hr Lr w mnr mxr hnt hgl hgr hwr =>
          have hrf : hr ≤ f := by omega
          have hintb : n.is_internal = true := by simp [TreeNode.is_internal, hnt]
          simp only [prefix_sum_walk]
          rw [if_neg hnotlt, hmaxr]
          simp only [CResult.bind]
          by_cases hA : ((mx : Nat) : ℚ) ≤ t
          · rw [if_pos hA]
            have hall : ∀ p ∈ L, (p.1 : ℚ) < t := by
              intro p hp
              have hb := hwr.bounds p hp
              have : p.1 < mx := by omega
              calc (p.1 : ℚ) < (mx : ℚ) := by exact_mod_cast this
                _ ≤ t := hA
            rw [sum_lt_target_all hall]
            exact congrArg CResult.ok (by omega)
          · rw [if_neg hA]
            simp only [hintb, Bool.not_true, Bool.false_eq_true, if_false, hgl, hgr]
            have hrmin : r.get_min_range = mn := hwr.min_eq
            have hrmax : r.get_max_range = CResult.ok mx := hwr.max_eq
            rw [hrmin, if_neg (not_lt.mpr hmn), hrmax]
            simp only [CResult.bind]
            rw [if_pos (le_of_lt (not_le.mp hA))]
            exact ih r hr L mn mx cs t hwr hrf hcs hmn hne

end Orderbook

namespace Orderbook

/-- C2 (amended): on a well-formed sum-tree whose target avoids every leaf's
etas, `get_prefix_sum` returns exactly the sum of the values of the leaves
whose etas is strictly below the target. -/
theorem get_prefix_sum_correct_c2 (fuel : Nat) (s : Store) (n : TreeNode)
    (h : Nat) (L : List (Nat × Nat)) (mn mx : Nat) (t : ℚ)
    (hw : WfT s n h L mn mx) (hfuel : h ≤ fuel)
    (hne : ∀ p ∈ L, (p.1 : ℚ) ≠ t) :
    get_prefix_sum fuel s n t = CResult.ok (sum_lt_target L t) := by
  have hval := hw.value_eq
  by_cases hmn : (mn : ℚ) ≤ t
  · have hwalk := prefix_sum_walk_wf s fuel n h L mn mx (sum_vals L) t hw hfuel
      le_rfl hmn hne
    rw [get_prefix_sum, hval, hwalk]
    exact congrArg CResult.ok (by omega)
  · have hlt : t < (mn : ℚ) := not_le.mp hmn
    obtain ⟨f, rfl⟩ : ∃ f, fuel = f + 1 := by
      have := hw.height_pos
      exact ⟨fuel - 1, by omega⟩
    have hnot : t < (n.get_min_range : ℚ) := by rw [hw.min_eq]; exact hlt
    have hzero : sum_lt_target L t = 0 := by
      apply sum_lt_target_zero
      intro p hp
      have h1 : mn ≤ p.1 := (hw.bounds p hp).1
      have h2 : t < (p.1 : ℚ) := lt_of_lt_of_le hlt (by exact_mod_cast h1)
      exact not_lt.mpr (le_of_lt h2)
    rw [get_prefix_sum]
    simp only [prefix_sum_walk]
    rw [if_pos hnot, hzero]

/-- Left leaf `(etas 0, value 5)` of the amended-claim witness tree. -/
def c2w_left : TreeNode :=
  { key := 2, book_id := 1, tick_id := 1, left := none, right := none,
    parent := some 1, node_type := NodeType.leaf 5 0 }

/-- Right leaf `(etas 5, value 7)` of the amended-claim witness tree. -/
def c2w_right : TreeNode :=
  { key := 3, book_id := 1, tick_id := 1, left := none, right := none,
    parent := some 1, node_type := NodeType.leaf 7 5 }

/-- Root of the amended-claim witness tree. -/
def c2w_root : TreeNode :=
  { key := 1, book_id := 1, tick_id := 1, left := some 2, right := some 3,
    parent := none, node_type := NodeType.internal 12 (0, 12) 2 }

/-- Store of the amended-claim witness tree. -/
def c2w_store : Store :=
  { nodes := [(1, c2w_root), (2, c2w_left), (3, c2w_right)],
    root := some 1, counter := 3 }

/-- C2 witness: the amended claim applied to the two-leaf tree at the
non-etas target `2` returns the strict prefix sum `5`. -/
theorem get_prefix_sum_correct_c2_witness :
    get_prefix_sum 2 c2w_store c2w_root (2 : ℚ) = CResult.ok 5 := by
  have hl : WfT c2w_store c2w_left 1 [(0, 5)] 0 5 :=
    WfT.leaf c2w_left 5 0 rfl (by decide) (by decide)
  have hr : WfT c2w_store c2w_right 1 [(5, 7)] 5 12 :=
    WfT.leaf c2w_right 7 5 rfl (by decide) (by decide)
  have hw : WfT c2w_store c2w_root 2 [(0, 5), (5, 7)] 0 12 :=
    WfT.both c2w_root c2w_left c2w_right 1 1 [(0, 5)] [(5, 7)] 2 0 5 5 12
      rfl rfl rfl hl hr (by decide)
  exact get_prefix_sum_correct_c2 2 c2w_store c2w_root 2 [(0, 5), (5, 7)] 0 12
    (2 : ℚ) hw (by decide) (by decide)

end Orderbook

namespace Orderbook

/-- The `>>=` of the `CResult` monad is `CResult.bind`. -/
@[simp] theorem CResult.bind_def {α β : Type} (x : CResult α) (f : α → CResult β) :
    (x >>= f) = CResult.bind x f := rfl

/-- The `pure` of the `CResult` monad is `CResult.ok`. -/
@[simp] theorem CResult.pure_def {α : Type} (a : α) :
    (pure a : CResult α) = CResult.ok a := rfl

/-- A bind does not panic when neither side does. -/
theorem CResult.bind_ne_panic {α β : Type} {x : CResult α} {f : α → CResult β}
    (hx : x ≠ CResult.panicked)
    (hf : ∀ a, x = CResult.ok a → f a ≠ CResult.panicked) :
    CResult.bind x f ≠ CResult.panicked := by
  cases x with
  | ok a => exact hf a rfl
  | err e => simp [CResult.bind]
  | panicked => exact absurd rfl hx
  | outOfFuel => simp [CResult.bind]

/-- A successful bind factors through a successful first component. -/
theorem CResult.bind_ok_iff {α β : Type} {x : CResult α} {f : α → CResult β}
    {b : β} : CResult.bind x f = CResult.ok b ↔
      ∃ a, x = CResult.ok a ∧ f a = CResult.ok b := by
  cases x <;> simp [CResult.bind]

/-- Loading after a save: the saved key reads back the node, other keys are
unchanged. -/
theorem Store.load_save (s : Store) (n : TreeNode) (k : Nat) :
    (s.save n).load k = if k = n.key then some n else s.load k := by
  show Store.load { s with nodes := upsertNode n.key n s.nodes } k = _
  simp only [Store.load]
  induction s.nodes with
  | nil =>
      by_cases hk : k = n.key
      · have hb : (n.key == k) = true := by simp [hk]
        simp [upsertNode, List.find?, hb, hk]
      · have hb : (n.key == k) = false := by
          simp only [beq_eq_false_iff_ne]; omega
        simp [upsertNode, List.find?, hb, hk]
  | cons p rest ihr =>
      by_cases hp : p.1 = n.key
      · by_cases hk : k = n.key
        · have hb : (n.key == k) = true := by simp [hk]
          simp [upsertNode, hp, List.find?, hb, hk]
        · have hb : (n.key == k) = false := by
            simp only [beq_eq_false_iff_ne]; omega
          have hb2 : (p.1 == k) = false := by
            simp only [beq_eq_false_iff_ne]; omega
          simp [upsertNode, hp, List.find?, hb, hb2, hk]
      · by_cases hpk : p.1 = k
        · have hk : ¬ k = n.key := by omega
          have hb2 : (p.1 == k) = true := by simp [hpk]
          simp [upsertNode, hp, List.find?, hb2, hk]
        · have hb2 : (p.1 == k) = false := by
            simp only [beq_eq_false_iff_ne]; omega
          simp only [upsertNode, if_neg hp, List.find?, hb2]
          exact ihr

/-- Presence of a key is monotone under saves. -/
theorem Store.load_isSome_save (s : Store) (n : TreeNode) (k : Nat)
    (h : (s.load k).isSome = true) : ((s.save n).load k).isSome = true := by
  rw [Store.load_save]
  by_cases hk : k = n.key <;> simp [hk, h]

/-- Every entry of the saved store is the new node or an old entry. -/
theorem mem_upsertNode {key : Nat} {n : TreeNode} {l : List (Nat × TreeNode)}
    {p : Nat × TreeNode} (hp : p ∈ upsertNode key n l) :
    p = (key, n) ∨ p ∈ l := by
  induction l with
  | nil => simpa [upsertNode] using hp
  | cons q rest ihr =>
      by_cases hq : q.1 = key
      · simp only [upsertNode, if_pos hq] at hp
        rcases List.mem_cons.mp hp with h | h
        · exact Or.inl h
        · exact Or.inr (List.mem_cons_of_mem _ h)
      · simp only [upsertNode, if_neg hq] at hp
        rcases List.mem_cons.mp hp with h | h
        · exact Or.inr (List.mem_cons.mpr (Or.inl h))
        · rcases ihr h with h1 | h1
          · exact Or.inl h1
          · exact Or.inr (List.mem_cons_of_mem _ h1)

/-- A loaded node is an entry of the store. -/
theorem Store.load_mem {s : Store} {k : Nat} {n : TreeNode}
    (h : s.load k = some n) : (k, n) ∈ s.nodes := by
  simp only [Store.load, Option.map_eq_some'] at h
  obtain ⟨p, hfind, hsnd⟩ := h
  have hmem := List.mem_of_find?_eq_some hfind
  have hkey := List.find?_some hfind
  simp only [beq_iff_eq] at hkey
  cases p
  simp_all

end Orderbook

namespace Orderbook

/-- Leaf bound needed so that reading the node's max range cannot panic:
`etas + value` within `Uint128` (trivial for internal nodes). -/
def leaf_bound_ok (n : TreeNode) : Bool :=
  match n.node_type with
  | NodeType.leaf v e => decide (e + v ≤ U128_MAX)
  | NodeType.internal _ _ _ => true

/-- Child pointers of a node resolve in the store. -/
def node_closed (s : Store) (n : TreeNode) : Bool :=
  (match n.left with
   | some k => (s.load k).isSome
   | none => true) &&
  (match n.right with
   | some k => (s.load k).isSome
   | none => true)

/-- Precondition for panic-freedom of the tree operations: every stored
node has bounded leaf range and resolvable child pointers. -/
def store_ok (s : Store) : Bool :=
  s.nodes.all (fun p => leaf_bound_ok p.2 && node_closed s p.2)

/-- On a bounded node, reading the max range succeeds. -/
theorem get_max_range_of_bound {n : TreeNode} (h : leaf_bound_ok n = true) :
    ∃ mx, n.get_max_range = CResult.ok mx := by
  cases hnt : n.node_type with
  | leaf v e =>
      have hb : e + v ≤ U128_MAX := by
        simpa [leaf_bound_ok, hnt] using h
      have hb2 : v + e ≤ U128_MAX := by omega
      refine ⟨v + e, ?_⟩
      simp [TreeNode.get_max_range, hnt, checked_add_u128, unwrapCR, hb2]
  | internal acc range w =>
      exact ⟨range.2, by simp [TreeNode.get_max_range, hnt]⟩

/-- On a leaf whose `etas + value` exceeds `Uint128::MAX`, reading the max
range panics (the `unwrap` of the failed `checked_add`). -/
theorem get_max_range_panics {n : TreeNode} {v e : Nat}
    (hnt : n.node_type = NodeType.leaf v e) (h : U128_MAX < e + v) :
    n.get_max_range = CResult.panicked := by
  have hb : ¬ (v + e ≤ U128_MAX) := by omega
  simp [TreeNode.get_max_range, hnt, checked_add_u128, unwrapCR, hb]

/-- Loaded nodes of an ok store are bounded and closed. -/
theorem store_ok_load {s : Store} {k : Nat} {n : TreeNode}
    (hs : store_ok s = true) (h : s.load k = some n) :
    leaf_bound_ok n = true ∧ node_closed s n = true := by
  have hmem := Store.load_mem h
  have := List.all_eq_true.mp hs _ hmem
  simpa using this

/-- Closedness of a node is monotone under saves. -/
theorem node_closed_save {s : Store} {n m : TreeNode}
    (h : node_closed s m = true) : node_closed (s.save n) m = true := by
  simp only [node_closed, Bool.and_eq_true] at h ⊢
  obtain ⟨h1, h2⟩ := h
  constructor
  · cases hm : m.left with
    | some k =>
        rw [hm] at h1
        exact Store.load_isSome_save s n k h1
    | none => rfl
  · cases hm : m.right with
    | some k =>
        rw [hm] at h2
        exact Store.load_isSome_save s n k h2
    | none => rfl

/-- Saving a bounded node whose children resolve keeps the store ok. -/
theorem store_ok_save {s : Store} {n : TreeNode}
    (hs : store_ok s = true) (hb : leaf_bound_ok n = true)
    (hc : node_closed (s.save n) n = true) : store_ok (s.save n) = true := by
  apply List.all_eq_true.mpr
  intro p hp
  rcases mem_upsertNode hp with h | h
  · subst h
    simp [hb, hc]
  · have := List.all_eq_true.mp hs _ h
    simp only [Bool.and_eq_true] at this
    simp [this.1, node_closed_save this.2]

/-- Resolving a closed node's left child. -/
theorem get_left_of_closed {s : Store} {n : TreeNode} {k : Nat}
    (hc : node_closed s n = true) (h : n.left = some k) :
    ∃ l, n.get_left s = some l ∧ s.load k = some l := by
  simp only [node_closed, h, Bool.and_eq_true] at hc
  obtain ⟨h1, _⟩ := hc
  obtain ⟨l, hl⟩ := Option.isSome_iff_exists.mp h1
  exact ⟨l, by simp [TreeNode.get_left, h, hl], hl⟩

/-- Resolving a closed node's right child. -/
theorem get_right_of_closed {s : Store} {n : TreeNode} {k : Nat}
    (hc : node_closed s n = true) (h : n.right = some k) :
    ∃ r, n.get_right s = some r ∧ s.load k = some r := by
  simp only [node_closed, h, Bool.and_eq_true] at hc
  obtain ⟨_, h2⟩ := hc
  obtain ⟨r, hr⟩ := Option.isSome_iff_exists.mp h2
  exact ⟨r, by simp [TreeNode.get_right, h, hr], hr⟩

end Orderbook

namespace Orderbook

/-- The checked subtraction never panics. -/
theorem checked_sub_walk_ne_panic (a b : Nat) :
    checked_sub_walk a b ≠ CResult.panicked := by
  unfold checked_sub_walk
  split <;> simp

/-- The checked addition never panics. -/
theorem checked_add_cr_ne_panic (a b : Nat) :
    checked_add_cr a b ≠ CResult.panicked := by
  unfold checked_add_cr
  split <;> simp

/-- A child produced by `get_left` is bounded whenever the store is ok. -/
theorem get_left_bound {s : Store} {n lc : TreeNode}
    (hs : store_ok s = true) (h : n.get_left s = some lc) :
    leaf_bound_ok lc = true := by
  cases hnl : n.left with
  | none => simp [TreeNode.get_left, hnl] at h
  | some k =>
      simp only [TreeNode.get_left, hnl] at h
      exact (store_ok_load hs h).1

/-- A child produced by `get_right` is bounded whenever the store is ok. -/
theorem get_right_bound {s : Store} {n rc : TreeNode}
    (hs : store_ok s = true) (h : n.get_right s = some rc) :
    leaf_bound_ok rc = true := by
  cases hnr : n.right with
  | none => simp [TreeNode.get_right, hnr] at h
  | some k =>
      simp only [TreeNode.get_right, hnr] at h
      exact (store_ok_load hs h).1

/-- The prefix-sum walk cannot panic when every stored node (and the node
walked from) satisfies the leaf bound. -/
theorem prefix_sum_walk_no_panic :
    ∀ fuel s n cs t, store_ok s = true → leaf_bound_ok n = true →
      prefix_sum_walk fuel s n cs t ≠ CResult.panicked := by
  intro fuel
  induction fuel with
  | zero =>
      intro s n cs t hs hb
      simp [prefix_sum_walk]
  | succ f ih =>
      intro s n cs t hs hb
      simp only [prefix_sum_walk]
      split
      · simp
      · apply CResult.bind_ne_panic
        · obtain ⟨mx, hmx⟩ := get_max_range_of_bound hb
          rw [hmx]
          simp
        · intro mx _
          split
          · simp
          · split
            · simp
            · cases hL : n.get_left s with
              | some lc =>
                  have hlcb := get_left_bound hs hL
                  simp only [hL]
                  split
                  · simp
                  · apply CResult.bind_ne_panic
                    · obtain ⟨lmx, hlmx⟩ := get_max_range_of_bound hlcb
                      rw [hlmx]
                      simp
                    · intro lmx _
                      split
                      · apply CResult.bind_ne_panic
                        · exact checked_sub_walk_ne_panic _ _
                        · intro cur _
                          exact ih s lc cur t hs hlcb
                      · cases hR : n.get_right s with
                        | some rc =>
                            have hrcb := get_right_bound hs hR
                            simp only [hR]
                            split
                            · exact checked_sub_walk_ne_panic _ _
                            · apply CResult.bind_ne_panic
                              · obtain ⟨rmx, hrmx⟩ := get_max_range_of_bound hrcb
                                rw [hrmx]
                                simp
                              · intro rmx _
                                split
                                · exact ih s rc cs t hs hrcb
                                · simp
                        | none => simp [hR]
              | none =>
                  simp only [hL]
                  cases hR : n.get_right s with
                  | some rc =>
                      have hrcb := get_right_bound hs hR
                      simp only [hR]
                      split
                      · exact checked_sub_walk_ne_panic _ _
                      · apply CResult.bind_ne_panic
                        · obtain ⟨rmx, hrmx⟩ := get_max_range_of_bound hrcb
                          rw [hrmx]
                          simp
                        · intro rmx _
                          split
                          · exact ih s rc cs t hs hrcb
                          · simp
                  | none => simp [hR]

end Orderbook

namespace Orderbook

/-- Store invariants after saving two nodes. -/
theorem store_ok_save2 {s : Store} {n1 n2 : TreeNode}
    (hs : store_ok s = true)
    (hb1 : leaf_bound_ok n1 = true) (hb2 : leaf_bound_ok n2 = true)
    (hc1 : node_closed ((s.save n1).save n2) n1 = true)
    (hc2 : node_closed ((s.save n1).save n2) n2 = true) :
    store_ok ((s.save n1).save n2) = true := by
  apply List.all_eq_true.mpr
  intro p hp
  rcases mem_upsertNode hp with h | h
  · subst h
    simp [hb2, hc2]
  · rcases mem_upsertNode h with h1 | h1
    · subst h1
      simp [hb1, hc1]
    · have := List.all_eq_true.mp hs _ h1
      simp only [Bool.and_eq_true] at this
      simp [this.1, node_closed_save (node_closed_save this.2)]

/-- Store invariants after saving three nodes. -/
theorem store_ok_save3 {s : Store} {n1 n2 n3 : TreeNode}
    (hs : store_ok s = true)
    (hb1 : leaf_bound_ok n1 = true) (hb2 : leaf_bound_ok n2 = true)
    (hb3 : leaf_bound_ok n3 = true)
    (hc1 : node_closed (((s.save n1).save n2).save n3) n1 = true)
    (hc2 : node_closed (((s.save n1).save n2).save n3) n2 = true)
    (hc3 : node_closed (((s.save n1).save n2).save n3) n3 = true) :
    store_ok (((s.save n1).save n2).save n3) = true := by
  apply List.all_eq_true.mpr
  intro p hp
  rcases mem_upsertNode hp with h | h
  · subst h
    simp [hb3, hc3]
  · rcases mem_upsertNode h with h1 | h1
    · subst h1
      simp [hb2, hc2]
    · rcases mem_upsertNode h1 with h2 | h2
      · subst h2
        simp [hb1, hc1]
      · have := List.all_eq_true.mp hs _ h2
        simp only [Bool.and_eq_true] at this
        simp [this.1, node_closed_save (node_closed_save (node_closed_save this.2))]

/-- Closedness of a node whose children both resolve in the current store:
convenience introduction rule. -/
theorem node_closed_intro {s : Store} {n : TreeNode}
    (hl : ∀ k, n.left = some k → (s.load k).isSome = true)
    (hr : ∀ k, n.right = some k → (s.load k).isSome = true) :
    node_closed s n = true := by
  simp only [node_closed, Bool.and_eq_true]
  constructor
  · cases h : n.left with
    | some k => exact hl k h
    | none => rfl
  · cases h : n.right with
    | some k => exact hr k h
    | none => rfl

/-- A node just saved is present. -/
theorem load_save_self (s : Store) (n : TreeNode) :
    ((s.save n).load n.key).isSome = true := by
  rw [Store.load_save]
  simp

end Orderbook

namespace Orderbook

/-- Left-child key of a closed node resolves. -/
theorem node_closed_left {s : Store} {n : TreeNode} {k : Nat}
    (hc : node_closed s n = true) (h : n.left = some k) :
    ((s.load k).isSome) = true := by
  simp only [node_closed, h, Bool.and_eq_true] at hc
  exact hc.1

/-- Right-child key of a closed node resolves. -/
theorem node_closed_right {s : Store} {n : TreeNode} {k : Nat}
    (hc : node_closed s n = true) (h : n.right = some k) :
    ((s.load k).isSome) = true := by
  simp only [node_closed, h, Bool.and_eq_true] at hc
  exact hc.2

/-- The checked addition returns a value or the overflow error. -/
theorem checked_add_cr_cases (a b : Nat) :
    checked_add_cr a b = CResult.ok (a + b) ∨
    checked_add_cr a b = CResult.err ContractError.overflow := by
  unfold checked_add_cr checked_add_u128
  split <;> simp_all

end Orderbook

namespace Orderbook

/-- `sync_range_and_value` cannot panic when the store satisfies the leaf
bounds and the synced node's children resolve; on success the store
invariants are preserved and no stored key disappears. -/
theorem sync_range_and_value_ok :
    ∀ fuel s m, store_ok s = true → node_closed s m = true →
      sync_range_and_value fuel s m ≠ CResult.panicked ∧
      (∀ s' m', sync_range_and_value fuel s m = CResult.ok (s', m') →
        store_ok s' = true ∧
        ∀ k, (s.load k).isSome = true → (s'.load k).isSome = true) := by
  intro fuel
  induction fuel with
  | zero =>
      intro s m hs hc
      exact ⟨by simp [sync_range_and_value], fun s' m' h => by
        simp [sync_range_and_value] at h⟩
  | succ f ih =>
      intro s m hs hc
      by_cases hint : m.is_internal
      case neg =>
        exact ⟨by simp [sync_range_and_value, hint], fun s' m' h => by
          simp [sync_range_and_value, hint] at h⟩
      case pos =>
      by_cases hch : m.has_child
      case neg =>
        refine ⟨by simp [sync_range_and_value, hint, hch], fun s' m' h => ?_⟩
        simp only [sync_range_and_value, hint, hch, Bool.not_true, Bool.not_false,
          Bool.false_eq_true, if_false, if_true, CResult.bind_def, CResult.pure_def,
          CResult.bind, CResult.ok.injEq, Prod.mk.injEq] at h
        obtain ⟨rfl, rfl⟩ := h
        exact ⟨hs, fun k hk => hk⟩
      case pos =>
      obtain ⟨acc, rg, w, hmt⟩ : ∃ acc rg w,
          m.node_type = NodeType.internal acc rg w := by
        cases hmtt : m.node_type with
        | leaf v e => simp [TreeNode.is_internal, hmtt] at hint
        | internal a r ww => exact ⟨a, r, ww, rfl⟩
      cases hml : m.get_left s with
      | some l =>
        cases hmr : m.get_right s with
        | some r =>
          obtain ⟨lmx, hlmx⟩ := get_max_range_of_bound (get_left_bound hs hml)
          obtain ⟨rmx, hrmx⟩ := get_max_range_of_bound (get_right_bound hs hmr)
          rcases checked_add_cr_cases l.get_value r.get_value with hadd | hadd
          · constructor
            · simp only [sync_range_and_value, hint, hch, Bool.not_true,
                Bool.false_eq_true, if_false, hml, hmr, hlmx, hrmx, hmt,
                TreeNode.set_min_range, TreeNode.set_max_range, TreeNode.set_value,
                TreeNode.set_weight, hadd, CResult.bind_def, CResult.pure_def,
                CResult.bind]
              split
              · apply CResult.bind_ne_panic
                · refine (ih _ _ ?_ ?_).1
                  · exact store_ok_save hs rfl (node_closed_intro
                      (fun k hk => Store.load_isSome_save _ _ _ (node_closed_left hc hk))
                      (fun k hk => Store.load_isSome_save _ _ _ (node_closed_right hc hk)))
                  · rename_i parent hp
                    revert hp
                    cases hpk : m.parent with
                    | none =>
                        intro hp
                        simp [TreeNode.get_parent, hpk] at hp
                    | some pk =>
                        intro hp
                        simp only [TreeNode.get_parent, hpk] at hp
                        refine (store_ok_load ?_ hp).2
                        exact store_ok_save hs rfl (node_closed_intro
                          (fun k hk => Store.load_isSome_save _ _ _ (node_closed_left hc hk))
                          (fun k hk => Store.load_isSome_save _ _ _ (node_closed_right hc hk)))
                · intro d _
                  simp
              · simp
            · intro s' m' h
              simp only [sync_range_and_value, hint, hch, Bool.not_true,
                Bool.false_eq_true, if_false, hml, hmr, hlmx, hrmx, hmt,
                TreeNode.set_min_range, TreeNode.set_max_range, TreeNode.set_value,
                TreeNode.set_weight, hadd, CResult.bind_def, CResult.pure_def,
                CResult.bind] at h
              have hsok : store_ok (s.save
                  { key := m.key, book_id := m.book_id, tick_id := m.tick_id,
                    left := m.left, right := m.right, parent := m.parent,
                    node_type := NodeType.internal (l.get_value + r.get_value)
                      (min l.get_min_range r.get_min_range, max lmx rmx)
                      (l.get_weight + r.get_weight) }) = true :=
                store_ok_save hs rfl (node_closed_intro
                  (fun k hk => Store.load_isSome_save _ _ _ (node_closed_left hc hk))
                  (fun k hk => Store.load_isSome_save _ _ _ (node_closed_right hc hk)))
              split at h
              · obtain ⟨d, hd, heq⟩ := CResult.bind_ok_iff.mp h
                obtain ⟨d1, d2⟩ := d
                simp only [CResult.ok.injEq, Prod.mk.injEq] at heq
                obtain ⟨rfl, rfl⟩ := heq
                rename_i parent hp
                have hpc : node_closed (s.save
                    { key := m.key, book_id := m.book_id, tick_id := m.tick_id,
                      left := m.left, right := m.right, parent := m.parent,
                      node_type := NodeType.internal (l.get_value + r.get_value)
                        (min l.get_min_range r.get_min_range, max lmx rmx)
                        (l.get_weight + r.get_weight) }) parent = true := by
                  revert hp
                  cases hpk : m.parent with
                  | none =>
                      intro hp
                      simp [TreeNode.get_parent, hpk] at hp
                  | some pk =>
                      intro hp
                      simp only [TreeNode.get_parent, hpk] at hp
                      rw [hpk] at hsok
                      exact (store_ok_load hsok hp).2
                obtain ⟨hok', hmono'⟩ := (ih _ parent hsok hpc).2 d1 d2 hd
                exact ⟨hok', fun k hk =>
                  hmono' k (Store.load_isSome_save _ _ _ hk)⟩
              · simp only [CResult.ok.injEq, Prod.mk.injEq] at h
                obtain ⟨rfl, rfl⟩ := h
                exact ⟨hsok, fun k hk => Store.load_isSome_save _ _ _ hk⟩
          · constructor
            · simp [sync_range_and_value, hint, hch, hml, hmr, hlmx, hrmx, hmt,
                TreeNode.set_min_range, TreeNode.set_max_range, hadd,
                CResult.bind_def, CResult.bind]
            · intro s' m' h
              simp [sync_range_and_value, hint, hch, hml, hmr, hlmx, hrmx, hmt,
                TreeNode.set_min_range, TreeNode.set_max_range, hadd,
                CResult.bind_def, CResult.bind] at h
        | none =>
          obtain ⟨lmx, hlmx⟩ := get_max_range_of_bound (get_left_bound hs hml)
          rcases checked_add_cr_cases l.get_value 0 with hadd | hadd
          · constructor
            · simp only [sync_range_and_value, hint, hch, Bool.not_true,
                Bool.false_eq_true, if_false, hml, hmr, hlmx, hmt,
                TreeNode.set_min_range, TreeNode.set_max_range, TreeNode.set_value,
                TreeNode.set_weight, hadd, CResult.bind_def, CResult.pure_def,
                CResult.bind]
              split
              · apply CResult.bind_ne_panic
                · refine (ih _ _ ?_ ?_).1
                  · exact store_ok_save hs rfl (node_closed_intro
                      (fun k hk => Store.load_isSome_save _ _ _ (node_closed_left hc hk))
                      (fun k hk => Store.load_isSome_save _ _ _ (node_closed_right hc hk)))
                  · rename_i parent hp
                    revert hp
                    cases hpk : m.parent with
                    | none =>
                        intro hp
                        simp [TreeNode.get_parent, hpk] at hp
                    | some pk =>
                        intro hp
                        simp only [TreeNode.get_parent, hpk] at hp
                        refine (store_ok_load ?_ hp).2
                        exact store_ok_save hs rfl (node_closed_intro
                          (fun k hk => Store.load_isSome_save _ _ _ (node_closed_left hc hk))
                          (fun k hk => Store.load_isSome_save _ _ _ (node_closed_right hc hk)))
                · intro d _
                  simp
              · simp
            · intro s' m' h
              simp only [sync_range_and_value, hint, hch, Bool.not_true,
                Bool.false_eq_true, if_false, hml, hmr, hlmx, hmt,
                TreeNode.set_min_range, TreeNode.set_max_range, TreeNode.set_value,
                TreeNode.set_weight, hadd, CResult.bind_def, CResult.pure_def,
                CResult.bind] at h
              have hsok : store_ok (s.save
                  { key := m.key, book_id := m.book_id, tick_id := m.tick_id,
                    left := m.left, right := m.right, parent := m.parent,
                    node_type := NodeType.internal (l.get_value + 0)
                      (l.get_min_range, lmx) (l.get_weight + 0) }) = true :=
                store_ok_save hs rfl (node_closed_intro
                  (fun k hk => Store.load_isSome_save _ _ _ (node_closed_left hc hk))
                  (fun k hk => Store.load_isSome_save _ _ _ (node_closed_right hc hk)))
              split at h
              · obtain ⟨d, hd, heq⟩ := CResult.bind_ok_iff.mp h
                obtain ⟨d1, d2⟩ := d
                simp only [CResult.ok.injEq, Prod.mk.injEq] at heq
                obtain ⟨rfl, rfl⟩ := heq
                rename_i parent hp
                have hpc : node_closed (s.save
                    { key := m.key, book_id := m.book_id, tick_id := m.tick_id,
                      left := m.left, right := m.right, parent := m.parent,
                      node_type := NodeType.internal (l.get_value + 0)
                        (l.get_min_range, lmx) (l.get_weight + 0) }) parent = true := by
                  revert hp
                  cases hpk : m.parent with
                  | none =>
                      intro hp
                      simp [TreeNode.get_parent, hpk] at hp
                  | some pk =>
                      intro hp
                      simp only [TreeNode.get_parent, hpk] at hp
                      rw [hpk] at hsok
                      exact (store_ok_load hsok hp).2
                obtain ⟨hok', hmono'⟩ := (ih _ parent hsok hpc).2 d1 d2 hd
                exact ⟨hok', fun k hk =>
                  hmono' k (Store.load_isSome_save _ _ _ hk)⟩
              · simp only [CResult.ok.injEq, Prod.mk.injEq] at h
                obtain ⟨rfl, rfl⟩ := h
                exact ⟨hsok, fun k hk => Store.load_isSome_save _ _ _ hk⟩
          · constructor
            · simp [sync_range_and_value, hint, hch, hml, hmr, hlmx, hmt,
                TreeNode.set_min_range, TreeNode.set_max_range, hadd,
                CResult.bind_def, CResult.bind]
            · intro s' m' h
              simp [sync_range_and_value, hint, hch, hml, hmr, hlmx, hmt,
                TreeNode.set_min_range, TreeNode.set_max_range, hadd,
                CResult.bind_def, CResult.bind] at h
      | none =>
        cases hmr : m.get_right s with
        | some r =>
          obtain ⟨rmx, hrmx⟩ := get_max_range_of_bound (get_right_bound hs hmr)
          rcases checked_add_cr_cases 0 r.get_value with hadd | hadd
          · constructor
            · simp only [sync_range_and_value, hint, hch, Bool.not_true,
                Bool.false_eq_true, if_false, hml, hmr, hrmx, hmt,
                TreeNode.set_min_range, TreeNode.set_max_range, TreeNode.set_value,
                TreeNode.set_weight, hadd, CResult.bind_def, CResult.pure_def,
                CResult.bind]
              split
              · apply CResult.bind_ne_panic
                · refine (ih _ _ ?_ ?_).1
                  · exact store_ok_save hs rfl (node_closed_intro
                      (fun k hk => Store.load_isSome_save _ _ _ (node_closed_left hc hk))
                      (fun k hk => Store.load_isSome_save _ _ _ (node_closed_right hc hk)))
                  · rename_i parent hp
                    revert hp
                    cases hpk : m.parent with
                    | none =>
                        intro hp
                        simp [TreeNode.get_parent, hpk] at hp
                    | some pk =>
                        intro hp
                        simp only [TreeNode.get_parent, hpk] at hp
                        refine (store_ok_load ?_ hp).2
                        exact store_ok_save hs rfl (node_closed_intro
                          (fun k hk => Store.load_isSome_save _ _ _ (node_closed_left hc hk))
                          (fun k hk => Store.load_isSome_save _ _ _ (node_closed_right hc hk)))
                · intro d _
                  simp
              · simp
            · intro s' m' h
              simp only [sync_range_and_value, hint, hch, Bool.not_true,
                Bool.false_eq_true, if_false, hml, hmr, hrmx, hmt,
                TreeNode.set_min_range, TreeNode.set_max_range, TreeNode.set_value,
                TreeNode.set_weight, hadd, CResult.bind_def, CResult.pure_def,
                CResult.bind] at h
              have hsok : store_ok (s.save
                  { key := m.key, book_id := m.book_id, tick_id := m.tick_id,
                    left := m.left, right := m.right, parent := m.parent,
                    node_type := NodeType.internal (0 + r.get_value)
                      (r.get_min_range, rmx) (0 + r.get_weight) }) = true :=
                store_ok_save hs rfl (node_closed_intro
                  (fun k hk => Store.load_isSome_save _ _ _ (node_closed_left hc hk))
                  (fun k hk => Store.load_isSome_save _ _ _ (node_closed_right hc hk)))
              split at h
              · obtain ⟨d, hd, heq⟩ := CResult.bind_ok_iff.mp h
                obtain ⟨d1, d2⟩ := d
                simp only [CResult.ok.injEq, Prod.mk.injEq] at heq
                obtain ⟨rfl, rfl⟩ := heq
                rename_i parent hp
                have hpc : node_closed (s.save
                    { key := m.key, book_id := m.book_id, tick_id := m.tick_id,
                      left := m.left, right := m.right, parent := m.parent,
                      node_type := NodeType.internal (0 + r.get_value)
                        (r.get_min_range, rmx) (0 + r.get_weight) }) parent = true := by
                  revert hp
                  cases hpk : m.parent with
                  | none =>
                      intro hp
                      simp [TreeNode.get_parent, hpk] at hp
                  | some pk =>
                      intro hp
                      simp only [TreeNode.get_parent, hpk] at hp
                      rw [hpk] at hsok
                      exact (store_ok_load hsok hp).2
                obtain ⟨hok', hmono'⟩ := (ih _ parent hsok hpc).2 d1 d2 hd
                exact ⟨hok', fun k hk =>
                  hmono' k (Store.load_isSome_save _ _ _ hk)⟩
              · simp only [CResult.ok.injEq, Prod.mk.injEq] at h
                obtain ⟨rfl, rfl⟩ := h
                exact ⟨hsok, fun k hk => Store.load_isSome_save _ _ _ hk⟩
          · constructor
            · simp [sync_range_and_value, hint, hch, hml, hmr, hrmx, hmt,
                TreeNode.set_min_range, TreeNode.set_max_range, hadd,
                CResult.bind_def, CResult.bind]
            · intro s' m' h
              simp [sync_range_and_value, hint, hch, hml, hmr, hrmx, hmt,
                TreeNode.set_min_range, TreeNode.set_max_range, hadd,
                CResult.bind_def, CResult.bind] at h
        | none =>
          exfalso
          simp only [TreeNode.has_child, Bool.or_eq_true] at hch
          rcases hch with h1 | h1
          · obtain ⟨k, hk⟩ := Option.isSome_iff_exists.mp h1
            have := node_closed_left hc hk
            obtain ⟨lx, hlx⟩ := Option.isSome_iff_exists.mp this
            simp [TreeNode.get_left, hk, hlx] at hml
          · obtain ⟨k, hk⟩ := Option.isSome_iff_exists.mp h1
            have := node_closed_right hc hk
            obtain ⟨rx, hrx⟩ := Option.isSome_iff_exists.mp this
            simp [TreeNode.get_right, hk, hrx] at hmr

end Orderbook

namespace Orderbook

/-- A node resolved through `get_left` in an ok store is bounded and closed. -/
theorem get_left_store_ok {s : Store} {n lc : TreeNode}
    (hs : store_ok s = true) (h : n.get_left s = some lc) :
    leaf_bound_ok lc = true ∧ node_closed s lc = true := by
  cases hnl : n.left with
  | none => simp [TreeNode.get_left, hnl] at h
  | some k =>
      simp only [TreeNode.get_left, hnl] at h
      exact store_ok_load hs h

/-- A node resolved through `get_right` in an ok store is bounded and closed. -/
theorem get_right_store_ok {s : Store} {n rc : TreeNode}
    (hs : store_ok s = true) (h : n.get_right s = some rc) :
    leaf_bound_ok rc = true ∧ node_closed s rc = true := by
  cases hnr : n.right with
  | none => simp [TreeNode.get_right, hnr] at h
  | some k =>
      simp only [TreeNode.get_right, hnr] at h
      exact store_ok_load hs h

/-- A node resolved through `get_parent` in an ok store is bounded and closed. -/
theorem get_parent_store_ok {s : Store} {n p : TreeNode}
    (hs : store_ok s = true) (h : n.get_parent s = some p) :
    leaf_bound_ok p = true ∧ node_closed s p = true := by
  cases hnp : n.parent with
  | none => simp [TreeNode.get_parent, hnp] at h
  | some k =>
      simp only [TreeNode.get_parent, hnp] at h
      exact store_ok_load hs h

end Orderbook

namespace Orderbook

/-- Bind on a success reduces to the continuation. -/
theorem CResult.ok_bind {α β : Type} (a : α) (f : α → CResult β) :
    CResult.bind (CResult.ok a) f = f a := rfl

/-- Bind on an error propagates the error. -/
theorem CResult.err_bind {α β : Type} (e : ContractError) (f : α → CResult β) :
    CResult.bind (CResult.err e) f = CResult.err e := rfl

/-- The stored-root pointer does not affect the store invariants. -/
theorem store_ok_root (s : Store) (r : Option Nat) :
    store_ok { s with root := r } = store_ok s := rfl

/-- Loading is unaffected by the stored-root pointer. -/
theorem Store.load_set_root (s : Store) (r : Option Nat) (k : Nat) :
    Store.load { s with root := r } k = s.load k := rfl

/-- `rotate_right` cannot panic on an ok store when called on a bounded,
closed node; on success the store invariants are preserved. -/
theorem rotate_right_ok (fuel : Nat) (s : Store) (self0 : TreeNode)
    (hs : store_ok s = true) (hb : leaf_bound_ok self0 = true)
    (hc : node_closed s self0 = true) :
    rotate_right fuel s self0 ≠ CResult.panicked ∧
    (∀ s' m', rotate_right fuel s self0 = CResult.ok (s', m') →
      store_ok s' = true ∧
      ∀ k, (s.load k).isSome = true → (s'.load k).isSome = true) := by
  cases hgl : self0.get_left s with
  | none =>
      exact ⟨by simp [rotate_right, hgl], fun s' m' h => by
        simp [rotate_right, hgl] at h⟩
  | some left0 =>
  obtain ⟨hbl, hcl⟩ := get_left_store_ok hs hgl
  cases hlr : left0.right with
  | none =>
      have hs3 : ∀ L2 S1 : TreeNode,
          L2.key = left0.key → S1.key = self0.key →
          leaf_bound_ok L2 = true → leaf_bound_ok S1 = true →
          L2.left = left0.left → L2.right = some self0.key →
          S1.left = (none : Option Nat) → S1.right = self0.right →
          store_ok ((s.save L2).save S1) = true ∧
          node_closed ((s.save L2).save S1) S1 = true := by
        intro L2 S1 hk2 hk1 hb2 hb1 hl2 hr2 hl1 hr1
        have hc1 : node_closed ((s.save L2).save S1) S1 = true := by
          apply node_closed_intro
          · intro k hk
            rw [hl1] at hk
            cases hk
          · intro k hk
            rw [hr1] at hk
            exact Store.load_isSome_save _ _ _
              (Store.load_isSome_save _ _ _ (node_closed_right hc hk))
        refine ⟨store_ok_save2 hs hb2 hb1 ?_ hc1, hc1⟩
        apply node_closed_intro
        · intro k hk
          rw [hl2] at hk
          exact Store.load_isSome_save _ _ _
            (Store.load_isSome_save _ _ _ (node_closed_left hcl hk))
        · intro k hk
          rw [hr2] at hk
          cases hk
          rw [← hk1]
          exact load_save_self _ _
      obtain ⟨hsok3, hc31⟩ := hs3
        { key := left0.key, book_id := left0.book_id, tick_id := left0.tick_id,
          left := left0.left, right := some self0.key, parent := self0.parent,
          node_type := left0.node_type }
        { key := self0.key, book_id := self0.book_id, tick_id := self0.tick_id,
          left := none, right := self0.right, parent := some left0.key,
          node_type := self0.node_type }
        rfl rfl hbl hb rfl rfl rfl rfl
      have hpres3 : ∀ k, (s.load k).isSome = true →
          ((((s.save
            { key := left0.key, book_id := left0.book_id, tick_id := left0.tick_id,
              left := left0.left, right := some self0.key, parent := self0.parent,
              node_type := left0.node_type }).save
            { key := self0.key, book_id := self0.book_id, tick_id := self0.tick_id,
              left := none, right := self0.right, parent := some left0.key,
              node_type := self0.node_type })).load k).isSome = true :=
        fun k hk => Store.load_isSome_save _ _ _ (Store.load_isSome_save _ _ _ hk)
      have hpresL : ((((s.save
            { key := left0.key, book_id := left0.book_id, tick_id := left0.tick_id,
              left := left0.left, right := some self0.key, parent := self0.parent,
              node_type := left0.node_type }).save
            { key := self0.key, book_id := self0.book_id, tick_id := self0.tick_id,
              left := none, right := self0.right, parent := some left0.key,
              node_type := self0.node_type })).load left0.key).isSome = true :=
        Store.load_isSome_save _ _ _ (load_save_self _ _)
      cases hmp : self0.get_parent s with
      | none =>
          constructor
          · simp only [rotate_right, hgl, hmp, CResult.bind_def, CResult.pure_def]
            simp only [TreeNode.get_left, hlr, CResult.ok_bind]
            apply CResult.bind_ne_panic
            · exact (sync_range_and_value_ok fuel _ _ hsok3 hc31).1
            · intro d _
              simp
          · intro s' m' h
            simp only [rotate_right, hgl, hmp, CResult.bind_def, CResult.pure_def] at h
            simp only [TreeNode.get_left, hlr, CResult.ok_bind] at h
            obtain ⟨d, hd, heq⟩ := CResult.bind_ok_iff.mp h
            obtain ⟨hok1, hmono1⟩ :=
              (sync_range_and_value_ok fuel _ _ hsok3 hc31).2 d.1 d.2 hd
            simp only [Bool.false_eq_true, if_false, CResult.ok.injEq,
              Prod.mk.injEq] at heq
            obtain ⟨rfl, rfl⟩ := heq
            constructor
            · split
              · rw [store_ok_root]
                exact hok1
              · exact hok1
            · intro k hk
              split
              · rw [Store.load_set_root]
                exact hmono1 _ (hpres3 _ hk)
              · exact hmono1 _ (hpres3 _ hk)
      | some p =>
          obtain ⟨hbp, hcp⟩ := get_parent_store_ok hs hmp
          constructor
          · simp only [rotate_right, hgl, hmp, CResult.bind_def, CResult.pure_def]
            simp only [TreeNode.get_left, hlr, CResult.ok_bind]
            apply CResult.bind_ne_panic
            · exact (sync_range_and_value_ok fuel _ _ hsok3 hc31).1
            · intro d _
              simp
          · intro s' m' h
            simp only [rotate_right, hgl, hmp, CResult.bind_def, CResult.pure_def] at h
            simp only [TreeNode.get_left, hlr, CResult.ok_bind] at h
            obtain ⟨d, hd, heq⟩ := CResult.bind_ok_iff.mp h
            obtain ⟨hok1, hmono1⟩ :=
              (sync_range_and_value_ok fuel _ _ hsok3 hc31).2 d.1 d.2 hd
            simp only [CResult.ok.injEq, Prod.mk.injEq] at heq
            obtain ⟨rfl, rfl⟩ := heq
            have hokB : store_ok (if self0.parent = none then
                { d.1 with root := some left0.key } else d.1) = true := by
              split
              · rw [store_ok_root]
                exact hok1
              · exact hok1
            have hpresB : ∀ k, (d.1.load k).isSome = true →
                ((if self0.parent = none then
                  { d.1 with root := some left0.key } else d.1).load k).isSome
                  = true := by
              intro k hk
              split
              · rw [Store.load_set_root]
                exact hk
              · exact hk
            have hpresBL : ((if self0.parent = none then
                { d.1 with root := some left0.key } else d.1).load
                  left0.key).isSome = true :=
              hpresB _ (hmono1 _ hpresL)
            have hpresBp : ∀ k, (s.load k).isSome = true →
                ((if self0.parent = none then
                  { d.1 with root := some left0.key } else d.1).load k).isSome
                  = true :=
              fun k hk => hpresB _ (hmono1 _ (hpres3 _ hk))
            by_cases hrc : (p.right == some self0.key) = true <;>
              by_cases hlc : (p.left == some self0.key) = true
            · rw [if_pos hrc, if_pos hlc]
              refine ⟨store_ok_save (store_ok_save hokB ?_ ?_) ?_ ?_, ?_⟩
              · exact hbp
              · apply node_closed_intro
                · intro k hk
                  have hk2 : some left0.key = some k := hk
                  cases hk2
                  exact Store.load_isSome_save _ _ _ hpresBL
                · intro k hk
                  exact Store.load_isSome_save _ _ _
                    (hpresBp _ (node_closed_right hcp hk))
              · exact hbp
              · apply node_closed_intro
                · intro k hk
                  exact Store.load_isSome_save _ _ _ (Store.load_isSome_save _ _ _
                    (hpresBp _ (node_closed_left hcp hk)))
                · intro k hk
                  have hk2 : some left0.key = some k := hk
                  cases hk2
                  exact Store.load_isSome_save _ _ _
                    (Store.load_isSome_save _ _ _ hpresBL)
              · intro k hk
                exact Store.load_isSome_save _ _ _
                  (Store.load_isSome_save _ _ _ (hpresBp _ hk))
            · rw [if_pos hrc, if_neg hlc]
              refine ⟨store_ok_save hokB ?_ ?_, ?_⟩
              · exact hbp
              · apply node_closed_intro
                · intro k hk
                  exact Store.load_isSome_save _ _ _
                    (hpresBp _ (node_closed_left hcp hk))
                · intro k hk
                  have hk2 : some left0.key = some k := hk
                  cases hk2
                  exact Store.load_isSome_save _ _ _ hpresBL
              · intro k hk
                exact Store.load_isSome_save _ _ _ (hpresBp _ hk)
            · rw [if_neg hrc, if_pos hlc]
              refine ⟨store_ok_save hokB ?_ ?_, ?_⟩
              · exact hbp
              · apply node_closed_intro
                · intro k hk
                  have hk2 : some left0.key = some k := hk
                  cases hk2
                  exact Store.load_isSome_save _ _ _ hpresBL
                · intro k hk
                  exact Store.load_isSome_save _ _ _
                    (hpresBp _ (node_closed_right hcp hk))
              · intro k hk
                exact Store.load_isSome_save _ _ _ (hpresBp _ hk)
            · rw [if_neg hrc, if_neg hlc]
              exact ⟨hokB, fun k hk => hpresBp _ hk⟩
  | some tk =>
      have htk : (s.load tk).isSome = true := node_closed_right hcl hlr
      cases hnl : s.load tk with
      | none => rw [hnl] at htk; cases htk
      | some nl =>
      obtain ⟨hbnl, hcnl⟩ := store_ok_load hs hnl
      have hs3 : ∀ NL L2 S1 : TreeNode,
          NL.left = nl.left → NL.right = nl.right →
          L2.key = left0.key → S1.key = self0.key →
          leaf_bound_ok NL = true → leaf_bound_ok L2 = true →
          leaf_bound_ok S1 = true →
          L2.left = left0.left → L2.right = some self0.key →
          S1.left = some tk → S1.right = self0.right →
          store_ok (((s.save NL).save L2).save S1) = true ∧
          node_closed (((s.save NL).save L2).save S1) S1 = true := by
        intro NL L2 S1 hnll hnlr hk2 hk1 hbN hb2 hb1 hl2 hr2 hl1 hr1
        have hc1 : node_closed (((s.save NL).save L2).save S1) S1 = true := by
          apply node_closed_intro
          · intro k hk
            rw [hl1] at hk
            cases hk
            exact Store.load_isSome_save _ _ _ (Store.load_isSome_save _ _ _
              (Store.load_isSome_save _ _ _ htk))
          · intro k hk
            rw [hr1] at hk
            exact Store.load_isSome_save _ _ _ (Store.load_isSome_save _ _ _
              (Store.load_isSome_save _ _ _ (node_closed_right hc hk)))
        refine ⟨store_ok_save3 hs hbN hb2 hb1 ?_ ?_ hc1, hc1⟩
        · apply node_closed_intro
          · intro k hk
            rw [hnll] at hk
            exact Store.load_isSome_save _ _ _ (Store.load_isSome_save _ _ _
              (Store.load_isSome_save _ _ _ (node_closed_left hcnl hk)))
          · intro k hk
            rw [hnlr] at hk
            exact Store.load_isSome_save _ _ _ (Store.load_isSome_save _ _ _
              (Store.load_isSome_save _ _ _ (node_closed_right hcnl hk)))
        · apply node_closed_intro
          · intro k hk
            rw [hl2] at hk
            exact Store.load_isSome_save _ _ _ (Store.load_isSome_save _ _ _
              (Store.load_isSome_save _ _ _ (node_closed_left hcl hk)))
          · intro k hk
            rw [hr2] at hk
            cases hk
            rw [← hk1]
            exact load_save_self _ _
      obtain ⟨hsok3, hc31⟩ := hs3
        { key := nl.key, book_id := nl.book_id, tick_id := nl.tick_id,
          left := nl.left, right := nl.right, parent := some self0.key,
          node_type := nl.node_type }
        { key := left0.key, book_id := left0.book_id, tick_id := left0.tick_id,
          left := left0.left, right := some self0.key, parent := self0.parent,
          node_type := left0.node_type }
        { key := self0.key, book_id := self0.book_id, tick_id := self0.tick_id,
          left := some tk, right := self0.right, parent := some left0.key,
          node_type := self0.node_type }
        rfl rfl rfl rfl hbnl hbl hb rfl rfl rfl rfl
      have hpres3 : ∀ k, (s.load k).isSome = true →
          Option.isSome ((((s.save
            { key := nl.key, book_id := nl.book_id, tick_id := nl.tick_id,
              left := nl.left, right := nl.right, parent := some self0.key,
              node_type := nl.node_type }).save
            { key := left0.key, book_id := left0.book_id, tick_id := left0.tick_id,
              left := left0.left, right := some self0.key, parent := self0.parent,
              node_type := left0.node_type }).save
            { key := self0.key, book_id := self0.book_id, tick_id := self0.tick_id,
              left := some tk, right := self0.right, parent := some left0.key,
              node_type := self0.node_type }).load k) = true :=
        fun k hk => Store.load_isSome_save _ _ _ (Store.load_isSome_save _ _ _
          (Store.load_isSome_save _ _ _ hk))
      have hpresL : Option.isSome ((((s.save
            { key := nl.key, book_id := nl.book_id, tick_id := nl.tick_id,
              left := nl.left, right := nl.right, parent := some self0.key,
              node_type := nl.node_type }).save
            { key := left0.key, book_id := left0.book_id, tick_id := left0.tick_id,
              left := left0.left, right := some self0.key, parent := self0.parent,
              node_type := left0.node_type }).save
            { key := self0.key, book_id := self0.book_id, tick_id := self0.tick_id,
              left := some tk, right := self0.right, parent := some left0.key,
              node_type := self0.node_type }).load left0.key) = true :=
        Store.load_isSome_save _ _ _ (load_save_self _ _)
      cases hmp : self0.get_parent s with
      | none =>
          constructor
          · simp only [rotate_right, hgl, hmp, CResult.bind_def, CResult.pure_def]
            simp only [TreeNode.get_left, hlr, hnl, CResult.ok_bind]
            apply CResult.bind_ne_panic
            · exact (sync_range_and_value_ok fuel _ _ hsok3 hc31).1
            · intro d _
              simp
          · intro s' m' h
            simp only [rotate_right, hgl, hmp, CResult.bind_def, CResult.pure_def] at h
            simp only [TreeNode.get_left, hlr, hnl, CResult.ok_bind] at h
            obtain ⟨d, hd, heq⟩ := CResult.bind_ok_iff.mp h
            obtain ⟨hok1, hmono1⟩ :=
              (sync_range_and_value_ok fuel _ _ hsok3 hc31).2 d.1 d.2 hd
            simp only [Bool.false_eq_true, if_false, CResult.ok.injEq,
              Prod.mk.injEq] at heq
            obtain ⟨rfl, rfl⟩ := heq
            constructor
            · split
              · rw [store_ok_root]
                exact hok1
              · exact hok1
            · intro k hk
              split
              · rw [Store.load_set_root]
                exact hmono1 _ (hpres3 _ hk)
              · exact hmono1 _ (hpres3 _ hk)
      | some p =>
          obtain ⟨hbp, hcp⟩ := get_parent_store_ok hs hmp
          constructor
          · simp only [rotate_right, hgl, hmp, CResult.bind_def, CResult.pure_def]
            simp only [TreeNode.get_left, hlr, hnl, CResult.ok_bind]
            apply CResult.bind_ne_panic
            · exact (sync_range_and_value_ok fuel _ _ hsok3 hc31).1
            · intro d _
              simp
          · intro s' m' h
            simp only [rotate_right, hgl, hmp, CResult.bind_def, CResult.pure_def] at h
            simp only [TreeNode.get_left, hlr, hnl, CResult.ok_bind] at h
            obtain ⟨d, hd, heq⟩ := CResult.bind_ok_iff.mp h
            obtain ⟨hok1, hmono1⟩ :=
              (sync_range_and_value_ok fuel _ _ hsok3 hc31).2 d.1 d.2 hd
            simp only [CResult.ok.injEq, Prod.mk.injEq] at heq
            obtain ⟨rfl, rfl⟩ := heq
            have hokB : store_ok (if self0.parent = none then
                { d.1 with root := some left0.key } else d.1) = true := by
              split
              · rw [store_ok_root]
                exact hok1
              · exact hok1
            have hpresB : ∀ k, (d.1.load k).isSome = true →
                ((if self0.parent = none then
                  { d.1 with root := some left0.key } else d.1).load k).isSome
                  = true := by
              intro k hk
              split
              · rw [Store.load_set_root]
                exact hk
              · exact hk
            have hpresBL : ((if self0.parent = none then
                { d.1 with root := some left0.key } else d.1).load
                  left0.key).isSome = true :=
              hpresB _ (hmono1 _ hpresL)
            have hpresBp : ∀ k, (s.load k).isSome = true →
                ((if self0.parent = none then
                  { d.1 with root := some left0.key } else d.1).load k).isSome
                  = true :=
              fun k hk => hpresB _ (hmono1 _ (hpres3 _ hk))
            by_cases hrc : (p.right == some self0.key) = true <;>
              by_cases hlc : (p.left == some self0.key) = true
            · rw [if_pos hrc, if_pos hlc]
              refine ⟨store_ok_save (store_ok_save hokB ?_ ?_) ?_ ?_, ?_⟩
              · exact hbp
              · apply node_closed_intro
                · intro k hk
                  have hk2 : some left0.key = some k := hk
                  cases hk2
                  exact Store.load_isSome_save _ _ _ hpresBL
                · intro k hk
                  exact Store.load_isSome_save _ _ _
                    (hpresBp _ (node_closed_right hcp hk))
              · exact hbp
              · apply node_closed_intro
                · intro k hk
                  exact Store.load_isSome_save _ _ _ (Store.load_isSome_save _ _ _
                    (hpresBp _ (node_closed_left hcp hk)))
                · intro k hk
                  have hk2 : some left0.key = some k := hk
                  cases hk2
                  exact Store.load_isSome_save _ _ _
                    (Store.load_isSome_save _ _ _ hpresBL)
              · intro k hk
                exact Store.load_isSome_save _ _ _
                  (Store.load_isSome_save _ _ _ (hpresBp _ hk))
            · rw [if_pos hrc, if_neg hlc]
              refine ⟨store_ok_save hokB ?_ ?_, ?_⟩
              · exact hbp
              · apply node_closed_intro
                · intro k hk
                  exact Store.load_isSome_save _ _ _
                    (hpresBp _ (node_closed_left hcp hk))
                · intro k hk
                  have hk2 : some left0.key = some k := hk
                  cases hk2
                  exact Store.load_isSome_save _ _ _ hpresBL
              · intro k hk
                exact Store.load_isSome_save _ _ _ (hpresBp _ hk)
            · rw [if_neg hrc, if_pos hlc]
              refine ⟨store_ok_save hokB ?_ ?_, ?_⟩
              · exact hbp
              · apply node_closed_intro
                · intro k hk
                  have hk2 : some left0.key = some k := hk
                  cases hk2
                  exact Store.load_isSome_save _ _ _ hpresBL
                · intro k hk
                  exact Store.load_isSome_save _ _ _
                    (hpresBp _ (node_closed_right hcp hk))
              · intro k hk
                exact Store.load_isSome_save _ _ _ (hpresBp _ hk)
            · rw [if_neg hrc, if_neg hlc]
              exact ⟨hokB, fun k hk => hpresBp _ hk⟩

/-- `rotate_left` cannot panic on an ok store when called on a bounded,
closed node; on success the store invariants are preserved.  This holds even
though the re-parenting step reads the wrong child (`node.rs:676`): the step
only re-saves an existing node, so boundedness and closedness survive. -/
theorem rotate_left_ok (fuel : Nat) (s : Store) (self0 : TreeNode)
    (hs : store_ok s = true) (hb : leaf_bound_ok self0 = true)
    (hc : node_closed s self0 = true) :
    rotate_left fuel s self0 ≠ CResult.panicked ∧
    (∀ s' m', rotate_left fuel s self0 = CResult.ok (s', m') →
      store_ok s' = true ∧
      ∀ k, (s.load k).isSome = true → (s'.load k).isSome = true) := by
  cases hgr : self0.get_right s with
  | none =>
      exact ⟨by simp [rotate_left, hgr], fun s' m' h => by
        simp [rotate_left, hgr] at h⟩
  | some right0 =>
  obtain ⟨hbr, hcr⟩ := get_right_store_ok hs hgr
  have hs3 : ∀ R2 S1 : TreeNode,
      R2.key = right0.key → S1.key = self0.key →
      leaf_bound_ok R2 = true → leaf_bound_ok S1 = true →
      R2.left = some self0.key → R2.right = right0.right →
      S1.left = self0.left → S1.right = right0.left →
      store_ok ((s.save R2).save S1) = true ∧
      node_closed ((s.save R2).save S1) S1 = true := by
    intro R2 S1 hk2 hk1 hb2 hb1 hl2 hr2 hl1 hr1
    have hc1 : node_closed ((s.save R2).save S1) S1 = true := by
      apply node_closed_intro
      · intro k hk
        rw [hl1] at hk
        exact Store.load_isSome_save _ _ _
          (Store.load_isSome_save _ _ _ (node_closed_left hc hk))
      · intro k hk
        rw [hr1] at hk
        exact Store.load_isSome_save _ _ _
          (Store.load_isSome_save _ _ _ (node_closed_left hcr hk))
    refine ⟨store_ok_save2 hs hb2 hb1 ?_ hc1, hc1⟩
    apply node_closed_intro
    · intro k hk
      rw [hl2] at hk
      cases hk
      rw [← hk1]
      exact load_save_self _ _
    · intro k hk
      rw [hr2] at hk
      exact Store.load_isSome_save _ _ _
        (Store.load_isSome_save _ _ _ (node_closed_right hcr hk))
  cases hsl : self0.left with
  | none =>
      obtain ⟨hsok3, hc31⟩ := hs3
        { key := right0.key, book_id := right0.book_id, tick_id := right0.tick_id,
          left := some self0.key, right := right0.right, parent := self0.parent,
          node_type := right0.node_type }
        { key := self0.key, book_id := self0.book_id, tick_id := self0.tick_id,
          left := none, right := right0.left, parent := some right0.key,
          node_type := self0.node_type }
        rfl rfl hbr hb rfl rfl hsl.symm rfl
      have hpres3 : ∀ k, (s.load k).isSome = true →
          Option.isSome (((s.save
            { key := right0.key, book_id := right0.book_id, tick_id := right0.tick_id,
              left := some self0.key, right := right0.right, parent := self0.parent,
              node_type := right0.node_type }).save
            { key := self0.key, book_id := self0.book_id, tick_id := self0.tick_id,
              left := none, right := right0.left, parent := some right0.key,
              node_type := self0.node_type }).load k) = true :=
        fun k hk => Store.load_isSome_save _ _ _ (Store.load_isSome_save _ _ _ hk)
      have hpresR : Option.isSome (((s.save
            { key := right0.key, book_id := right0.book_id, tick_id := right0.tick_id,
              left := some self0.key, right := right0.right, parent := self0.parent,
              node_type := right0.node_type }).save
            { key := self0.key, book_id := self0.book_id, tick_id := self0.tick_id,
              left := none, right := right0.left, parent := some right0.key,
              node_type := self0.node_type }).load right0.key) = true :=
        Store.load_isSome_save _ _ _ (load_save_self _ _)
      cases hmp : self0.get_parent s with
      | none =>
          constructor
          · simp only [rotate_left, hgr, hmp, CResult.bind_def, CResult.pure_def]
            simp only [TreeNode.get_left, hsl, CResult.ok_bind]
            apply CResult.bind_ne_panic
            · exact (sync_range_and_value_ok fuel _ _ hsok3 hc31).1
            · intro d _
              simp
          · intro s' m' h
            simp only [rotate_left, hgr, hmp, CResult.bind_def, CResult.pure_def] at h
            simp only [TreeNode.get_left, hsl, CResult.ok_bind] at h
            obtain ⟨d, hd, heq⟩ := CResult.bind_ok_iff.mp h
            obtain ⟨hok1, hmono1⟩ :=
              (sync_range_and_value_ok fuel _ _ hsok3 hc31).2 d.1 d.2 hd
            simp only [Bool.false_eq_true, if_false, CResult.ok.injEq,
              Prod.mk.injEq] at heq
            obtain ⟨rfl, rfl⟩ := heq
            constructor
            · split
              · rw [store_ok_root]
                exact hok1
              · exact hok1
            · intro k hk
              split
              · rw [Store.load_set_root]
                exact hmono1 _ (hpres3 _ hk)
              · exact hmono1 _ (hpres3 _ hk)
      | some p =>
          obtain ⟨hbp, hcp⟩ := get_parent_store_ok hs hmp
          constructor
          · simp only [rotate_left, hgr, hmp, CResult.bind_def, CResult.pure_def]
            simp only [TreeNode.get_left, hsl, CResult.ok_bind]
            apply CResult.bind_ne_panic
            · exact (sync_range_and_value_ok fuel _ _ hsok3 hc31).1
            · intro d _
              simp
          · intro s' m' h
            simp only [rotate_left, hgr, hmp, CResult.bind_def, CResult.pure_def] at h
            simp only [TreeNode.get_left, hsl, CResult.ok_bind] at h
            obtain ⟨d, hd, heq⟩ := CResult.bind_ok_iff.mp h
            obtain ⟨hok1, hmono1⟩ :=
              (sync_range_and_value_ok fuel _ _ hsok3 hc31).2 d.1 d.2 hd
            simp only [CResult.ok.injEq, Prod.mk.injEq] at heq
            obtain ⟨rfl, rfl⟩ := heq
            have hokB : store_ok (if self0.parent = none then
                { d.1 with root := some right0.key } else d.1) = true := by
              split
              · rw [store_ok_root]
                exact hok1
              · exact hok1
            have hpresB : ∀ k, (d.1.load k).isSome = true →
                ((if self0.parent = none then
                  { d.1 with root := some right0.key } else d.1).load k).isSome
                  = true := by
              intro k hk
              split
              · rw [Store.load_set_root]
                exact hk
              · exact hk
            have hpresBR : ((if self0.parent = none then
                { d.1 with root := some right0.key } else d.1).load
                  right0.key).isSome = true :=
              hpresB _ (hmono1 _ hpresR)
            have hpresBp : ∀ k, (s.load k).isSome = true →
                ((if self0.parent = none then
                  { d.1 with root := some right0.key } else d.1).load k).isSome
                  = true :=
              fun k hk => hpresB _ (hmono1 _ (hpres3 _ hk))
            by_cases hrc : (p.right == some self0.key) = true <;>
              by_cases hlc : (p.left == some self0.key) = true
            · rw [if_pos hrc, if_pos hlc]
              refine ⟨store_ok_save (store_ok_save hokB ?_ ?_) ?_ ?_, ?_⟩
              · exact hbp
              · apply node_closed_intro
                · intro k hk
                  have hk2 : some right0.key = some k := hk
                  cases hk2
                  exact Store.load_isSome_save _ _ _ hpresBR
                · intro k hk
                  exact Store.load_isSome_save _ _ _
                    (hpresBp _ (node_closed_right hcp hk))
              · exact hbp
              · apply node_closed_intro
                · intro k hk
                  exact Store.load_isSome_save _ _ _ (Store.load_isSome_save _ _ _
                    (hpresBp _ (node_closed_left hcp hk)))
                · intro k hk
                  have hk2 : some right0.key = some k := hk
                  cases hk2
                  exact Store.load_isSome_save _ _ _
                    (Store.load_isSome_save _ _ _ hpresBR)
              · intro k hk
                exact Store.load_isSome_save _ _ _
                  (Store.load_isSome_save _ _ _ (hpresBp _ hk))
            · rw [if_pos hrc, if_neg hlc]
              refine ⟨store_ok_save hokB ?_ ?_, ?_⟩
              · exact hbp
              · apply node_closed_intro
                · intro k hk
                  exact Store.load_isSome_save _ _ _
                    (hpresBp _ (node_closed_left hcp hk))
                · intro k hk
                  have hk2 : some right0.key = some k := hk
                  cases hk2
                  exact Store.load_isSome_save _ _ _ hpresBR
              · intro k hk
                exact Store.load_isSome_save _ _ _ (hpresBp _ hk)
            · rw [if_neg hrc, if_pos hlc]
              refine ⟨store_ok_save hokB ?_ ?_, ?_⟩
              · exact hbp
              · apply node_closed_intro
                · intro k hk
                  have hk2 : some right0.key = some k := hk
                  cases hk2
                  exact Store.load_isSome_save _ _ _ hpresBR
                · intro k hk
                  exact Store.load_isSome_save _ _ _
                    (hpresBp _ (node_closed_right hcp hk))
              · intro k hk
                exact Store.load_isSome_save _ _ _ (hpresBp _ hk)
            · rw [if_neg hrc, if_neg hlc]
              exact ⟨hokB, fun k hk => hpresBp _ hk⟩
  | some lk =>
      have hlk : (s.load lk).isSome = true := node_closed_left hc hsl
      cases hnlk : s.load lk with
      | none => rw [hnlk] at hlk; cases hlk
      | some nr =>
      obtain ⟨hbnr, hcnr⟩ := store_ok_load hs hnlk
      have hs4 : ∀ NR R2 S1 : TreeNode,
          NR.left = nr.left → NR.right = nr.right →
          R2.key = right0.key → S1.key = self0.key →
          leaf_bound_ok NR = true → leaf_bound_ok R2 = true →
          leaf_bound_ok S1 = true →
          R2.left = some self0.key → R2.right = right0.right →
          S1.left = some lk → S1.right = right0.left →
          store_ok (((s.save NR).save R2).save S1) = true ∧
          node_closed (((s.save NR).save R2).save S1) S1 = true := by
        intro NR R2 S1 hnrl hnrr hk2 hk1 hbN hb2 hb1 hl2 hr2 hl1 hr1
        have hc1 : node_closed (((s.save NR).save R2).save S1) S1 = true := by
          apply node_closed_intro
          · intro k hk
            rw [hl1] at hk
            cases hk
            exact Store.load_isSome_save _ _ _ (Store.load_isSome_save _ _ _
              (Store.load_isSome_save _ _ _ hlk))
          · intro k hk
            rw [hr1] at hk
            exact Store.load_isSome_save _ _ _ (Store.load_isSome_save _ _ _
              (Store.load_isSome_save _ _ _ (node_closed_left hcr hk)))
        refine ⟨store_ok_save3 hs hbN hb2 hb1 ?_ ?_ hc1, hc1⟩
        · apply node_closed_intro
          · intro k hk
            rw [hnrl] at hk
            exact Store.load_isSome_save _ _ _ (Store.load_isSome_save _ _ _
              (Store.load_isSome_save _ _ _ (node_closed_left hcnr hk)))
          · intro k hk
            rw [hnrr] at hk
            exact Store.load_isSome_save _ _ _ (Store.load_isSome_save _ _ _
              (Store.load_isSome_save _ _ _ (node_closed_right hcnr hk)))
        · apply node_closed_intro
          · intro k hk
            rw [hl2] at hk
            cases hk
            rw [← hk1]
            exact load_save_self _ _
          · intro k hk
            rw [hr2] at hk
            exact Store.load_isSome_save _ _ _ (Store.load_isSome_save _ _ _
              (Store.load_isSome_save _ _ _ (node_closed_right hcr hk)))
      obtain ⟨hsok3, hc31⟩ := hs4
        { key := nr.key, book_id := nr.book_id, tick_id := nr.tick_id,
          left := nr.left, right := nr.right, parent := some self0.key,
          node_type := nr.node_type }
        { key := right0.key, book_id := right0.book_id, tick_id := right0.tick_id,
          left := some self0.key, right := right0.right, parent := self0.parent,
          node_type := right0.node_type }
        { key := self0.key, book_id := self0.book_id, tick_id := self0.tick_id,
          left := some lk, right := right0.left, parent := some right0.key,
          node_type := self0.node_type }
        rfl rfl rfl rfl hbnr hbr hb rfl rfl rfl rfl
      have hpres3 : ∀ k, (s.load k).isSome = true →
          Option.isSome ((((s.save
            { key := nr.key, book_id := nr.book_id, tick_id := nr.tick_id,
              left := nr.left, right := nr.right, parent := some self0.key,
              node_type := nr.node_type }).save
            { key := right0.key, book_id := right0.book_id, tick_id := right0.tick_id,
              left := some self0.key, right := right0.right, parent := self0.parent,
              node_type := right0.node_type }).save
            { key := self0.key, book_id := self0.book_id, tick_id := self0.tick_id,
              left := some lk, right := right0.left, parent := some right0.key,
              node_type := self0.node_type }).load k) = true :=
        fun k hk => Store.load_isSome_save _ _ _ (Store.load_isSome_save _ _ _
          (Store.load_isSome_save _ _ _ hk))
      have hpresR : Option.isSome ((((s.save
            { key := nr.key, book_id := nr.book_id, tick_id := nr.tick_id,
              left := nr.left, right := nr.right, parent := some self0.key,
              node_type := nr.node_type }).save
            { key := right0.key, book_id := right0.book_id, tick_id := right0.tick_id,
              left := some self0.key, right := right0.right, parent := self0.parent,
              node_type := right0.node_type }).save
            { key := self0.key, book_id := self0.book_id, tick_id := self0.tick_id,
              left := some lk, right := right0.left, parent := some right0.key,
              node_type := self0.node_type }).load right0.key) = true :=
        Store.load_isSome_save _ _ _ (load_save_self _ _)
      cases hmp : self0.get_parent s with
      | none =>
          constructor
          · simp only [rotate_left, hgr, hmp, CResult.bind_def, CResult.pure_def]
            simp only [TreeNode.get_left, hsl, hnlk, CResult.ok_bind]
            apply CResult.bind_ne_panic
            · exact (sync_range_and_value_ok fuel _ _ hsok3 hc31).1
            · intro d _
              simp
          · intro s' m' h
            simp only [rotate_left, hgr, hmp, CResult.bind_def, CResult.pure_def] at h
            simp only [TreeNode.get_left, hsl, hnlk, CResult.ok_bind] at h
            obtain ⟨d, hd, heq⟩ := CResult.bind_ok_iff.mp h
            obtain ⟨hok1, hmono1⟩ :=
              (sync_range_and_value_ok fuel _ _ hsok3 hc31).2 d.1 d.2 hd
            simp only [Bool.false_eq_true, if_false, CResult.ok.injEq,
              Prod.mk.injEq] at heq
            obtain ⟨rfl, rfl⟩ := heq
            constructor
            · split
              · rw [store_ok_root]
                exact hok1
              · exact hok1
            · intro k hk
              split
              · rw [Store.load_set_root]
                exact hmono1 _ (hpres3 _ hk)
              · exact hmono1 _ (hpres3 _ hk)
      | some p =>
          obtain ⟨hbp, hcp⟩ := get_parent_store_ok hs hmp
          constructor
          · simp only [rotate_left, hgr, hmp, CResult.bind_def, CResult.pure_def]
            simp only [TreeNode.get_left, hsl, hnlk, CResult.ok_bind]
            apply CResult.bind_ne_panic
            · exact (sync_range_and_value_ok fuel _ _ hsok3 hc31).1
            · intro d _
              simp
          · intro s' m' h
            simp only [rotate_left, hgr, hmp, CResult.bind_def, CResult.pure_def] at h
            simp only [TreeNode.get_left, hsl, hnlk, CResult.ok_bind] at h
            obtain ⟨d, hd, heq⟩ := CResult.bind_ok_iff.mp h
            obtain ⟨hok1, hmono1⟩ :=
              (sync_range_and_value_ok fuel _ _ hsok3 hc31).2 d.1 d.2 hd
            simp only [CResult.ok.injEq, Prod.mk.injEq] at heq
            obtain ⟨rfl, rfl⟩ := heq
            have hokB : store_ok (if self0.parent = none then
                { d.1 with root := some right0.key } else d.1) = true := by
              split
              · rw [store_ok_root]
                exact hok1
              · exact hok1
            have hpresB : ∀ k, (d.1.load k).isSome = true →
                ((if self0.parent = none then
                  { d.1 with root := some right0.key } else d.1).load k).isSome
                  = true := by
              intro k hk
              split
              · rw [Store.load_set_root]
                exact hk
              · exact hk
            have hpresBR : ((if self0.parent = none then
                { d.1 with root := some right0.key } else d.1).load
                  right0.key).isSome = true :=
              hpresB _ (hmono1 _ hpresR)
            have hpresBp : ∀ k, (s.load k).isSome = true →
                ((if self0.parent = none then
                  { d.1 with root := some right0.key } else d.1).load k).isSome
                  = true :=
              fun k hk => hpresB _ (hmono1 _ (hpres3 _ hk))
            by_cases hrc : (p.right == some self0.key) = true <;>
              by_cases hlc : (p.left == some self0.key) = true
            · rw [if_pos hrc, if_pos hlc]
              refine ⟨store_ok_save (store_ok_save hokB ?_ ?_) ?_ ?_, ?_⟩
              · exact hbp
              · apply node_closed_intro
                · intro k hk
                  have hk2 : some right0.key = some k := hk
                  cases hk2
                  exact Store.load_isSome_save _ _ _ hpresBR
                · intro k hk
                  exact Store.load_isSome_save _ _ _
                    (hpresBp _ (node_closed_right hcp hk))
              · exact hbp
              · apply node_closed_intro
                · intro k hk
                  exact Store.load_isSome_save _ _ _ (Store.load_isSome_save _ _ _
                    (hpresBp _ (node_closed_left hcp hk)))
                · intro k hk
                  have hk2 : some right0.key = some k := hk
                  cases hk2
                  exact Store.load_isSome_save _ _ _
                    (Store.load_isSome_save _ _ _ hpresBR)
              · intro k hk
                exact Store.load_isSome_save _ _ _
                  (Store.load_isSome_save _ _ _ (hpresBp _ hk))
            · rw [if_pos hrc, if_neg hlc]
              refine ⟨store_ok_save hokB ?_ ?_, ?_⟩
              · exact hbp
              · apply node_closed_intro
                · intro k hk
                  exact Store.load_isSome_save _ _ _
                    (hpresBp _ (node_closed_left hcp hk))
                · intro k hk
                  have hk2 : some right0.key = some k := hk
                  cases hk2
                  exact Store.load_isSome_save _ _ _ hpresBR
              · intro k hk
                exact Store.load_isSome_save _ _ _ (hpresBp _ hk)
            · rw [if_neg hrc, if_pos hlc]
              refine ⟨store_ok_save hokB ?_ ?_, ?_⟩
              · exact hbp
              · apply node_closed_intro
                · intro k hk
                  have hk2 : some right0.key = some k := hk
                  cases hk2
                  exact Store.load_isSome_save _ _ _ hpresBR
                · intro k hk
                  exact Store.load_isSome_save _ _ _
                    (hpresBp _ (node_closed_right hcp hk))
              · intro k hk
                exact Store.load_isSome_save _ _ _ (hpresBp _ hk)
            · rw [if_neg hrc, if_neg hlc]
              exact ⟨hokB, fun k hk => hpresBp _ hk⟩

/-- A node with no resolvable right child never leans right. -/
theorem get_balance_factor_right_none {s : Store} {n : TreeNode}
    (h : n.get_right s = none) : n.get_balance_factor s ≤ 0 := by
  simp only [TreeNode.get_balance_factor, h]
  cases hgl : n.get_left s <;> simp [hgl]

/-- A node with no resolvable left child never leans left. -/
theorem get_balance_factor_left_none {s : Store} {n : TreeNode}
    (h : n.get_left s = none) : 0 ≤ n.get_balance_factor s := by
  simp only [TreeNode.get_balance_factor, h]
  cases hgr : n.get_right s <;> simp [hgr]

/-- `rebalance` cannot panic on an ok store, and on success the store
invariants and key presence are preserved. -/
theorem rebalance_ok (fuel : Nat) (s : Store) (self0 : TreeNode)
    (hs : store_ok s = true) :
    rebalance fuel s self0 ≠ CResult.panicked ∧
    (∀ s' m', rebalance fuel s self0 = CResult.ok (s', m') →
      store_ok s' = true ∧
      ∀ k, (s.load k).isSome = true → (s'.load k).isSome = true) := by
  cases hld : s.load self0.key with
  | none =>
      constructor
      · simp [rebalance, TreeNode.syncNode, hld, CResult.bind_def,
          CResult.err_bind]
      · intro s' m' h
        simp [rebalance, TreeNode.syncNode, hld, CResult.bind_def,
          CResult.err_bind] at h
  | some self =>
  obtain ⟨hbm, hcm⟩ := store_ok_load hs hld
  constructor
  · simp only [rebalance, TreeNode.syncNode, hld, CResult.bind_def,
      CResult.pure_def, CResult.ok_bind]
    split
    · simp
    · split
      · simp
      · split
        · exact (rotate_left_ok fuel s self hs hbm hcm).1
        · split
          · exact (rotate_right_ok fuel s self hs hbm hcm).1
          · split
            · rename_i hc4
              cases hgr : self.get_right s with
              | none =>
                  exfalso
                  have h1 := get_balance_factor_right_none hgr
                  simp only [Bool.and_eq_true, decide_eq_true_eq] at hc4
                  omega
              | some r =>
                  obtain ⟨hbr2, hcr2⟩ := get_right_store_ok hs hgr
                  simp only [hgr, unwrapCR, CResult.ok_bind]
                  apply CResult.bind_ne_panic
                  · exact (rotate_right_ok fuel s r hs hbr2 hcr2).1
                  · intro d hd
                    obtain ⟨s1, m1⟩ := d
                    obtain ⟨hok1, hmono1⟩ :=
                      (rotate_right_ok fuel s r hs hbr2 hcr2).2 s1 m1 hd
                    cases hld2 : s1.load self.key with
                    | none => simp [TreeNode.syncNode, hld2, CResult.bind_def,
                        CResult.err_bind]
                    | some self2 =>
                        obtain ⟨hb2, hc2⟩ := store_ok_load hok1 hld2
                        simp only [TreeNode.syncNode, hld2, CResult.ok_bind]
                        exact (rotate_left_ok fuel s1 self2 hok1 hb2 hc2).1
            · split
              · rename_i hc5
                cases hgl : self.get_left s with
                | none =>
                    exfalso
                    have h1 := get_balance_factor_left_none hgl
                    simp only [Bool.and_eq_true, decide_eq_true_eq] at hc5
                    omega
                | some l =>
                    obtain ⟨hbl2, hcl2⟩ := get_left_store_ok hs hgl
                    simp only [hgl, unwrapCR, CResult.ok_bind]
                    apply CResult.bind_ne_panic
                    · exact (rotate_left_ok fuel s l hs hbl2 hcl2).1
                    · intro d hd
                      obtain ⟨s1, m1⟩ := d
                      obtain ⟨hok1, hmono1⟩ :=
                        (rotate_left_ok fuel s l hs hbl2 hcl2).2 s1 m1 hd
                      cases hld2 : s1.load self.key with
                      | none => simp [TreeNode.syncNode, hld2, CResult.bind_def,
                        CResult.err_bind]
                      | some self2 =>
                          obtain ⟨hb2, hc2⟩ := store_ok_load hok1 hld2
                          simp only [TreeNode.syncNode, hld2, CResult.ok_bind]
                          exact (rotate_right_ok fuel s1 self2 hok1 hb2 hc2).1
              · simp
  · intro s' m' h
    simp only [rebalance, TreeNode.syncNode, hld, CResult.bind_def,
      CResult.pure_def, CResult.ok_bind] at h
    split at h
    · simp only [CResult.ok.injEq, Prod.mk.injEq] at h
      obtain ⟨rfl, rfl⟩ := h
      exact ⟨hs, fun k hk => hk⟩
    · split at h
      · simp only [CResult.ok.injEq, Prod.mk.injEq] at h
        obtain ⟨rfl, rfl⟩ := h
        exact ⟨hs, fun k hk => hk⟩
      · split at h
        · exact (rotate_left_ok fuel s self hs hbm hcm).2 s' m' h
        · split at h
          · exact (rotate_right_ok fuel s self hs hbm hcm).2 s' m' h
          · split at h
            · rename_i hc4
              cases hgr : self.get_right s with
              | none =>
                  exfalso
                  have h1 := get_balance_factor_right_none hgr
                  simp only [Bool.and_eq_true, decide_eq_true_eq] at hc4
                  omega
              | some r =>
                  obtain ⟨hbr2, hcr2⟩ := get_right_store_ok hs hgr
                  simp only [hgr, unwrapCR, CResult.ok_bind] at h
                  obtain ⟨d, hd, h2⟩ := CResult.bind_ok_iff.mp h
                  obtain ⟨s1, m1⟩ := d
                  obtain ⟨hok1, hmono1⟩ :=
                    (rotate_right_ok fuel s r hs hbr2 hcr2).2 s1 m1 hd
                  cases hld2 : s1.load self.key with
                  | none => simp [TreeNode.syncNode, hld2, CResult.bind_def,
                      CResult.err_bind] at h2
                  | some self2 =>
                      obtain ⟨hb2, hc2⟩ := store_ok_load hok1 hld2
                      simp only [TreeNode.syncNode, hld2, CResult.ok_bind] at h2
                      obtain ⟨hok2, hmono2⟩ :=
                        (rotate_left_ok fuel s1 self2 hok1 hb2 hc2).2 s' m' h2
                      exact ⟨hok2, fun k hk => hmono2 _ (hmono1 _ hk)⟩
            · split at h
              · rename_i hc5
                cases hgl : self.get_left s with
                | none =>
                    exfalso
                    have h1 := get_balance_factor_left_none hgl
                    simp only [Bool.and_eq_true, decide_eq_true_eq] at hc5
                    omega
                | some l =>
                    obtain ⟨hbl2, hcl2⟩ := get_left_store_ok hs hgl
                    simp only [hgl, unwrapCR, CResult.ok_bind] at h
                    obtain ⟨d, hd, h2⟩ := CResult.bind_ok_iff.mp h
                    obtain ⟨s1, m1⟩ := d
                    obtain ⟨hok1, hmono1⟩ :=
                      (rotate_left_ok fuel s l hs hbl2 hcl2).2 s1 m1 hd
                    cases hld2 : s1.load self.key with
                    | none => simp [TreeNode.syncNode, hld2, CResult.bind_def,
                      CResult.err_bind] at h2
                    | some self2 =>
                        obtain ⟨hb2, hc2⟩ := store_ok_load hok1 hld2
                        simp only [TreeNode.syncNode, hld2, CResult.ok_bind] at h2
                        obtain ⟨hok2, hmono2⟩ :=
                          (rotate_right_ok fuel s1 self2 hok1 hb2 hc2).2 s' m' h2
                        exact ⟨hok2, fun k hk => hmono2 _ (hmono1 _ hk)⟩
              · simp only [CResult.ok.injEq, Prod.mk.injEq] at h
                obtain ⟨rfl, rfl⟩ := h
                exact ⟨hs, fun k hk => hk⟩

/-- Success predicate for a fallible computation: it does not panic, and
every successful result satisfies the postcondition. -/
def COk {α : Type} (x : CResult α) (P : α → Prop) : Prop :=
  x ≠ CResult.panicked ∧ ∀ a, x = CResult.ok a → P a

/-- Bind preserves `COk` when the head cannot panic. -/
theorem COk_bind {α β : Type} {x : CResult α} {f : α → CResult β} {P : β → Prop}
    (hx : x ≠ CResult.panicked)
    (hf : ∀ a, x = CResult.ok a → COk (f a) P) :
    COk (CResult.bind x f) P := by
  cases x with
  | ok a => exact hf a rfl
  | err e => exact ⟨by simp [CResult.bind], fun a ha => by simp [CResult.bind] at ha⟩
  | panicked => exact absurd rfl hx
  | outOfFuel => exact ⟨by simp [CResult.bind], fun a ha => by simp [CResult.bind] at ha⟩

/-- A plain success satisfies `COk` of any postcondition it meets. -/
theorem COk_ok {α : Type} {P : α → Prop} (a : α) (h : P a) :
    COk (CResult.ok a) P := by
  refine ⟨by simp, fun b hb => ?_⟩
  injection hb with h2
  exact h2 ▸ h

/-- A contract error satisfies `COk` vacuously. -/
theorem COk_err {α : Type} {P : α → Prop} (e : ContractError) :
    COk (CResult.err e) P :=
  ⟨by simp, fun a ha => by simp at ha⟩

/-- Fuel exhaustion satisfies `COk` vacuously. -/
theorem COk_outOfFuel {α : Type} {P : α → Prop} : COk (CResult.outOfFuel) P :=
  ⟨by simp, fun a ha => by simp at ha⟩

/-- Internal nodes trivially satisfy the leaf bound. -/
theorem leaf_bound_of_internal {n : TreeNode} (h : n.is_internal = true) :
    leaf_bound_ok n = true := by
  cases hnt : n.node_type with
  | leaf a b => simp [TreeNode.is_internal, hnt] at h
  | internal acc rng w => simp [leaf_bound_ok, hnt]

/-- Closedness transfers between nodes with equal child links. -/
theorem node_closed_of_eq {s : Store} {n m : TreeNode}
    (hl : m.left = n.left) (hr : m.right = n.right)
    (h : node_closed s n = true) : node_closed s m = true := by
  simp only [node_closed, Bool.and_eq_true] at h ⊢
  rw [hl, hr]
  exact h

/-- `add_value` on an internal node cannot panic and preserves the links. -/
theorem add_value_shape {n : TreeNode} (hint : n.is_internal = true) (v : Nat) :
    COk (n.add_value v) (fun m =>
      m.key = n.key ∧ m.left = n.left ∧ m.right = n.right ∧
      m.parent = n.parent ∧ m.is_internal = true) := by
  cases hnt : n.node_type with
  | leaf a b => simp [TreeNode.is_internal, hnt] at hint
  | internal acc rng w =>
      cases hca : checked_add_u128 n.get_value v with
      | none =>
          simp only [TreeNode.add_value, hca]
          exact COk_err _
      | some v2 =>
          simp only [TreeNode.add_value, hca, TreeNode.set_value, hnt]
          exact COk_ok _ ⟨rfl, rfl, rfl, rfl, by simp [TreeNode.is_internal]⟩

/-- `set_min_range` on an internal node cannot panic and preserves links. -/
theorem set_min_shape {n : TreeNode} (hint : n.is_internal = true) (x : Nat) :
    COk (n.set_min_range x) (fun m =>
      m.key = n.key ∧ m.left = n.left ∧ m.right = n.right ∧
      m.parent = n.parent ∧ m.is_internal = true) := by
  cases hnt : n.node_type with
  | leaf a b => simp [TreeNode.is_internal, hnt] at hint
  | internal acc rng w =>
      simp only [TreeNode.set_min_range, hnt]
      exact COk_ok _ ⟨rfl, rfl, rfl, rfl, by simp [TreeNode.is_internal]⟩

/-- `set_max_range` on an internal node cannot panic and preserves links. -/
theorem set_max_shape {n : TreeNode} (hint : n.is_internal = true) (x : Nat) :
    COk (n.set_max_range x) (fun m =>
      m.key = n.key ∧ m.left = n.left ∧ m.right = n.right ∧
      m.parent = n.parent ∧ m.is_internal = true) := by
  cases hnt : n.node_type with
  | leaf a b => simp [TreeNode.is_internal, hnt] at hint
  | internal acc rng w =>
      simp only [TreeNode.set_max_range, hnt]
      exact COk_ok _ ⟨rfl, rfl, rfl, rfl, by simp [TreeNode.is_internal]⟩

/-- `set_weight` on an internal node cannot panic and preserves links. -/
theorem set_weight_shape {n : TreeNode} (hint : n.is_internal = true) (w2 : Nat) :
    COk (n.set_weight w2) (fun m =>
      m.key = n.key ∧ m.left = n.left ∧ m.right = n.right ∧
      m.parent = n.parent ∧ m.is_internal = true) := by
  cases hnt : n.node_type with
  | leaf a b => simp [TreeNode.is_internal, hnt] at hint
  | internal acc rng w =>
      simp only [TreeNode.set_weight, hnt]
      exact COk_ok _ ⟨rfl, rfl, rfl, rfl, by simp [TreeNode.is_internal]⟩

/-- `split` cannot panic on bounded, closed inputs over an ok store; on
success the store invariants hold, the returned parent id resolves, and key
presence is preserved. -/
theorem split_ok (s : Store) (self0 new_node0 : TreeNode)
    (hs : store_ok s = true) (hb0 : leaf_bound_ok self0 = true)
    (hc0 : node_closed s self0 = true)
    (hbn : leaf_bound_ok new_node0 = true) (hcn : node_closed s new_node0 = true) :
    COk (split s self0 new_node0) (fun t =>
      store_ok t.1 = true ∧ (t.1.load t.2.2.2).isSome = true ∧
      ∀ k, (s.load k).isSome = true → (t.1.load k).isSome = true) := by
  by_cases hint : self0.is_internal = true
  · unfold split
    rw [if_pos hint]
    exact COk_err _
  · have hint2 : self0.is_internal = false := by
      revert hint
      cases self0.is_internal <;> simp
    cases hca : checked_add_u128 self0.get_value new_node0.get_value with
    | none =>
        simp only [split, hint2, Bool.false_eq_true, if_false, checked_add_cr,
          hca, CResult.err_bind, CResult.bind_def]
        exact COk_err _
    | some acc =>
        obtain ⟨nmx, hnmx⟩ := get_max_range_of_bound hbn
        obtain ⟨smx, hsmx⟩ := get_max_range_of_bound hb0
        simp only [split, hint2, Bool.false_eq_true, if_false, checked_add_cr,
          hca, CResult.ok_bind, hnmx, hsmx, TreeNode.set_weight, TreeNode.new,
          NodeType.internalNew, CResult.bind_def, CResult.pure_def]
        refine COk_ok _ ⟨?_, ?_, ?_⟩
        · refine store_ok_save3 hs rfl hb0 hbn ?_ ?_ ?_
          · apply node_closed_intro
            · intro k hk
              by_cases hlt : self0.get_min_range < new_node0.get_min_range
              · rw [if_pos hlt] at hk
                have hk2 : some self0.key = some k := hk
                cases hk2
                exact Store.load_isSome_save _ _ _ (load_save_self _ _)
              · rw [if_neg hlt] at hk
                have hk2 : some new_node0.key = some k := hk
                cases hk2
                exact load_save_self _ _
            · intro k hk
              by_cases hlt : self0.get_min_range < new_node0.get_min_range
              · rw [if_pos hlt] at hk
                have hk2 : some new_node0.key = some k := hk
                cases hk2
                exact load_save_self _ _
              · rw [if_neg hlt] at hk
                have hk2 : some self0.key = some k := hk
                cases hk2
                exact Store.load_isSome_save _ _ _ (load_save_self _ _)
          · apply node_closed_intro
            · intro k hk
              exact Store.load_isSome_save _ _ _ (Store.load_isSome_save _ _ _
                (Store.load_isSome_save _ _ _ (node_closed_left hc0 hk)))
            · intro k hk
              exact Store.load_isSome_save _ _ _ (Store.load_isSome_save _ _ _
                (Store.load_isSome_save _ _ _ (node_closed_right hc0 hk)))
          · apply node_closed_intro
            · intro k hk
              exact Store.load_isSome_save _ _ _ (Store.load_isSome_save _ _ _
                (Store.load_isSome_save _ _ _ (node_closed_left hcn hk)))
            · intro k hk
              exact Store.load_isSome_save _ _ _ (Store.load_isSome_save _ _ _
                (Store.load_isSome_save _ _ _ (node_closed_right hcn hk)))
        · exact Store.load_isSome_save _ _ _
            (Store.load_isSome_save _ _ _ (load_save_self _ _))
        · intro k hk
          exact Store.load_isSome_save _ _ _ (Store.load_isSome_save _ _ _
            (Store.load_isSome_save _ _ _ hk))

/-- `insert` cannot panic on an ok store with a bounded, closed new leaf;
on success the store invariants and key presence are preserved. -/
theorem insert_ok (fuel : Nat) : ∀ (s : Store) (self0 new_node0 : TreeNode),
    store_ok s = true → node_closed s self0 = true →
    leaf_bound_ok new_node0 = true → node_closed s new_node0 = true →
    COk (insert fuel s self0 new_node0) (fun t =>
      store_ok t.1 = true ∧
      ∀ k, (s.load k).isSome = true → (t.1.load k).isSome = true) := by
  induction fuel with
  | zero =>
      intro s self0 new_node0 hs hc0 hbn hcn
      exact COk_outOfFuel
  | succ fuel ih =>
      intro s self0 new_node0 hs hc0 hbn hcn
      by_cases hint : self0.is_internal = true
      case neg =>
        have hint2 : self0.is_internal = false := by
          revert hint
          cases self0.is_internal <;> simp
        simp only [insert, hint2, Bool.not_false, if_true]
        exact COk_err _
      case pos =>
      by_cases hni2 : new_node0.is_internal = true
      case pos =>
        simp only [insert, hint, hni2, Bool.not_true, Bool.false_eq_true,
          if_false, if_true]
        exact COk_err _
      case neg =>
      have hni : new_node0.is_internal = false := by
        revert hni2
        cases new_node0.is_internal <;> simp
      obtain ⟨nmx, hnmx⟩ := get_max_range_of_bound hbn
      have main : ∀ (nmax : Nat) (self : TreeNode), self.key = self0.key →
          self.left = self0.left → self.right = self0.right →
          self.is_internal = true →
          COk (do
            let maybe_left := self.get_left s
            let maybe_right := self.get_right s
            let is_left_internal := match maybe_left with
              | some l => l.is_internal
              | none => false
            let is_right_internal := match maybe_right with
              | some r => r.is_internal
              | none => false
            let is_in_left_range ← match maybe_left with
              | some l => do
                  let lmax ← l.get_max_range
                  pure (decide (new_node0.get_min_range ≤ lmax))
              | none => pure false
            let is_in_right_range := match maybe_right with
              | some r => decide (r.get_min_range ≤ new_node0.get_min_range)
              | none => false
            if is_left_internal && is_in_left_range then do
              let s := s.save self
              let left ← unwrapCR maybe_left
              let (s, _, new_node) ← insert fuel s left new_node0
              let (s, self) ← rebalance fuel s self
              return (s, self, new_node)
            else if is_right_internal && is_in_right_range then do
              let s := s.save self
              let right ← unwrapCR maybe_right
              let (s, _, new_node) ← insert fuel s right new_node0
              let (s, self) ← rebalance fuel s self
              return (s, self, new_node)
            else if is_right_internal && is_left_internal then do
              let s := s.save self
              let left ← unwrapCR maybe_left
              let (s, _, new_node) ← insert fuel s left new_node0
              let (s, self) ← rebalance fuel s self
              return (s, self, new_node)
            else if maybe_left.isNone then do
              let self := { self with left := some new_node0.key }
              let new_node := { new_node0 with parent := some self.key }
              let s := s.save new_node
              let s := s.save self
              let (s, self) ← rebalance fuel s self
              return (s, self, new_node)
            else do
            let is_lower_than_left_leaf := match maybe_left with
              | some l => !l.is_internal && decide (nmax ≤ l.get_min_range)
              | none => false
            if is_lower_than_left_leaf && maybe_right.isNone then do
              let self := { self with right := self.left, left := some new_node0.key }
              let new_node := { new_node0 with parent := some self.key }
              let s := s.save new_node
              let s := s.save self
              let (s, self) ← rebalance fuel s self
              return (s, self, new_node)
            else if !is_in_left_range && maybe_right.isNone then do
              let self := { self with right := some new_node0.key }
              let new_node := { new_node0 with parent := some self.key }
              let s := s.save new_node
              let s := s.save self
              let (s, self) ← rebalance fuel s self
              return (s, self, new_node)
            else do
            let left_is_leaf := match maybe_left with
              | some l => !l.is_internal
              | none => false
            let right_is_leaf := match maybe_right with
              | some r => !r.is_internal
              | none => false
            let is_higher_than_right_leaf ← match maybe_right with
              | some r =>
                  if !r.is_internal then do
                    let rmax ← r.get_max_range
                    pure (decide (rmax ≤ new_node0.get_min_range))
                  else pure false
              | none => pure false
            if left_is_leaf && !is_higher_than_right_leaf then do
              let left ← unwrapCR maybe_left
              let (s, _, new_node, new_left) ← split s left new_node0
              let self := { self with left := some new_left }
              let s := s.save self
              let (s, self) ← rebalance fuel s self
              return (s, self, new_node)
            else if is_higher_than_right_leaf && maybe_left.isNone then do
              let self := { self with left := self.right, right := some new_node0.key }
              let new_node := { new_node0 with parent := some self.key }
              let s := s.save new_node
              let s := s.save self
              let (s, self) ← rebalance fuel s self
              return (s, self, new_node)
            else if !is_in_left_range && right_is_leaf then do
              let right ← unwrapCR maybe_right
              let (s, _, new_node, new_right) ← split s right new_node0
              let self := { self with right := some new_right }
              let s := s.save self
              let (s, self) ← rebalance fuel s self
              return (s, self, new_node)
            else
              return (s, self, new_node0))
            (fun t => store_ok t.1 = true ∧
              ∀ k, (s.load k).isSome = true → (t.1.load k).isSome = true) := by
        intro nmax self hkey hleft hright hi
        have hbself : leaf_bound_ok self = true := leaf_bound_of_internal hi
        have hcself : node_closed s self = true :=
          node_closed_of_eq hleft hright hc0
        have hcs1 : node_closed (s.save self) self = true := node_closed_save hcself
        have hs1 : store_ok (s.save self) = true := store_ok_save hs hbself hcs1
        have tailA : ∀ child : TreeNode, leaf_bound_ok child = true →
            node_closed s child = true →
            COk ((insert fuel (s.save self) child new_node0).bind fun t =>
                (rebalance fuel t.1 self).bind fun d =>
                  CResult.ok (d.1, d.2, t.2.2))
              (fun t => store_ok t.1 = true ∧
                ∀ k, (s.load k).isSome = true → (t.1.load k).isSome = true) := by
          intro child hbc hcc
          have h1 := ih (s.save self) child new_node0 hs1 (node_closed_save hcc)
            hbn (node_closed_save hcn)
          apply COk_bind h1.1
          intro t ht
          obtain ⟨hok1, hmono1⟩ := h1.2 t ht
          apply COk_bind (rebalance_ok fuel t.1 self hok1).1
          intro d hd
          obtain ⟨hok2, hmono2⟩ := (rebalance_ok fuel t.1 self hok1).2 d.1 d.2 hd
          exact COk_ok _ ⟨hok2, fun k hk =>
            hmono2 _ (hmono1 _ (Store.load_isSome_save _ _ _ hk))⟩
        have tailB : ∀ sv nn : TreeNode, leaf_bound_ok nn = true →
            leaf_bound_ok sv = true →
            node_closed ((s.save nn).save sv) nn = true →
            node_closed ((s.save nn).save sv) sv = true →
            COk ((rebalance fuel ((s.save nn).save sv) sv).bind fun d =>
                CResult.ok (d.1, d.2, nn))
              (fun t => store_ok t.1 = true ∧
                ∀ k, (s.load k).isSome = true → (t.1.load k).isSome = true) := by
          intro sv nn hbnn hbsv hcnn hcsv
          have hs2 : store_ok ((s.save nn).save sv) = true :=
            store_ok_save2 hs hbnn hbsv hcnn hcsv
          apply COk_bind (rebalance_ok fuel _ sv hs2).1
          intro d hd
          obtain ⟨hok2, hmono2⟩ := (rebalance_ok fuel _ sv hs2).2 d.1 d.2 hd
          exact COk_ok _ ⟨hok2, fun k hk => hmono2 _ (Store.load_isSome_save _ _ _
            (Store.load_isSome_save _ _ _ hk))⟩
        cases hml : self.get_left s with
        | none =>
            cases hmr : self.get_right s with
            | none =>
                simp only [CResult.bind_def, CResult.pure_def, CResult.ok_bind, Bool.false_and,
                  Bool.and_false, Bool.false_eq_true, if_false,
                  Option.isNone_none, if_true]
                refine tailB _ _ hbn hbself
                  (node_closed_save (node_closed_save
                    (node_closed_of_eq rfl rfl hcn))) ?_
                apply node_closed_intro
                · intro k hk
                  have hk2 : some new_node0.key = some k := hk
                  cases hk2
                  exact Store.load_isSome_save _ _ _ (load_save_self _ _)
                · intro k hk
                  exact Store.load_isSome_save _ _ _ (Store.load_isSome_save _ _ _
                    (node_closed_right hcself hk))
            | some r =>
                simp only [CResult.bind_def, CResult.pure_def, CResult.ok_bind, Bool.false_and,
                  Bool.and_false, Bool.false_eq_true, if_false]
                by_cases hc2 : (r.is_internal &&
                    decide (r.get_min_range ≤ new_node0.get_min_range)) = true
                · rw [if_pos hc2]
                  obtain ⟨hbr, hcr⟩ := get_right_store_ok hs hmr
                  simp only [CResult.bind_def, unwrapCR, CResult.ok_bind]
                  exact tailA r hbr hcr
                · rw [if_neg hc2]
                  simp only [Option.isNone_none, if_true]
                  refine tailB _ _ hbn hbself
                    (node_closed_save (node_closed_save
                      (node_closed_of_eq rfl rfl hcn))) ?_
                  apply node_closed_intro
                  · intro k hk
                    have hk2 : some new_node0.key = some k := hk
                    cases hk2
                    exact Store.load_isSome_save _ _ _ (load_save_self _ _)
                  · intro k hk
                    exact Store.load_isSome_save _ _ _ (Store.load_isSome_save _ _ _
                      (node_closed_right hcself hk))
        | some l =>
            obtain ⟨hbl, hcl⟩ := get_left_store_ok hs hml
            obtain ⟨lmx, hlmx⟩ := get_max_range_of_bound hbl
            cases hmr : self.get_right s with
            | none =>
                simp only [CResult.bind_def, hlmx, CResult.pure_def, CResult.ok_bind,
                  Bool.false_and, Bool.and_false, Bool.false_eq_true, if_false,
                  Option.isNone_none, Option.isNone_some, Bool.and_true]
                by_cases hc1 : (l.is_internal &&
                    decide (new_node0.get_min_range ≤ lmx)) = true
                · rw [if_pos hc1]
                  simp only [CResult.bind_def, unwrapCR, CResult.ok_bind]
                  exact tailA l hbl hcl
                · rw [if_neg hc1]
                  by_cases hlow : (!l.is_internal && decide (nmax ≤ l.get_min_range)) = true
                  · rw [if_pos hlow]
                    refine tailB _ _ hbn hbself
                      (node_closed_save (node_closed_save
                        (node_closed_of_eq rfl rfl hcn))) ?_
                    apply node_closed_intro
                    · intro k hk
                      have hk2 : some new_node0.key = some k := hk
                      cases hk2
                      exact Store.load_isSome_save _ _ _ (load_save_self _ _)
                    · intro k hk
                      exact Store.load_isSome_save _ _ _ (Store.load_isSome_save _ _ _
                        (node_closed_left hcself hk))
                  · rw [if_neg hlow]
                    by_cases hc3 : (!decide (new_node0.get_min_range ≤ lmx)) = true
                    · rw [if_pos hc3]
                      refine tailB _ _ hbn hbself
                        (node_closed_save (node_closed_save
                          (node_closed_of_eq rfl rfl hcn))) ?_
                      apply node_closed_intro
                      · intro k hk
                        exact Store.load_isSome_save _ _ _ (Store.load_isSome_save _ _ _
                          (node_closed_left hcself hk))
                      · intro k hk
                        have hk2 : some new_node0.key = some k := hk
                        cases hk2
                        exact Store.load_isSome_save _ _ _ (load_save_self _ _)
                    · rw [if_neg hc3]
                      by_cases hc4 : (!l.is_internal) = true
                      · rw [if_pos (by simp [hc4] : (!l.is_internal && !false) = true)]
                        simp only [CResult.bind_def, unwrapCR, CResult.ok_bind]
                        apply COk_bind (split_ok s l new_node0 hs hbl hcl hbn hcn).1
                        intro q hq
                        obtain ⟨qs, qm, qn, qid⟩ := q
                        obtain ⟨hokq, hidq, hmonoq⟩ :=
                          (split_ok s l new_node0 hs hbl hcl hbn hcn).2 _ hq
                        have hcSV : node_closed
                            (qs.save { self with left := some qid })
                            { self with left := some qid } = true := by
                          apply node_closed_intro
                          · intro k hk
                            have hk2 : some qid = some k := hk
                            cases hk2
                            exact Store.load_isSome_save _ _ _ hidq
                          · intro k hk
                            exact Store.load_isSome_save _ _ _
                              (hmonoq _ (node_closed_right hcself hk))
                        have hs2 : store_ok (qs.save { self with left := some qid }) = true :=
                          store_ok_save hokq hbself hcSV
                        apply COk_bind (rebalance_ok fuel _ _ hs2).1
                        intro d hd
                        obtain ⟨hok2, hmono2⟩ := (rebalance_ok fuel _ _ hs2).2 d.1 d.2 hd
                        exact COk_ok _ ⟨hok2, fun k hk => hmono2 _
                          (Store.load_isSome_save _ _ _ (hmonoq _ hk))⟩
                      · rw [if_neg (by simp [hc4] : ¬(!l.is_internal && !false) = true)]
                        exact COk_ok _ ⟨hs, fun k hk => hk⟩
            | some r =>
                obtain ⟨hbr, hcr⟩ := get_right_store_ok hs hmr
                obtain ⟨rmx, hrmx⟩ := get_max_range_of_bound hbr
                simp only [CResult.bind_def, hlmx, CResult.pure_def, CResult.ok_bind,
                  Option.isNone_some, Bool.and_false, Bool.false_eq_true, if_false]
                by_cases hc1 : (l.is_internal &&
                    decide (new_node0.get_min_range ≤ lmx)) = true
                · rw [if_pos hc1]
                  simp only [CResult.bind_def, unwrapCR, CResult.ok_bind]
                  exact tailA l hbl hcl
                · rw [if_neg hc1]
                  by_cases hc2 : (r.is_internal &&
                      decide (r.get_min_range ≤ new_node0.get_min_range)) = true
                  · rw [if_pos hc2]
                    simp only [CResult.bind_def, unwrapCR, CResult.ok_bind]
                    exact tailA r hbr hcr
                  · rw [if_neg hc2]
                    by_cases hc3 : (r.is_internal && l.is_internal) = true
                    · rw [if_pos hc3]
                      simp only [CResult.bind_def, unwrapCR, CResult.ok_bind]
                      exact tailA l hbl hcl
                    · rw [if_neg hc3]
                      by_cases hri : (!r.is_internal) = true
                      · rw [if_pos hri]
                        simp only [CResult.bind_def, hrmx, CResult.pure_def, CResult.ok_bind]
                        by_cases hc4 : (!l.is_internal &&
                            !decide (rmx ≤ new_node0.get_min_range)) = true
                        · rw [if_pos hc4]
                          simp only [CResult.bind_def, unwrapCR, CResult.ok_bind]
                          apply COk_bind (split_ok s l new_node0 hs hbl hcl hbn hcn).1
                          intro q hq
                          obtain ⟨qs, qm, qn, qid⟩ := q
                          obtain ⟨hokq, hidq, hmonoq⟩ :=
                            (split_ok s l new_node0 hs hbl hcl hbn hcn).2 _ hq
                          have hcSV : node_closed
                              (qs.save { self with left := some qid })
                              { self with left := some qid } = true := by
                            apply node_closed_intro
                            · intro k hk
                              have hk2 : some qid = some k := hk
                              cases hk2
                              exact Store.load_isSome_save _ _ _ hidq
                            · intro k hk
                              exact Store.load_isSome_save _ _ _
                                (hmonoq _ (node_closed_right hcself hk))
                          have hs2 : store_ok (qs.save { self with left := some qid }) = true :=
                            store_ok_save hokq hbself hcSV
                          apply COk_bind (rebalance_ok fuel _ _ hs2).1
                          intro d hd
                          obtain ⟨hok2, hmono2⟩ := (rebalance_ok fuel _ _ hs2).2 d.1 d.2 hd
                          exact COk_ok _ ⟨hok2, fun k hk => hmono2 _
                            (Store.load_isSome_save _ _ _ (hmonoq _ hk))⟩
                        · rw [if_neg hc4]
                          by_cases hc5 : (!decide (new_node0.get_min_range ≤ lmx) &&
                              !r.is_internal) = true
                          · rw [if_pos hc5]
                            simp only [CResult.bind_def, unwrapCR, CResult.ok_bind]
                            apply COk_bind (split_ok s r new_node0 hs hbr hcr hbn hcn).1
                            intro q hq
                            obtain ⟨qs, qm, qn, qid⟩ := q
                            obtain ⟨hokq, hidq, hmonoq⟩ :=
                              (split_ok s r new_node0 hs hbr hcr hbn hcn).2 _ hq
                            have hcSV : node_closed
                                (qs.save { self with right := some qid })
                                { self with right := some qid } = true := by
                              apply node_closed_intro
                              · intro k hk
                                exact Store.load_isSome_save _ _ _
                                  (hmonoq _ (node_closed_left hcself hk))
                              · intro k hk
                                have hk2 : some qid = some k := hk
                                cases hk2
                                exact Store.load_isSome_save _ _ _ hidq
                            have hs2 : store_ok (qs.save { self with right := some qid }) = true :=
                              store_ok_save hokq hbself hcSV
                            apply COk_bind (rebalance_ok fuel _ _ hs2).1
                            intro d hd
                            obtain ⟨hok2, hmono2⟩ := (rebalance_ok fuel _ _ hs2).2 d.1 d.2 hd
                            exact COk_ok _ ⟨hok2, fun k hk => hmono2 _
                              (Store.load_isSome_save _ _ _ (hmonoq _ hk))⟩
                          · rw [if_neg hc5]
                            exact COk_ok _ ⟨hs, fun k hk => hk⟩
                      · rw [if_neg hri]
                        simp only [CResult.bind_def, CResult.pure_def, CResult.ok_bind, Bool.not_false,
                          Bool.and_true, Option.isNone_some, Bool.and_false,
                          Bool.false_eq_true, if_false]
                        by_cases hc4 : (!l.is_internal) = true
                        · rw [if_pos hc4]
                          simp only [CResult.bind_def, unwrapCR, CResult.ok_bind]
                          apply COk_bind (split_ok s l new_node0 hs hbl hcl hbn hcn).1
                          intro q hq
                          obtain ⟨qs, qm, qn, qid⟩ := q
                          obtain ⟨hokq, hidq, hmonoq⟩ :=
                            (split_ok s l new_node0 hs hbl hcl hbn hcn).2 _ hq
                          have hcSV : node_closed
                              (qs.save { self with left := some qid })
                              { self with left := some qid } = true := by
                            apply node_closed_intro
                            · intro k hk
                              have hk2 : some qid = some k := hk
                              cases hk2
                              exact Store.load_isSome_save _ _ _ hidq
                            · intro k hk
                              exact Store.load_isSome_save _ _ _
                                (hmonoq _ (node_closed_right hcself hk))
                          have hs2 : store_ok (qs.save { self with left := some qid }) = true :=
                            store_ok_save hokq hbself hcSV
                          apply COk_bind (rebalance_ok fuel _ _ hs2).1
                          intro d hd
                          obtain ⟨hok2, hmono2⟩ := (rebalance_ok fuel _ _ hs2).2 d.1 d.2 hd
                          exact COk_ok _ ⟨hok2, fun k hk => hmono2 _
                            (Store.load_isSome_save _ _ _ (hmonoq _ hk))⟩
                        · rw [if_neg hc4]
                          by_cases hc5 : (!decide (new_node0.get_min_range ≤ lmx) &&
                              !r.is_internal) = true
                          · rw [if_pos hc5]
                            simp only [CResult.bind_def, unwrapCR, CResult.ok_bind]
                            apply COk_bind (split_ok s r new_node0 hs hbr hcr hbn hcn).1
                            intro q hq
                            obtain ⟨qs, qm, qn, qid⟩ := q
                            obtain ⟨hokq, hidq, hmonoq⟩ :=
                              (split_ok s r new_node0 hs hbr hcr hbn hcn).2 _ hq
                            have hcSV : node_closed
                                (qs.save { self with right := some qid })
                                { self with right := some qid } = true := by
                              apply node_closed_intro
                              · intro k hk
                                exact Store.load_isSome_save _ _ _
                                  (hmonoq _ (node_closed_left hcself hk))
                              · intro k hk
                                have hk2 : some qid = some k := hk
                                cases hk2
                                exact Store.load_isSome_save _ _ _ hidq
                            have hs2 : store_ok (qs.save { self with right := some qid }) = true :=
                              store_ok_save hokq hbself hcSV
                            apply COk_bind (rebalance_ok fuel _ _ hs2).1
                            intro d hd
                            obtain ⟨hok2, hmono2⟩ := (rebalance_ok fuel _ _ hs2).2 d.1 d.2 hd
                            exact COk_ok _ ⟨hok2, fun k hk => hmono2 _
                              (Store.load_isSome_save _ _ _ (hmonoq _ hk))⟩
                          · rw [if_neg hc5]
                            exact COk_ok _ ⟨hs, fun k hk => hk⟩
      simp only [insert, hint, hni, Bool.not_true, Bool.false_eq_true, if_false,
        CResult.bind_def]
      apply COk_bind (add_value_shape hint _).1
      intro selfA hA
      obtain ⟨hkA, hlA, hrA, hpA, hiA⟩ := (add_value_shape hint _).2 selfA hA
      by_cases hmin : new_node0.get_min_range < selfA.get_min_range
      · rw [if_pos hmin]
        apply COk_bind (set_min_shape hiA _).1
        intro selfB hB
        obtain ⟨hkB, hlB, hrB, hpB, hiB⟩ := (set_min_shape hiA _).2 selfB hB
        obtain ⟨smx, hsmx⟩ := get_max_range_of_bound (leaf_bound_of_internal hiB)
        simp only [hsmx, CResult.ok_bind, hnmx]
        by_cases hmax : smx < nmx
        · rw [if_pos hmax]
          apply COk_bind (set_max_shape hiB _).1
          intro selfC hC
          obtain ⟨hkC, hlC, hrC, hpC, hiC⟩ := (set_max_shape hiB _).2 selfC hC
          apply COk_bind (set_weight_shape hiC _).1
          intro self hS
          obtain ⟨hkS, hlS, hrS, hpS, hi⟩ := (set_weight_shape hiC _).2 self hS
          exact main nmx self (by rw [hkS, hkC, hkB, hkA])
            (by rw [hlS, hlC, hlB, hlA]) (by rw [hrS, hrC, hrB, hrA]) hi
        · rw [if_neg hmax]
          apply COk_bind (set_weight_shape hiB _).1
          intro self hS
          obtain ⟨hkS, hlS, hrS, hpS, hi⟩ := (set_weight_shape hiB _).2 self hS
          exact main nmx self (by rw [hkS, hkB, hkA])
            (by rw [hlS, hlB, hlA]) (by rw [hrS, hrB, hrA]) hi
      · rw [if_neg hmin]
        simp only [CResult.ok_bind]
        obtain ⟨smx, hsmx⟩ := get_max_range_of_bound (leaf_bound_of_internal hiA)
        simp only [hsmx, CResult.ok_bind, hnmx]
        by_cases hmax : smx < nmx
        · rw [if_pos hmax]
          apply COk_bind (set_max_shape hiA _).1
          intro selfC hC
          obtain ⟨hkC, hlC, hrC, hpC, hiC⟩ := (set_max_shape hiA _).2 selfC hC
          apply COk_bind (set_weight_shape hiC _).1
          intro self hS
          obtain ⟨hkS, hlS, hrS, hpS, hi⟩ := (set_weight_shape hiC _).2 self hS
          exact main nmx self (by rw [hkS, hkC, hkA])
            (by rw [hlS, hlC, hlA]) (by rw [hrS, hrC, hrA]) hi
        · rw [if_neg hmax]
          apply COk_bind (set_weight_shape hiA _).1
          intro self hS
          obtain ⟨hkS, hlS, hrS, hpS, hi⟩ := (set_weight_shape hiA _).2 self hS
          exact main nmx self (by rw [hkS, hkA])
            (by rw [hlS, hlA]) (by rw [hrS, hrA]) hi

/-- A stored leaf whose `etas + value` overflows `Uint128`, under an
internal root pointing at it. -/
def c9_bad_leaf : TreeNode :=
  { key := 2, book_id := 1, tick_id := 1, left := none, right := none,
    parent := some 1, node_type := NodeType.leaf 1 U128_MAX }

/-- Internal root over the overflowing leaf. -/
def c9_bad_root : TreeNode :=
  { key := 1, book_id := 1, tick_id := 1, left := some 2, right := none,
    parent := none, node_type := NodeType.internal 1 (U128_MAX, U128_MAX) 1 }

/-- Store holding the overflowing leaf. -/
def c9_bad_store : Store :=
  { nodes := [(1, c9_bad_root), (2, c9_bad_leaf)], root := some 1, counter := 2 }

/-- A fresh bounded leaf to insert. -/
def c9_new_leaf : TreeNode :=
  { key := 3, book_id := 1, tick_id := 1, left := none, right := none,
    parent := none, node_type := NodeType.leaf 1 5 }

/-- A bounded stored leaf. -/
def c9_ok_leaf : TreeNode :=
  { key := 2, book_id := 1, tick_id := 1, left := none, right := none,
    parent := some 1, node_type := NodeType.leaf 1 5 }

/-- Internal root over the bounded leaf. -/
def c9_ok_root : TreeNode :=
  { key := 1, book_id := 1, tick_id := 1, left := some 2, right := none,
    parent := none, node_type := NodeType.internal 1 (5, 6) 1 }

/-- Store satisfying the leaf-bound precondition. -/
def c9_ok_store : Store :=
  { nodes := [(1, c9_ok_root), (2, c9_ok_leaf)], root := some 1, counter := 2 }

/-- C9: on every leaf with `etas + value` above `Uint128::MAX`,
`get_max_range` panics (an unwrapped checked addition) rather than
erroring; consequently `insert`, the prefix-sum walk and
`sync_range_and_value` panic when they read the max range of such a leaf
(shown on the concrete store `c9_bad_store`); and all three operations are
panic-free under the precondition `store_ok` — every stored node satisfies
the leaf bound `etas + value ≤ Uint128::MAX` and has resolvable child
pointers — together with the same bounds on the operands. -/
theorem get_max_range_unwrap_c9 :
    (∀ (n : TreeNode) (v e : Nat), n.node_type = NodeType.leaf v e →
        U128_MAX < e + v → n.get_max_range = CResult.panicked) ∧
    insert 9 c9_bad_store c9_bad_root c9_new_leaf = CResult.panicked ∧
    prefix_sum_walk 9 c9_bad_store c9_bad_leaf 1 ((U128_MAX : Nat) : ℚ) =
      CResult.panicked ∧
    sync_range_and_value 9 c9_bad_store c9_bad_root = CResult.panicked ∧
    (∀ fuel s self0 new_node0, store_ok s = true →
        node_closed s self0 = true → leaf_bound_ok new_node0 = true →
        node_closed s new_node0 = true →
        insert fuel s self0 new_node0 ≠ CResult.panicked) ∧
    (∀ fuel s n cs t, store_ok s = true → leaf_bound_ok n = true →
        prefix_sum_walk fuel s n cs t ≠ CResult.panicked) ∧
    (∀ fuel s m, store_ok s = true → node_closed s m = true →
        sync_range_and_value fuel s m ≠ CResult.panicked) := by
  refine ⟨fun n v e hnt h => get_max_range_panics hnt h, ?_, ?_, ?_,
    fun fuel s self0 n0 hs hc0 hbn hcn => (insert_ok fuel s self0 n0 hs hc0 hbn hcn).1,
    prefix_sum_walk_no_panic,
    fun fuel s m hs hc => (sync_range_and_value_ok fuel s m hs hc).1⟩
  · rfl
  · rfl
  · rfl

/-- Witness: the overflowing-leaf panic and the panic-freedom conjuncts of
the C9 theorem, instantiated at concrete stores. -/
theorem get_max_range_unwrap_c9_witness :
    c9_bad_leaf.get_max_range = CResult.panicked ∧
    insert 9 c9_ok_store c9_ok_root c9_new_leaf ≠ CResult.panicked ∧
    prefix_sum_walk 9 c9_ok_store c9_ok_root 1 (3 : ℚ) ≠ CResult.panicked ∧
    sync_range_and_value 9 c9_ok_store c9_ok_root ≠ CResult.panicked :=
  ⟨get_max_range_unwrap_c9.1 c9_bad_leaf 1 U128_MAX rfl (by decide),
   get_max_range_unwrap_c9.2.2.2.2.1 9 c9_ok_store c9_ok_root c9_new_leaf
     (by decide) (by decide) (by decide) (by decide),
   get_max_range_unwrap_c9.2.2.2.2.2.1 9 c9_ok_store c9_ok_root 1 3
     (by decide) (by decide),
   get_max_range_unwrap_c9.2.2.2.2.2.2 9 c9_ok_store c9_ok_root
     (by decide) (by decide)⟩

/-- Removing a key really removes it from the association list. -/
theorem Store.load_remove_self (s : Store) (k : Nat) :
    (s.remove k).load k = none := by
  show (((s.nodes.filter _).find? _).map Prod.snd) = none
  rw [Option.map_eq_none', List.find?_eq_none]
  intro x hx
  have hne := List.of_mem_filter hx
  simp only [ne_eq, decide_not, Bool.not_eq_eq_eq_not, Bool.not_true,
    decide_eq_false_iff_not] at hne
  simpa using hne

/-- Left leaf of the two-child C6 example tree. -/
def c6_leaf2 : TreeNode :=
  { key := 2, book_id := 1, tick_id := 1, left := none, right := none,
    parent := some 1, node_type := NodeType.leaf 1 5 }

/-- Right leaf of the two-child C6 example tree. -/
def c6_leaf3 : TreeNode :=
  { key := 3, book_id := 1, tick_id := 1, left := none, right := none,
    parent := some 1, node_type := NodeType.leaf 1 10 }

/-- Root of the two-child C6 example tree. -/
def c6_root : TreeNode :=
  { key := 1, book_id := 1, tick_id := 1, left := some 2, right := some 3,
    parent := none, node_type := NodeType.internal 2 (5, 11) 2 }

/-- Store with an internal root over two leaves. -/
def c6_store : Store :=
  { nodes := [(1, c6_root), (2, c6_leaf2), (3, c6_leaf3)], root := some 1,
    counter := 3 }

/-- A parentless leaf. -/
def c6_lone_leaf : TreeNode :=
  { key := 2, book_id := 1, tick_id := 1, left := none, right := none,
    parent := none, node_type := NodeType.leaf 1 5 }

/-- Store holding only the parentless leaf. -/
def c6_lone_store : Store :=
  { nodes := [(2, c6_lone_leaf)], root := some 2, counter := 2 }

/-- Root with a single left child, for the pruning example. -/
def c6_chain_root : TreeNode :=
  { key := 1, book_id := 1, tick_id := 1, left := some 2, right := none,
    parent := none, node_type := NodeType.internal 1 (5, 6) 1 }

/-- Store with a root whose only child is the leaf to delete. -/
def c6_chain_store : Store :=
  { nodes := [(1, c6_chain_root), (2, c6_leaf2)], root := some 1, counter := 2 }

/-- C6: `delete` on a node removes its key from storage; a detached
ancestor with no remaining children is recursively deleted; an ancestor
that keeps a child is resynced via `sync_range_and_value` instead; and the
resync recomputes the accumulator as the sum of the children's values, the
range as (minimum of child minimums, maximum of child maximums) and the
weight as the sum of the child weights (a missing child contributing
nothing, shown for the two-children, left-only and right-only shapes),
saves the node, and recurses on the parent, propagating the updates to
the root. -/
theorem delete_resync_c6 :
    (∀ fuel (s : Store) (self : TreeNode) (s' : Store),
        delete fuel s self = CResult.ok s' → s'.load self.key = none) ∧
    (∀ fuel (s : Store) (self : TreeNode), self.get_parent s = none →
        delete (fuel + 1) s self = CResult.ok (s.remove self.key)) ∧
    (∀ fuel (s : Store) (self p parent : TreeNode), self.get_parent s = some p →
        parent = (if p.left = some self.key then { p with left := none }
          else if p.right = some self.key then { p with right := none } else p) →
        parent.has_child = false →
        delete (fuel + 1) s self =
          CResult.bind (delete fuel s parent)
            (fun s2 => CResult.ok (s2.remove self.key))) ∧
    (∀ fuel (s : Store) (self p parent : TreeNode), self.get_parent s = some p →
        parent = (if p.left = some self.key then { p with left := none }
          else if p.right = some self.key then { p with right := none } else p) →
        parent.has_child = true →
        delete (fuel + 1) s self =
          CResult.bind (sync_range_and_value fuel s parent)
            (fun sp => CResult.ok (sp.1.remove self.key))) ∧
    (∀ fuel (s : Store) (m l r : TreeNode) (lmax rmax v : Nat),
        m.is_internal = true →
        m.get_left s = some l → m.get_right s = some r →
        l.get_max_range = CResult.ok lmax → r.get_max_range = CResult.ok rmax →
        checked_add_u128 l.get_value r.get_value = some v →
        v = l.get_value + r.get_value ∧
        sync_range_and_value (fuel + 1) s m =
          (match { m with node_type := NodeType.internal v (min l.get_min_range r.get_min_range, max lmax rmax) (l.get_weight + r.get_weight) }.get_parent
              (s.save { m with node_type := NodeType.internal v (min l.get_min_range r.get_min_range, max lmax rmax) (l.get_weight + r.get_weight) }) with
           | some parent =>
               CResult.bind (sync_range_and_value fuel
                   (s.save { m with node_type := NodeType.internal v (min l.get_min_range r.get_min_range, max lmax rmax) (l.get_weight + r.get_weight) }) parent)
                 (fun sp => CResult.ok (sp.1,
                   { m with node_type := NodeType.internal v (min l.get_min_range r.get_min_range, max lmax rmax) (l.get_weight + r.get_weight) }))
           | none => CResult.ok
               (s.save { m with node_type := NodeType.internal v (min l.get_min_range r.get_min_range, max lmax rmax) (l.get_weight + r.get_weight) },
                { m with node_type := NodeType.internal v (min l.get_min_range r.get_min_range, max lmax rmax) (l.get_weight + r.get_weight) }))) ∧
    (∀ fuel (s : Store) (m l : TreeNode) (lmax v : Nat),
        m.is_internal = true →
        m.get_left s = some l → m.get_right s = none →
        l.get_max_range = CResult.ok lmax →
        checked_add_u128 l.get_value 0 = some v →
        v = l.get_value ∧
        sync_range_and_value (fuel + 1) s m =
          (match { m with node_type := NodeType.internal v (l.get_min_range, lmax) (l.get_weight + 0) }.get_parent
              (s.save { m with node_type := NodeType.internal v (l.get_min_range, lmax) (l.get_weight + 0) }) with
           | some parent =>
               CResult.bind (sync_range_and_value fuel
                   (s.save { m with node_type := NodeType.internal v (l.get_min_range, lmax) (l.get_weight + 0) }) parent)
                 (fun sp => CResult.ok (sp.1,
                   { m with node_type := NodeType.internal v (l.get_min_range, lmax) (l.get_weight + 0) }))
           | none => CResult.ok
               (s.save { m with node_type := NodeType.internal v (l.get_min_range, lmax) (l.get_weight + 0) },
                { m with node_type := NodeType.internal v (l.get_min_range, lmax) (l.get_weight + 0) }))) ∧
    (∀ fuel (s : Store) (m r : TreeNode) (rmax v : Nat),
        m.is_internal = true →
        m.get_left s = none → m.get_right s = some r →
        r.get_max_range = CResult.ok rmax →
        checked_add_u128 0 r.get_value = some v →
        v = r.get_value ∧
        sync_range_and_value (fuel + 1) s m =
          (match { m with node_type := NodeType.internal v (r.get_min_range, rmax) (0 + r.get_weight) }.get_parent
              (s.save { m with node_type := NodeType.internal v (r.get_min_range, rmax) (0 + r.get_weight) }) with
           | some parent =>
               CResult.bind (sync_range_and_value fuel
                   (s.save { m with node_type := NodeType.internal v (r.get_min_range, rmax) (0 + r.get_weight) }) parent)
                 (fun sp => CResult.ok (sp.1,
                   { m with node_type := NodeType.internal v (r.get_min_range, rmax) (0 + r.get_weight) }))
           | none => CResult.ok
               (s.save { m with node_type := NodeType.internal v (r.get_min_range, rmax) (0 + r.get_weight) },
                { m with node_type := NodeType.internal v (r.get_min_range, rmax) (0 + r.get_weight) }))) := by
  refine ⟨?_, ?_, ?_, ?_, ?_, ?_, ?_⟩
  · intro fuel s self s' h
    cases fuel with
    | zero => simp [delete] at h
    | succ f =>
        simp only [delete, CResult.bind_def, CResult.pure_def] at h
        cases hgp : self.get_parent s with
        | none =>
            rw [hgp] at h
            simp only [CResult.ok_bind, CResult.ok.injEq] at h
            subst h
            exact Store.load_remove_self s self.key
        | some p0 =>
            rw [hgp] at h
            simp only [] at h
            by_cases hch : (!(if p0.left = some self.key then { p0 with left := none }
                else if p0.right = some self.key then { p0 with right := none }
                else p0).has_child) = true
            · rw [if_pos hch] at h
              obtain ⟨s2, hmid, h2⟩ := CResult.bind_ok_iff.mp h
              injection h2 with h3
              exact h3 ▸ Store.load_remove_self s2 self.key
            · rw [if_neg hch] at h
              obtain ⟨sp, hmid, h2⟩ := CResult.bind_ok_iff.mp h
              simp only [CResult.ok_bind] at h2
              injection h2 with h3
              exact h3 ▸ Store.load_remove_self sp.1 self.key
  · intro fuel s self hp
    simp only [delete, hp, CResult.bind_def, CResult.pure_def, CResult.ok_bind]
  · intro fuel s self p parent hp hpar hchild
    subst hpar
    simp only [delete, hp, hchild, Bool.not_false, if_true, CResult.bind_def,
      CResult.pure_def]
  · intro fuel s self p parent hp hpar hchild
    subst hpar
    simp only [delete, hp, hchild, Bool.not_true, Bool.false_eq_true, if_false,
      CResult.bind_def, CResult.pure_def]
    cases hsy : sync_range_and_value fuel s
        (if p.left = some self.key then { p with left := none }
         else if p.right = some self.key then { p with right := none } else p) <;>
      simp [CResult.bind]
  · intro fuel s m l r lmax rmax v hint hl hr hlm hrm hv
    have hml : ∃ k, m.left = some k := by
      cases hk : m.left with
      | none => simp [TreeNode.get_left, hk] at hl
      | some k => exact ⟨k, rfl⟩
    obtain ⟨lk, hlk⟩ := hml
    have hchild : m.has_child = true := by
      simp [TreeNode.has_child, hlk]
    constructor
    · simp only [checked_add_u128] at hv
      split at hv
      · injection hv with h2
        omega
      · cases hv
    · cases hnt : m.node_type with
      | leaf a b => simp [TreeNode.is_internal, hnt] at hint
      | internal acc rng w =>
          simp only [sync_range_and_value, hint, Bool.not_true,
            Bool.false_eq_true, if_false, hchild, if_true, hl, hr, hlm, hrm,
            CResult.ok_bind, CResult.bind_def, CResult.pure_def,
            checked_add_cr, hv, TreeNode.set_min_range, hnt,
            TreeNode.set_max_range, TreeNode.set_value, TreeNode.set_weight]
  · intro fuel s m l lmax v hint hl hr hlm hv
    have hml : ∃ k, m.left = some k := by
      cases hk : m.left with
      | none => simp [TreeNode.get_left, hk] at hl
      | some k => exact ⟨k, rfl⟩
    obtain ⟨lk, hlk⟩ := hml
    have hchild : m.has_child = true := by
      simp [TreeNode.has_child, hlk]
    constructor
    · simp only [checked_add_u128] at hv
      split at hv
      · injection hv with h2
        omega
      · cases hv
    · cases hnt : m.node_type with
      | leaf a b => simp [TreeNode.is_internal, hnt] at hint
      | internal acc rng w =>
          simp only [sync_range_and_value, hint, Bool.not_true,
            Bool.false_eq_true, if_false, hchild, if_true, hl, hr, hlm,
            CResult.ok_bind, CResult.bind_def, CResult.pure_def,
            checked_add_cr, hv, TreeNode.set_min_range, hnt,
            TreeNode.set_max_range, TreeNode.set_value, TreeNode.set_weight]
  · intro fuel s m r rmax v hint hl hr hrm hv
    have hmr : ∃ k, m.right = some k := by
      cases hk : m.right with
      | none => simp [TreeNode.get_right, hk] at hr
      | some k => exact ⟨k, rfl⟩
    obtain ⟨rk, hrk⟩ := hmr
    have hchild : m.has_child = true := by
      simp [TreeNode.has_child, hrk]
    constructor
    · simp only [checked_add_u128] at hv
      split at hv
      · injection hv with h2
        omega
      · cases hv
    · cases hnt : m.node_type with
      | leaf a b => simp [TreeNode.is_internal, hnt] at hint
      | internal acc rng w =>
          simp only [sync_range_and_value, hint, Bool.not_true,
            Bool.false_eq_true, if_false, hchild, if_true, hl, hr, hrm,
            CResult.ok_bind, CResult.bind_def, CResult.pure_def,
            checked_add_cr, hv, TreeNode.set_min_range, hnt,
            TreeNode.set_max_range, TreeNode.set_value, TreeNode.set_weight]

/-- Witness: the C6 conjuncts instantiated at concrete stores — removing a
parentless leaf, pruning a childless detached root, resyncing a surviving
root, and the resync value equations for the two-children and left-only
shapes plus the right-only shape of the detached surviving root itself. -/
theorem delete_resync_c6_witness :
    ((c6_lone_store.remove c6_lone_leaf.key).load c6_lone_leaf.key = none) ∧
    (delete 1 c6_lone_store c6_lone_leaf =
      CResult.ok (c6_lone_store.remove c6_lone_leaf.key)) ∧
    (delete 2 c6_chain_store c6_leaf2 =
      CResult.bind (delete 1 c6_chain_store { c6_chain_root with left := none })
        (fun s2 => CResult.ok (s2.remove c6_leaf2.key))) ∧
    (delete 2 c6_store c6_leaf2 =
      CResult.bind (sync_range_and_value 1 c6_store { c6_root with left := none })
        (fun sp => CResult.ok (sp.1.remove c6_leaf2.key))) ∧
    (2 : Nat) = c6_leaf2.get_value + c6_leaf3.get_value ∧
    (1 : Nat) = c6_leaf2.get_value ∧
    (1 : Nat) = c6_leaf3.get_value :=
  ⟨delete_resync_c6.1 1 c6_lone_store c6_lone_leaf _
     (delete_resync_c6.2.1 0 c6_lone_store c6_lone_leaf rfl),
   delete_resync_c6.2.1 0 c6_lone_store c6_lone_leaf rfl,
   delete_resync_c6.2.2.1 1 c6_chain_store c6_leaf2 c6_chain_root _ rfl rfl rfl,
   delete_resync_c6.2.2.2.1 1 c6_store c6_leaf2 c6_root _ rfl rfl rfl,
   (delete_resync_c6.2.2.2.2.1 3 c6_store c6_root c6_leaf2 c6_leaf3 6 11 2
     rfl rfl rfl rfl rfl rfl).1,
   (delete_resync_c6.2.2.2.2.2.1 2 c6_chain_store c6_chain_root c6_leaf2 6 1
     rfl rfl rfl rfl rfl).1,
   (delete_resync_c6.2.2.2.2.2.2 1 c6_store { c6_root with left := none }
     c6_leaf3 11 1 rfl rfl rfl rfl rfl).1⟩

end Orderbook
